import Mathlib

/-!
# cfxnes mappers: bank windows and the MMC3 scanline counter

A shallow embedding of `core/src/mappers/AbstractMapper.js` and
`lib/core/mappers/mmc3-mapper.js`.

Modelling conventions.

* A JavaScript number that holds an integer is an `Int`.  This is exact for
  every integer of magnitude up to `2^53`; the bitwise operators first take
  their operands to 32 bits (`ToInt32` / `ToUint32`), which is written out
  below.  The operators on naturals that they use (`natAnd`, `natOr`, `natDiv`,
  `natToInt32`) are the usual ones, stated by cases on the first operand so
  that they unfold only once that operand is a numeral.
* A method that calls a collaborator (`cpuMemory`, `ppuMemory`, `cpu`) returns
  the list of calls it makes, in order.  A method that also assigns fields of
  `this` returns the new mapper together with that list.
* A RAM buffer is the list of its bytes (`UInt8`), `none` while it is
  `undefined`.  A method that can raise returns `Except JsError`.  The helpers
  `zeroArray` and `copyArray` of `utils/array`, which the sources call and do not
  contain, are modelled from the spec.
* `mmc3-mapper.js` extends a base class `./abstract-mapper` of which the
  repository holds the revision `AbstractMapper.js`; the bank mapping methods
  are taken from that file.  The flag `hasCHRRAM` read by the MMC3 mapper is a
  field of the mapper record.
-/

namespace Cfxnes

/-! ## JavaScript 32-bit integer operators -/

/-- The abstract operation `ToUint32` on an integer: its residue modulo `2^32`. -/
def toUint32 (x : Int) : Nat := (x % 4294967296).toNat

/-- The abstract operation `ToInt32` on an integer: the residue modulo `2^32`
read as a two's-complement value in `-2^31 .. 2^31 - 1`. -/
def toInt32 (x : Int) : Int :=
  let u := x % 4294967296
  if u < 2147483648 then u else u - 4294967296

/-- Bitwise and of two naturals, `a &&& b`.  The match on the first operand
makes the operator wait for that operand before it unfolds. -/
def natAnd : Nat → Nat → Nat
  | 0, _ => 0
  | a + 1, b => (a + 1) &&& b

/-- Bitwise or of two naturals, `a ||| b`, waiting for its first operand. -/
def natOr : Nat → Nat → Nat
  | 0, b => b
  | a + 1, b => (a + 1) ||| b

/-- The quotient `a / b` of two naturals, waiting for its first operand. -/
def natDiv : Nat → Nat → Nat
  | 0, _ => 0
  | a + 1, b => (a + 1) / b

/-- The operation `ToInt32` on a natural number, waiting for its operand. -/
def natToInt32 : Nat → Int
  | 0 => 0
  | n + 1 => toInt32 ((n + 1 : Nat) : Int)

/-- The operator `a & b`. -/
def jsAnd (a b : Int) : Int := natToInt32 (natAnd (toUint32 a) (toUint32 b))

/-- The operator `a | b`. -/
def jsOr (a b : Int) : Int := natToInt32 (natOr (toUint32 a) (toUint32 b))

/-- The operator `~a`: all 32 bits flipped. -/
def jsNot (a : Int) : Int := natToInt32 (4294967295 - toUint32 a)

/-- The operator `a >> n` (sign-propagating); the shift count is taken modulo 32. -/
def jsShr (a : Int) (n : Nat) : Int := toInt32 a / 2 ^ (n % 32)

/-- The operator `a >>> n` (zero-fill); the shift count is taken modulo 32. -/
def jsUshr (a : Int) (n : Nat) : Int := ((natDiv (toUint32 a) (2 ^ (n % 32)) : Nat) : Int)

/-! ## Typed arrays -/

/-- The exceptions that the modelled code can raise. -/
inductive JsError where
  /-- A `RangeError`, raised by `new Uint8Array(length)` for a negative length. -/
  | RangeError
  /-- A `TypeError`, raised by a property access on `undefined`. -/
  | TypeError
  deriving DecidableEq, Repr

deriving instance DecidableEq for Except

/-- `new Uint8Array(length)` for an integer `length`: that many zero bytes. -/
def newUint8Array (length : Int) : Except JsError (List UInt8) :=
  if length < 0 then Except.error JsError.RangeError
  else Except.ok (List.replicate length.toNat 0)

/-- The index that `subarray` makes of a relative position: a negative position
counts from the end, and the result is clamped to `0 .. length`. -/
def clampIndex (length : Nat) (position : Int) : Nat :=
  if position < 0 then ((length : Int) + position).toNat else min position.toNat length

/-- `array.subarray(begin, end)`: the bytes of the view it returns. -/
def subarray (array : List UInt8) (begin stop : Int) : List UInt8 :=
  (array.drop (clampIndex array.length begin)).take
    (clampIndex array.length stop - clampIndex array.length begin)

/-- Modelled from the spec: `zeroArray(array, start)` of `utils/array`, a module
that is not among the sources.  `powerUp()` "zeroes `prgRAM`/`chrRAM` except
their battery-backed prefixes" with it: the bytes below `start` are kept and
every byte from `start` on becomes 0. -/
def zeroArray (array : List UInt8) (start : Int) : List UInt8 :=
  array.take start.toNat ++ List.replicate (array.length - start.toNat) 0

/-- Modelled from the spec: `copyArray(src, dst, srcPos, dstPos, length)` of
`utils/array`, a module that is not among the sources.  `setNVRAM(data)` "copies
`min(len(data), batterySize)` bytes into the battery-backed prefix" with it,
"truncates silently if the supplied blob is larger, and does not zero-fill if
smaller": the bytes of `src` from `srcPos` go to `dst` from `dstPos`, as many as
`length`, the rest of `src` and the room in `dst` allow, and the other bytes of
`dst` stay. -/
def copyArray (src dst : List UInt8) (srcPos dstPos length : Int) : List UInt8 :=
  let n := min (min length.toNat (src.length - srcPos.toNat)) (dst.length - dstPos.toNat)
  dst.take dstPos.toNat ++ (src.drop srcPos.toNat).take n ++ dst.drop (dstPos.toNat + n)

/-! ## Collaborators -/

/-- Modelled from the spec: the mirroring modes of `common/Mirroring`, a module
that is not among the sources: horizontal, vertical, four-screen and
single-screen with an area. -/
inductive Mirroring where
  | HORIZONTAL
  | VERTICAL
  | FOUR_SCREEN
  | SINGLE_SCREEN (area : Int)
  deriving DecidableEq, Repr

/-- The interrupt lines of `common/types` that the mapper drives. -/
inductive Interrupt where
  | IRQ_EXT
  deriving DecidableEq, Repr

/-- One call made on a collaborator. -/
inductive Call where
  /-- The call `cpuMemory.mapPRGROMBank(srcBank, dstBank)`. -/
  | mapPRGROMBank (srcBank dstBank : Int)
  /-- The call `cpuMemory.mapPRGRAMBank(srcBank, dstBank)`. -/
  | mapPRGRAMBank (srcBank dstBank : Int)
  /-- The call `ppuMemory.mapPatternsBank(srcBank, dstBank)`. -/
  | mapPatternsBank (srcBank dstBank : Int)
  /-- The call `ppuMemory.setNamesAttrsMirroring(mirroring)`. -/
  | setNamesAttrsMirroring (mirroring : Mirroring)
  /-- The call `ppuMemory.mapNamesAttrsAreas([area0, area1, area2, area3])`. -/
  | mapNamesAttrsAreas (area0 area1 area2 area3 : Int)
  /-- The call `cpu.activateInterrupt(irq)`. -/
  | activateInterrupt (irq : Interrupt)
  /-- The call `cpu.clearInterrupt(irq)`. -/
  | clearInterrupt (irq : Interrupt)
  deriving DecidableEq, Repr

/-! ## Counted loops -/

/-- The iterations of `for (let i = start; i < count; i++) body(i)` that fit in
`fuel` steps. -/
def forCountFrom {α : Type} (count : Int) (body : Int → α) : Nat → Int → List α
  | 0, _ => []
  | fuel + 1, i => if i < count then body i :: forCountFrom count body fuel (i + 1) else []

/-- The loop `for (let i = 0; i < count; i++) body(i)`: the values of `body` in
the order of the iterations.  The loop makes `count` iterations when `count` is
positive and none otherwise, so `count.toNat` steps always reach its end. -/
def forCount {α : Type} (count : Int) (body : Int → α) : List α :=
  forCountFrom count body count.toNat 0

/-! ## AbstractMapper -/

/-- The cartridge descriptor: the fields that `init` copies and a modelled
method reads. -/
structure Cartridge where
  mirroring : Mirroring
  prgROMSize : Int
  prgRAMSize : Int
  prgRAMSizeBattery : Int
  chrROMSize : Int
  chrRAMSize : Int
  chrRAMSizeBattery : Int
  deriving DecidableEq, Repr

/-- The fields of the base mapper that `init` copies from the cartridge and the
bank mapping methods read, and the two RAM buffers `prgRAM` and `chrRAM`, which
are `undefined` (`none`) until `initPRGRAM` and `initCHRRAM` allocate them. -/
structure AbstractMapper where
  mirroring : Mirroring
  prgROMSize : Int
  prgRAMSize : Int
  prgRAMSizeBattery : Int
  chrROMSize : Int
  chrRAMSize : Int
  chrRAMSizeBattery : Int
  prgRAM : Option (List UInt8) := none
  chrRAM : Option (List UInt8) := none
  deriving DecidableEq, Repr

namespace AbstractMapper

/-- `init(cartridge)`. -/
def init (cartridge : Cartridge) : AbstractMapper :=
  { mirroring := cartridge.mirroring
    prgROMSize := cartridge.prgROMSize
    prgRAMSize := cartridge.prgRAMSize
    prgRAMSizeBattery := cartridge.prgRAMSizeBattery
    chrROMSize := cartridge.chrROMSize
    chrRAMSize := cartridge.chrRAMSize
    chrRAMSizeBattery := cartridge.chrRAMSizeBattery
    prgRAM := none
    chrRAM := none }

/-- `initPRGRAM()`. -/
def initPRGRAM (m : AbstractMapper) : Except JsError AbstractMapper :=
  if m.prgRAMSize ≠ 0 then
    match newUint8Array m.prgRAMSize with
    | Except.ok ram => Except.ok { m with prgRAM := some ram }
    | Except.error e => Except.error e
  else Except.ok m

/-- `initCHRRAM()`. -/
def initCHRRAM (m : AbstractMapper) : Except JsError AbstractMapper :=
  if m.chrRAMSize ≠ 0 then
    match newUint8Array m.chrRAMSize with
    | Except.ok ram => Except.ok { m with chrRAM := some ram }
    | Except.error e => Except.error e
  else Except.ok m

/-- The constructor `new AbstractMapper(cartridge)`: `init`, `initPRGRAM`,
`initCHRRAM`; the two `print...Info` calls only write to the log. -/
def new (cartridge : Cartridge) : Except JsError AbstractMapper :=
  match (init cartridge).initPRGRAM with
  | Except.ok m => m.initCHRRAM
  | Except.error e => Except.error e

/-- `reset()` of the base mapper: an empty body, for a mapper to implement. -/
def reset (m : AbstractMapper) : AbstractMapper × List Call := (m, [])

/-- `resetPRGRAM()`. -/
def resetPRGRAM (m : AbstractMapper) : AbstractMapper :=
  match m.prgRAM with
  | some ram => { m with prgRAM := some (zeroArray ram m.prgRAMSizeBattery) }
  | none => m

/-- `resetCHRRAM()`. -/
def resetCHRRAM (m : AbstractMapper) : AbstractMapper :=
  match m.chrRAM with
  | some ram => { m with chrRAM := some (zeroArray ram m.chrRAMSizeBattery) }
  | none => m

/-- `powerUp()`.  The call `this.reset()` is dispatched to the mapper at hand:
`reset` is that method, which receives the base mapper as `powerUp` leaves it.
The call of `logger.info` only writes to the log. -/
def powerUp {α : Type} (m : AbstractMapper) (reset : AbstractMapper → α) : α :=
  reset m.resetPRGRAM.resetCHRRAM

/-- `getNVRAMSize()`. -/
def getNVRAMSize (m : AbstractMapper) : Int :=
  m.prgRAMSizeBattery + m.chrRAMSizeBattery

/-- `getNVRAM()`: `none` for `null`, otherwise the bytes of the view returned.
Reading `subarray` of a buffer that is `undefined` is a `TypeError`. -/
def getNVRAM (m : AbstractMapper) : Except JsError (Option (List UInt8)) :=
  if m.prgRAMSizeBattery ≠ 0 then
    match m.prgRAM with
    | some ram => Except.ok (some (subarray ram 0 m.prgRAMSizeBattery))
    | none => Except.error JsError.TypeError
  else if m.chrRAMSizeBattery ≠ 0 then
    match m.chrRAM with
    | some ram => Except.ok (some (subarray ram 0 m.chrRAMSizeBattery))
    | none => Except.error JsError.TypeError
  else Except.ok none

/-- `setNVRAM(data)`.  With a buffer that is `undefined` the copy has no array to
write to, which the model reports as a `TypeError`. -/
def setNVRAM (m : AbstractMapper) (data : List UInt8) : Except JsError AbstractMapper :=
  if m.prgRAMSizeBattery ≠ 0 then
    match m.prgRAM with
    | some ram => Except.ok { m with prgRAM := some (copyArray data ram 0 0 m.prgRAMSizeBattery) }
    | none => Except.error JsError.TypeError
  else if m.chrRAMSizeBattery ≠ 0 then
    match m.chrRAM with
    | some ram => Except.ok { m with chrRAM := some (copyArray data ram 0 0 m.chrRAMSizeBattery) }
    | none => Except.error JsError.TypeError
  else Except.ok m

/-- `mapPRGROMBank8K(srcBank, dstBank, count = 1)`. -/
def mapPRGROMBank8K (m : AbstractMapper) (srcBank dstBank : Int) (count : Int := 1) :
    List Call :=
  let maxBank := jsShr (m.prgROMSize - 1) 13
  forCount count fun i => Call.mapPRGROMBank (srcBank + i) (jsAnd (dstBank + i) maxBank)

/-- `mapPRGROMBank16K(srcBank, dstBank)`. -/
def mapPRGROMBank16K (m : AbstractMapper) (srcBank dstBank : Int) : List Call :=
  m.mapPRGROMBank8K (srcBank * 2) (dstBank * 2) 2

/-- `mapPRGROMBank32K(srcBank, dstBank)`. -/
def mapPRGROMBank32K (m : AbstractMapper) (srcBank dstBank : Int) : List Call :=
  m.mapPRGROMBank8K (srcBank * 4) (dstBank * 4) 4

/-- `mapPRGRAMBank8K(srcBank, dstBank)`. -/
def mapPRGRAMBank8K (m : AbstractMapper) (srcBank dstBank : Int) : List Call :=
  let maxBank := jsShr (m.prgRAMSize - 1) 13
  [Call.mapPRGRAMBank srcBank (jsAnd dstBank maxBank)]

/-- `mapCHRROMBank1K(srcBank, dstBank, count = 1)`. -/
def mapCHRROMBank1K (m : AbstractMapper) (srcBank dstBank : Int) (count : Int := 1) :
    List Call :=
  let maxBank := jsShr (m.chrROMSize - 1) 10
  forCount count fun i => Call.mapPatternsBank (srcBank + i) (jsAnd (dstBank + i) maxBank)

/-- `mapCHRROMBank2K(srcBank, dstBank)`. -/
def mapCHRROMBank2K (m : AbstractMapper) (srcBank dstBank : Int) : List Call :=
  m.mapCHRROMBank1K (srcBank * 2) (dstBank * 2) 2

/-- `mapCHRROMBank4K(srcBank, dstBank)`. -/
def mapCHRROMBank4K (m : AbstractMapper) (srcBank dstBank : Int) : List Call :=
  m.mapCHRROMBank1K (srcBank * 4) (dstBank * 4) 4

/-- `mapCHRROMBank8K(srcBank, dstBank)`. -/
def mapCHRROMBank8K (m : AbstractMapper) (srcBank dstBank : Int) : List Call :=
  m.mapCHRROMBank1K (srcBank * 8) (dstBank * 8) 8

/-- `mapCHRRAMBank1K(srcBank, dstBank, count = 1)`. -/
def mapCHRRAMBank1K (m : AbstractMapper) (srcBank dstBank : Int) (count : Int := 1) :
    List Call :=
  let maxBank := jsShr (m.chrRAMSize - 1) 10
  forCount count fun i => Call.mapPatternsBank (srcBank + i) (jsAnd (dstBank + i) maxBank)

/-- `mapCHRRAMBank2K(srcBank, dstBank)`. -/
def mapCHRRAMBank2K (m : AbstractMapper) (srcBank dstBank : Int) : List Call :=
  m.mapCHRRAMBank1K (srcBank * 2) (dstBank * 2) 2

/-- `mapCHRRAMBank4K(srcBank, dstBank)`. -/
def mapCHRRAMBank4K (m : AbstractMapper) (srcBank dstBank : Int) : List Call :=
  m.mapCHRRAMBank1K (srcBank * 4) (dstBank * 4) 4

/-- `mapCHRRAMBank8K(srcBank, dstBank)`. -/
def mapCHRRAMBank8K (m : AbstractMapper) (srcBank dstBank : Int) : List Call :=
  m.mapCHRRAMBank1K (srcBank * 8) (dstBank * 8) 8

/-- `setVerticalMirroring()`. -/
def setVerticalMirroring (_m : AbstractMapper) : List Call :=
  [Call.setNamesAttrsMirroring Mirroring.VERTICAL]

/-- `setHorizontalMirroring()`. -/
def setHorizontalMirroring (_m : AbstractMapper) : List Call :=
  [Call.setNamesAttrsMirroring Mirroring.HORIZONTAL]

end AbstractMapper

/-! ## MMC3Mapper -/

/-- The MMC3 mapper: the base mapper, the two flags `hasCHRRAM` and
`alternateMode`, and the registers that `resetRegisters` clears.  The flags
`irqReload` and `irqEnabled` hold `0`, `false` or `true` in the source and are
only ever tested for truthiness, so they are booleans here. -/
structure MMC3Mapper extends AbstractMapper where
  hasCHRRAM : Bool
  alternateMode : Bool
  command : Int
  irqCounter : Int
  irqLatch : Int
  irqReload : Bool
  irqEnabled : Bool
  irqDelay : Int
  deriving DecidableEq, Repr

namespace MMC3Mapper

/-- `resetMapping()`. -/
def resetMapping (m : MMC3Mapper) : List Call :=
  m.mapPRGROMBank32K 0 (-1)
    ++ m.mapPRGRAMBank8K 0 0
    ++ (if m.hasCHRRAM then m.mapCHRRAMBank8K 0 0 else m.mapCHRROMBank8K 0 0)

/-- `resetRegisters()`. -/
def resetRegisters (m : MMC3Mapper) : MMC3Mapper :=
  { m with
    command := 0
    irqCounter := 0
    irqLatch := 0
    irqReload := false
    irqEnabled := false
    irqDelay := 0 }

/-- `reset()`. -/
def reset (m : MMC3Mapper) : MMC3Mapper × List Call :=
  (m.resetRegisters, m.resetMapping)

/-- `switchDoubleCHRROMBanks(target)`. -/
def switchDoubleCHRROMBanks (m : MMC3Mapper) (target : Int) : List Call :=
  let source := jsOr (jsUshr (jsAnd m.command 0x80) 6) (jsAnd m.command 0x01)
  m.mapCHRROMBank2K source (jsUshr target 1)

/-- `switchSingleCHRROMBanks(target)`. -/
def switchSingleCHRROMBanks (m : MMC3Mapper) (target : Int) : List Call :=
  let source := jsOr (jsUshr (jsAnd (jsNot m.command) 0x80) 5) (jsAnd (m.command - 2) 0x03)
  m.mapCHRROMBank1K source target

/-- `switchPRGROMBanks0And2(target)`. -/
def switchPRGROMBanks0And2 (m : MMC3Mapper) (target : Int) : List Call :=
  let sourceA := jsUshr (jsAnd m.command 0x40) 5
  let sourceB := jsUshr (jsAnd (jsNot m.command) 0x40) 5
  m.mapPRGROMBank8K sourceA target ++ m.mapPRGROMBank8K sourceB (-2)

/-- `switchPRGROMBank1(target)`. -/
def switchPRGROMBank1 (m : MMC3Mapper) (target : Int) : List Call :=
  m.mapPRGROMBank8K 1 target

/-- `switchMirroring(value)`. -/
def switchMirroring (m : MMC3Mapper) (value : Int) : List Call :=
  if jsAnd value 1 ≠ 0 then m.setHorizontalMirroring else m.setVerticalMirroring

/-- `writeBankSelect(value)`: the `switch` on `this.command & 7`. -/
def writeBankSelect (m : MMC3Mapper) (value : Int) : List Call :=
  let c := jsAnd m.command 7
  if c = 0 ∨ c = 1 then
    if !m.hasCHRRAM then m.switchDoubleCHRROMBanks value else []
  else if c = 2 ∨ c = 3 ∨ c = 4 ∨ c = 5 then
    if !m.hasCHRRAM then m.switchSingleCHRROMBanks value else []
  else if c = 6 then
    m.switchPRGROMBanks0And2 value
  else if c = 7 then
    m.switchPRGROMBank1 value
  else
    []

/-- `writeMirroring(value)`. -/
def writeMirroring (m : MMC3Mapper) (value : Int) : List Call :=
  if m.mirroring ≠ Mirroring.FOUR_SCREEN then m.switchMirroring value else []

/-- `writePRGRAMEnable(value)`: an empty body in the source. -/
def writePRGRAMEnable (_m : MMC3Mapper) (_value : Int) : List Call := []

/-- `writeIRQReload()`. -/
def writeIRQReload (m : MMC3Mapper) : MMC3Mapper :=
  let m1 := if m.alternateMode then { m with irqReload := true } else m
  { m1 with irqCounter := 0 }

/-- `writeIRQEnable(enabled)`. -/
def writeIRQEnable (m : MMC3Mapper) (enabled : Bool) : MMC3Mapper × List Call :=
  ({ m with irqEnabled := enabled },
    if !enabled then [Call.clearInterrupt Interrupt.IRQ_EXT] else [])

/-- `write(address, value)`: the `switch` on `address & 0xE001`. -/
def write (m : MMC3Mapper) (address value : Int) : MMC3Mapper × List Call :=
  let slot := jsAnd address 0xE001
  if slot = 0x8000 then ({ m with command := value }, [])
  else if slot = 0x8001 then (m, m.writeBankSelect value)
  else if slot = 0xA000 then (m, m.writeMirroring value)
  else if slot = 0xA001 then (m, m.writePRGRAMEnable value)
  else if slot = 0xC000 then ({ m with irqLatch := value }, [])
  else if slot = 0xC001 then (m.writeIRQReload, [])
  else if slot = 0xE000 then m.writeIRQEnable false
  else if slot = 0xE001 then m.writeIRQEnable true
  else (m, [])

/-- `updateIRQCounter()`. -/
def updateIRQCounter (m : MMC3Mapper) : MMC3Mapper × List Call :=
  let irqCounterOld := m.irqCounter
  let m1 :=
    if m.irqCounter = 0 ∨ m.irqReload then { m with irqCounter := m.irqLatch }
    else { m with irqCounter := m.irqCounter - 1 }
  let calls :=
    if m1.irqEnabled ∧ m1.irqCounter = 0
        ∧ (m1.alternateMode = false ∨ irqCounterOld = 0 ∨ m1.irqReload) then
      [Call.activateInterrupt Interrupt.IRQ_EXT]
    else []
  ({ m1 with irqReload := false }, calls)

/-- The condition under which `tick()` reaches its call of `updateIRQCounter()`:
`ppu.addressBus & 0x1000` is truthy and `irqDelay` is falsy. -/
def tickUpdates (m : MMC3Mapper) (addressBus : Int) : Bool :=
  jsAnd addressBus 0x1000 ≠ 0 && m.irqDelay = 0

/-- `tick()`, with the value of `ppu.addressBus` that it reads. -/
def tick (m : MMC3Mapper) (addressBus : Int) : MMC3Mapper × List Call :=
  if jsAnd addressBus 0x1000 ≠ 0 then
    let r := if m.irqDelay = 0 then m.updateIRQCounter else (m, [])
    ({ r.1 with irqDelay := 7 }, r.2)
  else if m.irqDelay ≠ 0 then
    ({ m with irqDelay := m.irqDelay - 1 }, [])
  else
    (m, [])

/-- A run of `tick()` calls, one for each value of `ppu.addressBus` in the
list, with the calls made so far carried along. -/
def ticks (m : MMC3Mapper) (calls : List Call) (buses : List Int) : MMC3Mapper × List Call :=
  buses.foldl (fun r bus => ((r.1.tick bus).1, r.2 ++ (r.1.tick bus).2)) (m, calls)

/-- A run of `write(address, value)` calls, one for each pair in the list, with
the calls made so far carried along. -/
def writes (m : MMC3Mapper) (calls : List Call) (ws : List (Int × Int)) :
    MMC3Mapper × List Call :=
  ws.foldl (fun r w => ((r.1.write w.1 w.2).1, r.2 ++ (r.1.write w.1 w.2).2)) (m, calls)

end MMC3Mapper

/-- One call that the emulation driver makes on the mapper. -/
inductive Input where
  /-- The call `write(address, value)`. -/
  | write (address value : Int)
  /-- The call `tick()`, with the value of `ppu.addressBus` that it reads. -/
  | tick (addressBus : Int)
  deriving DecidableEq, Repr

namespace MMC3Mapper

/-- The mapper after one call of the driver, and the calls it makes. -/
def step (m : MMC3Mapper) : Input → MMC3Mapper × List Call
  | Input.write address value => m.write address value
  | Input.tick addressBus => m.tick addressBus

/-- A run of driver calls, in order, with the calls made so far carried along. -/
def run (m : MMC3Mapper) (calls : List Call) (inputs : List Input) : MMC3Mapper × List Call :=
  inputs.foldl (fun r input => ((r.1.step input).1, r.2 ++ (r.1.step input).2)) (m, calls)

end MMC3Mapper

/-! ## Vocabulary of the statements -/

/-- A call is a program-ROM unit assignment. -/
def Call.isPRGROM : Call → Bool
  | Call.mapPRGROMBank _ _ => true
  | _ => false

/-- The operator `a << n`; the shift count is taken modulo 32. -/
def jsShl (a : Int) (n : Nat) : Int := toInt32 (toInt32 a * 2 ^ (n % 32))

/-- Bit `k` of the 32-bit pattern of `c`, as 0 or 1. -/
def bitOf (c : Int) (k : Nat) : Int := if (toUint32 c).testBit k then 1 else 0

/-- A driver call that writes a byte: a `write` whose value is in `0 .. 255`; a
`tick` may read any bus value. -/
def Input.writesByte : Input → Bool
  | Input.write _ value => decide (0 ≤ value) && decide (value ≤ 255)
  | Input.tick _ => true

/-- The source units of the `ppuMemory.mapPatternsBank` calls of a list, in
order. -/
def sourceSlots : List Call → List Int
  | [] => []
  | Call.mapPatternsBank srcBank _ :: rest => srcBank :: sourceSlots rest
  | _ :: rest => sourceSlots rest

/-- The graphics source units that a write of `value` to the bank-select-data
slot `address` assigns when the latched command is `command`. -/
def selectedSlots (m : MMC3Mapper) (address command value : Int) : List Int :=
  sourceSlots (({ m with command := command } : MMC3Mapper).write address value).2

/-- The range of the interrupt registers: `irqDelay` in `0 .. 7`, `irqCounter` and
`irqLatch` in `0 .. 255`, and `irqCounter = 0` whenever the reload flag is set. -/
def IrqInvariant (m : MMC3Mapper) : Prop :=
  0 ≤ m.irqDelay ∧ m.irqDelay ≤ 7 ∧ 0 ≤ m.irqCounter ∧ m.irqCounter ≤ 255
    ∧ 0 ≤ m.irqLatch ∧ m.irqLatch ≤ 255 ∧ (m.irqReload = true → m.irqCounter = 0)

/-- The size of a RAM buffer; a buffer that is `undefined` counts as empty. -/
def bufferSize (buffer : Option (List UInt8)) : Int :=
  match buffer with
  | some ram => ram.length
  | none => 0

/-- A `reset()` method that leaves the RAM buffers and the battery sizes of the
base mapper as they are. -/
def KeepsRAM (reset : AbstractMapper → AbstractMapper × List Call) : Prop :=
  ∀ x, (reset x).1.prgRAM = x.prgRAM ∧ (reset x).1.chrRAM = x.chrRAM
    ∧ (reset x).1.prgRAMSizeBattery = x.prgRAMSizeBattery
    ∧ (reset x).1.chrRAMSizeBattery = x.chrRAMSizeBattery

/-- The unit with index `i` of size `2^exp` lies in a storage of `size` bytes:
`i` is in `0 .. (size - 1) >> exp` and the unit starts below `size`. -/
def unitInStorage (size : Int) (exp : Nat) (i : Int) : Prop :=
  0 ≤ i ∧ i ≤ jsShr (size - 1) exp ∧ i * 2 ^ exp < size

/-- The values of `ppu.addressBus` for one qualifying edge: seven ticks with bit
12 low, then one tick with bit 12 high. -/
def isEdge (buses : List Int) : Bool :=
  buses.length == 8
    && (buses.take 7).all (fun b => jsAnd b 0x1000 == 0)
    && (buses.drop 7).all (fun b => jsAnd b 0x1000 != 0)

/-- The counter state of the round trip: the given latch and counter values,
interrupts enabled, normal mode, no reload requested, delay within `0 .. 7`. -/
def Armed (m : MMC3Mapper) (latch counter : Int) : Prop :=
  m.irqCounter = counter ∧ m.irqLatch = latch ∧ m.irqEnabled = true
    ∧ m.alternateMode = false ∧ m.irqReload = false ∧ 0 ≤ m.irqDelay ∧ m.irqDelay ≤ 7

/-! ## Arithmetic of the 32-bit operators -/

theorem natAnd_eq (a b : Nat) : natAnd a b = a &&& b := by
  cases a <;> simp [natAnd]

theorem natOr_eq (a b : Nat) : natOr a b = a ||| b := by
  cases a <;> simp [natOr]

theorem natDiv_eq (a b : Nat) : natDiv a b = a / b := by
  cases a <;> simp [natDiv]

theorem natToInt32_eq (n : Nat) : natToInt32 n = toInt32 (n : Int) := by
  cases n
  · decide
  · rfl

theorem jsAnd_def (a b : Int) :
    jsAnd a b = toInt32 ((toUint32 a &&& toUint32 b : Nat) : Int) := by
  unfold jsAnd
  rw [natAnd_eq, natToInt32_eq]

theorem jsNot_def (a : Int) : jsNot a = toInt32 ((4294967295 - toUint32 a : Nat) : Int) := by
  unfold jsNot
  rw [natToInt32_eq]

theorem toInt32_of_range (x : Int) (h0 : -2147483648 ≤ x) (h1 : x < 2147483648) :
    toInt32 x = x := by
  unfold toInt32
  simp only
  split <;> omega

theorem toUint32_of_range (x : Int) (h0 : 0 ≤ x) (h1 : x < 4294967296) :
    ((toUint32 x : Nat) : Int) = x := by
  unfold toUint32
  omega

theorem toUint32_lt (x : Int) : toUint32 x < 4294967296 := by
  unfold toUint32
  omega

/-- Masking with a value `0 ≤ mask < 2^31` gives a value in `0 .. mask`. -/
theorem jsAnd_mem_range (d mask : Int) (h0 : 0 ≤ mask) (h1 : mask < 2147483648) :
    0 ≤ jsAnd d mask ∧ jsAnd d mask ≤ mask := by
  have hm : ((toUint32 mask : Nat) : Int) = mask := toUint32_of_range mask h0 (by omega)
  have hle : toUint32 d &&& toUint32 mask ≤ toUint32 mask := Nat.and_le_right
  have hle2 : (((toUint32 d &&& toUint32 mask : Nat)) : Int) ≤ mask :=
    calc (((toUint32 d &&& toUint32 mask : Nat)) : Int)
        ≤ ((toUint32 mask : Nat) : Int) := by exact_mod_cast hle
      _ = mask := hm
  have h0n : (0 : Int) ≤ ((toUint32 d &&& toUint32 mask : Nat) : Int) := Int.ofNat_nonneg _
  rw [jsAnd_def, toInt32_of_range _ (by omega) (by omega)]
  exact ⟨h0n, hle2⟩

theorem two_pow_le_of_le (j n : Nat) (h : j ≤ n) : (2 : Int) ^ j ≤ 2 ^ n :=
  pow_le_pow_right₀ (by norm_num) h

/-- Masking with `2^j - 1`, `j ≤ 31`, is the residue modulo `2^j`. -/
theorem jsAnd_two_pow_sub_one (d : Int) (j : Nat) (hj : j ≤ 31) :
    jsAnd d ((2 : Int) ^ j - 1) = d % 2 ^ j := by
  have hpos : (0 : Int) < 2 ^ j := by positivity
  have h31 : (2 : Int) ^ j ≤ 2 ^ 31 := two_pow_le_of_le j 31 hj
  have h31v : (2 : Int) ^ 31 = 2147483648 := by norm_num
  have hm : ((toUint32 ((2 : Int) ^ j - 1) : Nat) : Int) = 2 ^ j - 1 :=
    toUint32_of_range _ (by omega) (by omega)
  have hmn : toUint32 ((2 : Int) ^ j - 1) = 2 ^ j - 1 := by
    have h1 : (1 : Nat) ≤ 2 ^ j := Nat.one_le_two_pow
    zify [h1]
    exact hm
  have hdvd : (2 : Int) ^ j ∣ 4294967296 := by
    have : (4294967296 : Int) = 2 ^ 32 := by norm_num
    rw [this]
    exact pow_dvd_pow 2 (by omega)
  have hu : ((toUint32 d : Nat) : Int) = d % 4294967296 := by
    unfold toUint32
    omega
  have hval : (((toUint32 d &&& toUint32 ((2 : Int) ^ j - 1) : Nat)) : Int) = d % 2 ^ j := by
    rw [hmn, Nat.and_pow_two_sub_one_eq_mod]
    push_cast
    rw [hu, Int.emod_emod_of_dvd _ hdvd]
  have hlt : d % 2 ^ j < 2 ^ j := Int.emod_lt_of_pos d hpos
  have hge : 0 ≤ d % 2 ^ j := Int.emod_nonneg d (by omega)
  rw [jsAnd_def, hval]
  exact toInt32_of_range _ (by omega) (by omega)

theorem two_pow_sub_one_ediv (k e : Nat) (h : e ≤ k) :
    ((2 : Int) ^ k - 1) / 2 ^ e = 2 ^ (k - e) - 1 := by
  have hpos : (0 : Int) < 2 ^ e := by positivity
  have hsplit : (2 : Int) ^ k = 2 ^ (k - e) * 2 ^ e := by
    rw [← pow_add]; congr 1; omega
  have hrw : (2 : Int) ^ k - 1 = (2 ^ e - 1) + 2 ^ e * (2 ^ (k - e) - 1) := by
    rw [hsplit]; ring
  rw [hrw, Int.add_mul_ediv_left _ _ (by omega), Int.ediv_eq_zero_of_lt (by omega) (by omega)]
  ring

theorem two_pow_ediv (k e : Nat) (h : e ≤ k) : (2 : Int) ^ k / 2 ^ e = 2 ^ (k - e) := by
  have hpos : (0 : Int) < 2 ^ e := by positivity
  have hsplit : (2 : Int) ^ k = 2 ^ (k - e) * 2 ^ e := by
    rw [← pow_add]; congr 1; omega
  rw [hsplit, Int.mul_ediv_cancel _ (by omega)]

/-- The largest unit index `(S - 1) >> e` of a storage of `S = 2^k` bytes,
`e ≤ k ≤ 31`. -/
theorem jsShr_two_pow_sub_one (k e : Nat) (he : e ≤ k) (hk : k ≤ 31) :
    jsShr ((2 : Int) ^ k - 1) e = 2 ^ (k - e) - 1 := by
  have hpos : (0 : Int) < 2 ^ k := by positivity
  have h31 : (2 : Int) ^ k ≤ 2 ^ 31 := two_pow_le_of_le k 31 hk
  have h31v : (2 : Int) ^ 31 = 2147483648 := by norm_num
  have he32 : e % 32 = e := Nat.mod_eq_of_lt (by omega)
  unfold jsShr
  rw [toInt32_of_range _ (by omega) (by omega), he32]
  exact two_pow_sub_one_ediv k e he

theorem neg_emod_of_le (a M : Int) (h0 : 0 < a) (h1 : a ≤ M) : (-a) % M = M - a := by
  have h : -a = (M - a) + M * (-1) := by ring
  rw [h, Int.add_mul_emod_self_left]
  exact Int.emod_eq_of_lt (by omega) (by omega)

/-! ## Counted loops -/

theorem forCountFrom_eq {α : Type} (count : Int) (body : Int → α) :
    ∀ (fuel : Nat) (i : Int), (count - i).toNat = fuel →
      forCountFrom count body fuel i
        = (List.range fuel).map fun (j : Nat) => body (i + (j : Int)) := by
  intro fuel
  induction fuel with
  | zero => intro i _; rfl
  | succ n ih =>
    intro i h
    have hlt : i < count := by omega
    have hrec := ih (i + 1) (by omega)
    rw [forCountFrom, if_pos hlt, hrec, List.range_succ_eq_map, List.map_cons, List.map_map]
    congr 1
    · simp
    · apply List.map_congr_left
      intro j _
      simp only [Function.comp, Nat.succ_eq_add_one]
      congr 1
      push_cast
      ring

/-- The loop runs to its end: it yields `body 0, body 1, ...`, one value for
each `i < count`. -/
theorem forCount_eq {α : Type} (count : Int) (body : Int → α) :
    forCount count body = (List.range count.toNat).map fun (j : Nat) => body (j : Int) := by
  unfold forCount
  rw [forCountFrom_eq count body count.toNat 0 (by omega)]
  apply List.map_congr_left
  intro j _
  simp


theorem forCount_one {α : Type} (body : Int → α) : forCount 1 body = [body 0] := rfl

theorem forCount_two {α : Type} (body : Int → α) : forCount 2 body = [body 0, body 1] := rfl

theorem forCount_four {α : Type} (body : Int → α) :
    forCount 4 body = [body 0, body 1, body 2, body 3] := rfl

theorem forCount_eight {α : Type} (body : Int → α) :
    forCount 8 body = [body 0, body 1, body 2, body 3, body 4, body 5, body 6, body 7] := rfl

/-! ## Bank windows -/

/-- C1.  `mapPRGROMBank8K(src, dst, count)` makes exactly `count` calls
`cpuMemory.mapPRGROMBank(src + i, (dst + i) & ((prgROMSize - 1) >> 13))`, in the
order `i = 0 .. count - 1`; the 16 KiB and 32 KiB requests are the 8 KiB request
at twice and four times the banks with 2 and 4 units.  `mapCHRROMBank1K` does the
same on `ppuMemory.mapPatternsBank` with `(chrROMSize - 1) >> 10`, and the 2, 4 and
8 KiB requests are 2, 4 and 8 consecutive 1 KiB units from 2, 4 and 8 times the
banks. -/
theorem bank_window_decomposition (m : AbstractMapper) (src dst : Int) (count : Nat) :
    (m.mapPRGROMBank8K src dst count
        = (List.range count).map fun (i : Nat) =>
            Call.mapPRGROMBank (src + i) (jsAnd (dst + i) (jsShr (m.prgROMSize - 1) 13)))
    ∧ (m.mapPRGROMBank8K src dst count).length = count
    ∧ m.mapPRGROMBank16K src dst = m.mapPRGROMBank8K (2 * src) (2 * dst) 2
    ∧ m.mapPRGROMBank32K src dst = m.mapPRGROMBank8K (4 * src) (4 * dst) 4
    ∧ (m.mapCHRROMBank1K src dst count
        = (List.range count).map fun (i : Nat) =>
            Call.mapPatternsBank (src + i) (jsAnd (dst + i) (jsShr (m.chrROMSize - 1) 10)))
    ∧ (m.mapCHRROMBank1K src dst count).length = count
    ∧ (m.mapCHRROMBank2K src dst
        = (List.range 2).map fun (i : Nat) =>
            Call.mapPatternsBank (2 * src + i) (jsAnd (2 * dst + i) (jsShr (m.chrROMSize - 1) 10)))
    ∧ (m.mapCHRROMBank4K src dst
        = (List.range 4).map fun (i : Nat) =>
            Call.mapPatternsBank (4 * src + i) (jsAnd (4 * dst + i) (jsShr (m.chrROMSize - 1) 10)))
    ∧ (m.mapCHRROMBank8K src dst
        = (List.range 8).map fun (i : Nat) =>
            Call.mapPatternsBank (8 * src + i) (jsAnd (8 * dst + i) (jsShr (m.chrROMSize - 1) 10))) := by
  have hp : m.mapPRGROMBank8K src dst count
      = (List.range count).map fun (i : Nat) =>
          Call.mapPRGROMBank (src + i) (jsAnd (dst + i) (jsShr (m.prgROMSize - 1) 13)) := by
    unfold AbstractMapper.mapPRGROMBank8K
    rw [forCount_eq]
    simp
  have hc : m.mapCHRROMBank1K src dst count
      = (List.range count).map fun (i : Nat) =>
          Call.mapPatternsBank (src + i) (jsAnd (dst + i) (jsShr (m.chrROMSize - 1) 10)) := by
    unfold AbstractMapper.mapCHRROMBank1K
    rw [forCount_eq]
    simp
  refine ⟨hp, ?_, ?_, ?_, hc, ?_, ?_, ?_, ?_⟩
  · rw [hp]; simp
  · unfold AbstractMapper.mapPRGROMBank16K; rw [mul_comm src, mul_comm dst]
  · unfold AbstractMapper.mapPRGROMBank32K; rw [mul_comm src, mul_comm dst]
  · rw [hc]; simp
  · unfold AbstractMapper.mapCHRROMBank2K AbstractMapper.mapCHRROMBank1K
    rw [forCount_two, mul_comm src, mul_comm dst]
    rfl
  · unfold AbstractMapper.mapCHRROMBank4K AbstractMapper.mapCHRROMBank1K
    rw [forCount_four, mul_comm src, mul_comm dst]
    rfl
  · unfold AbstractMapper.mapCHRROMBank8K AbstractMapper.mapCHRROMBank1K
    rw [forCount_eight, mul_comm src, mul_comm dst]
    rfl

theorem neg_one_ediv_two_pow (e : Nat) : (-1 : Int) / 2 ^ e = -1 := by
  have hpos : (0 : Int) < 2 ^ e := by positivity
  have h : (-1 : Int) = (2 ^ e - 1) + 2 ^ e * (-1) := by ring
  rw [h, Int.add_mul_ediv_left _ _ (by omega), Int.ediv_eq_zero_of_lt (by omega) (by omega)]
  ring

theorem toInt32_two_pow_of_ge (k : Nat) (hk : 32 ≤ k) :
    toInt32 ((2 : Int) ^ k) = 0 ∧ toInt32 ((2 : Int) ^ k - 1) = -1 := by
  have hdvd : (4294967296 : Int) ∣ 2 ^ k := by
    have : (4294967296 : Int) = 2 ^ 32 := by norm_num
    rw [this]
    exact pow_dvd_pow 2 hk
  obtain ⟨c, hc⟩ := hdvd
  rw [hc]
  unfold toInt32
  simp only
  constructor <;> split <;> omega

/-- For a size `2^k` of at least one unit and other than `2^31`, the mask
`(S - 1) >> e` is `(S >> e) - 1`. -/
theorem jsShr_pred_two_pow (k e : Nat) (he : e ≤ k) (he32 : e < 32) (h31 : k ≠ 31) :
    jsShr ((2 : Int) ^ k - 1) e = jsShr ((2 : Int) ^ k) e - 1 := by
  have hmod : e % 32 = e := Nat.mod_eq_of_lt he32
  by_cases hk : k ≤ 30
  · rw [jsShr_two_pow_sub_one k e he (by omega)]
    have hpos : (0 : Int) < 2 ^ k := by positivity
    have h30 : (2 : Int) ^ k ≤ 2 ^ 30 := two_pow_le_of_le k 30 hk
    have h30v : (2 : Int) ^ 30 = 1073741824 := by norm_num
    unfold jsShr
    rw [toInt32_of_range _ (by omega) (by omega), hmod, two_pow_ediv k e he]
  · obtain ⟨h0, h1⟩ := toInt32_two_pow_of_ge k (by omega)
    unfold jsShr
    rw [h0, h1, neg_one_ediv_two_pow]
    simp

/-- C2, as amended.  For a physical size `S = 2^k` of at least one unit
(`k ≥ 13` for program storage, `k ≥ 10` for graphics storage), other than
`2^31` and exactly representable (`k ≤ 53`), and every integer `d`, a single-unit
request of `mapPRGROMBank8K` and of `mapCHRROMBank1K` forwards the physical
index `d & ((S >> exp) - 1)`.  (The bound `k ≤ 53` is where the integers of the
model are the numbers of the program; the proof does not use it.) -/
theorem single_unit_index (m : AbstractMapper) (src d : Int) :
    (∀ k : Nat, m.prgROMSize = 2 ^ k → 13 ≤ k → k ≠ 31 → k ≤ 53 →
        m.mapPRGROMBank8K src d
          = [Call.mapPRGROMBank src (jsAnd d (jsShr m.prgROMSize 13 - 1))])
    ∧ (∀ k : Nat, m.chrROMSize = 2 ^ k → 10 ≤ k → k ≠ 31 → k ≤ 53 →
        m.mapCHRROMBank1K src d
          = [Call.mapPatternsBank src (jsAnd d (jsShr m.chrROMSize 10 - 1))]) := by
  constructor
  · intro k hp h13 h31 _
    unfold AbstractMapper.mapPRGROMBank8K
    rw [forCount_one, hp, jsShr_pred_two_pow k 13 h13 (by norm_num) h31]
    simp
  · intro k hc h10 h31 _
    unfold AbstractMapper.mapCHRROMBank1K
    rw [forCount_one, hc, jsShr_pred_two_pow k 10 h10 (by norm_num) h31]
    simp

/-- Witness of C2 as amended: a 64 KiB program ROM and an 8 KiB graphics ROM,
destination bank `-1`, forwarded to the last unit, 7. -/
theorem single_unit_index_witness :
    (AbstractMapper.mapPRGROMBank8K
        { mirroring := Mirroring.VERTICAL, prgROMSize := 2 ^ 16, prgRAMSize := 0,
          prgRAMSizeBattery := 0, chrROMSize := 2 ^ 13, chrRAMSize := 0,
          chrRAMSizeBattery := 0 } 0 (-1)
      = [Call.mapPRGROMBank 0 (jsAnd (-1) (jsShr (2 ^ 16) 13 - 1))]
      ∧ jsAnd (-1) (jsShr (2 ^ 16) 13 - 1) = 7)
    ∧ (AbstractMapper.mapCHRROMBank1K
        { mirroring := Mirroring.VERTICAL, prgROMSize := 2 ^ 16, prgRAMSize := 0,
          prgRAMSizeBattery := 0, chrROMSize := 2 ^ 13, chrRAMSize := 0,
          chrRAMSizeBattery := 0 } 0 (-1)
      = [Call.mapPatternsBank 0 (jsAnd (-1) (jsShr (2 ^ 13) 10 - 1))]
      ∧ jsAnd (-1) (jsShr (2 ^ 13) 10 - 1) = 7) :=
  ⟨⟨(single_unit_index
        { mirroring := Mirroring.VERTICAL, prgROMSize := 2 ^ 16, prgRAMSize := 0,
          prgRAMSizeBattery := 0, chrROMSize := 2 ^ 13, chrRAMSize := 0,
          chrRAMSizeBattery := 0 } 0 (-1)).1 16 rfl (by decide) (by decide) (by decide),
      by decide⟩,
    ⟨(single_unit_index
        { mirroring := Mirroring.VERTICAL, prgROMSize := 2 ^ 16, prgRAMSize := 0,
          prgRAMSizeBattery := 0, chrROMSize := 2 ^ 13, chrRAMSize := 0,
          chrRAMSizeBattery := 0 } 0 (-1)).2 13 rfl (by decide) (by decide) (by decide),
      by decide⟩⟩

/-- C2 as stated fails below one unit and at `2^31`.  With a 4 KiB program ROM
the request for bank `1` is forwarded to unit `1 & (0xFFF >> 13) = 0`, while
`1 & ((0x1000 >> 13) - 1) = 1`; with a 512-byte graphics ROM likewise; with a
program ROM of `2^31` bytes the request for bank `-1` is forwarded to unit
`262143`, while `-1 & ((2^31 >> 13) - 1) = -262145`. -/
theorem single_unit_index_counterexample :
    (AbstractMapper.mapPRGROMBank8K
        { mirroring := Mirroring.VERTICAL, prgROMSize := 0x1000, prgRAMSize := 0,
          prgRAMSizeBattery := 0, chrROMSize := 0x200, chrRAMSize := 0,
          chrRAMSizeBattery := 0 } 0 1
      = [Call.mapPRGROMBank 0 0]
      ∧ jsAnd 1 (jsShr 0x1000 13 - 1) = 1)
    ∧ (AbstractMapper.mapCHRROMBank1K
        { mirroring := Mirroring.VERTICAL, prgROMSize := 0x1000, prgRAMSize := 0,
          prgRAMSizeBattery := 0, chrROMSize := 0x200, chrRAMSize := 0,
          chrRAMSizeBattery := 0 } 0 1
      = [Call.mapPatternsBank 0 0]
      ∧ jsAnd 1 (jsShr 0x200 10 - 1) = 1)
    ∧ (AbstractMapper.mapPRGROMBank8K
        { mirroring := Mirroring.VERTICAL, prgROMSize := 2147483648, prgRAMSize := 0,
          prgRAMSizeBattery := 0, chrROMSize := 0x2000, chrRAMSize := 0,
          chrRAMSizeBattery := 0 } 0 (-1)
      = [Call.mapPRGROMBank 0 262143]
      ∧ jsAnd (-1) (jsShr 2147483648 13 - 1) = -262145) := by
  decide

theorem filter_isPRGROM_mapPRGRAMBank8K (m : AbstractMapper) (src dst : Int) :
    (m.mapPRGRAMBank8K src dst).filter Call.isPRGROM = [] := rfl

theorem filter_isPRGROM_mapCHRROMBank8K (m : AbstractMapper) (src dst : Int) :
    (m.mapCHRROMBank8K src dst).filter Call.isPRGROM = [] := rfl

theorem filter_isPRGROM_mapCHRRAMBank8K (m : AbstractMapper) (src dst : Int) :
    (m.mapCHRRAMBank8K src dst).filter Call.isPRGROM = [] := rfl

/-- The request `mapPRGROMBank32K(0, -1)` on a program ROM of `2^k` bytes,
`15 ≤ k ≤ 31`, assigns the last four units. -/
theorem mapPRGROMBank32K_last (m : AbstractMapper) (k : Nat) (hS : m.prgROMSize = 2 ^ k)
    (h15 : 15 ≤ k) (h31 : k ≤ 31) :
    m.mapPRGROMBank32K 0 (-1) =
      [Call.mapPRGROMBank 0 (m.prgROMSize / 0x2000 - 4),
       Call.mapPRGROMBank 1 (m.prgROMSize / 0x2000 - 3),
       Call.mapPRGROMBank 2 (m.prgROMSize / 0x2000 - 2),
       Call.mapPRGROMBank 3 (m.prgROMSize / 0x2000 - 1)] := by
  have hN : m.prgROMSize / 0x2000 = 2 ^ (k - 13) := by
    have h : (0x2000 : Int) = 2 ^ 13 := by norm_num
    rw [hS, h, two_pow_ediv k 13 (by omega)]
  have hmb : jsShr (m.prgROMSize - 1) 13 = 2 ^ (k - 13) - 1 := by
    rw [hS, jsShr_two_pow_sub_one k 13 (by omega) h31]
  have h4le : (4 : Int) ≤ 2 ^ (k - 13) := by
    have := two_pow_le_of_le 2 (k - 13) (by omega)
    norm_num at this
    exact this
  have hand : ∀ a : Int, 0 < a → a ≤ 4 →
      jsAnd (-a) ((2 : Int) ^ (k - 13) - 1) = 2 ^ (k - 13) - a := by
    intro a h0 h1
    rw [jsAnd_two_pow_sub_one _ (k - 13) (by omega), neg_emod_of_le a _ h0 (by omega)]
  unfold AbstractMapper.mapPRGROMBank32K AbstractMapper.mapPRGROMBank8K
  rw [forCount_four, hmb, hN]
  have e0 : (-1 : Int) * 4 + 0 = -4 := by norm_num
  have e1 : (-1 : Int) * 4 + 1 = -3 := by norm_num
  have e2 : (-1 : Int) * 4 + 2 = -2 := by norm_num
  have e3 : (-1 : Int) * 4 + 3 = -1 := by norm_num
  simp only [e0, e1, e2, e3]
  rw [hand 4 (by norm_num) (by norm_num), hand 3 (by norm_num) (by norm_num),
    hand 2 (by norm_num) (by norm_num), hand 1 (by norm_num) (by norm_num)]
  norm_num

/-- C3, as amended.  For an MMC3 mapper whose `prgROMSize` is `2^k` with
`15 ≤ k ≤ 31` (a power of two of `N = prgROMSize / 0x2000 ≥ 4` units and at
most `2^31` bytes), `reset()` assigns the program source units 0, 1, 2, 3 to the
physical units `N - 4`, `N - 3`, `N - 2`, `N - 1`, in that order, as its first
four calls, and makes no other program-ROM assignment. -/
theorem reset_maps_last_32K (m : MMC3Mapper) (k : Nat) (hS : m.prgROMSize = 2 ^ k)
    (h15 : 15 ≤ k) (h31 : k ≤ 31) :
    m.reset.2.take 4 =
      [Call.mapPRGROMBank 0 (m.prgROMSize / 0x2000 - 4),
       Call.mapPRGROMBank 1 (m.prgROMSize / 0x2000 - 3),
       Call.mapPRGROMBank 2 (m.prgROMSize / 0x2000 - 2),
       Call.mapPRGROMBank 3 (m.prgROMSize / 0x2000 - 1)]
    ∧ m.reset.2.filter Call.isPRGROM =
      [Call.mapPRGROMBank 0 (m.prgROMSize / 0x2000 - 4),
       Call.mapPRGROMBank 1 (m.prgROMSize / 0x2000 - 3),
       Call.mapPRGROMBank 2 (m.prgROMSize / 0x2000 - 2),
       Call.mapPRGROMBank 3 (m.prgROMSize / 0x2000 - 1)] := by
  have h := mapPRGROMBank32K_last m.toAbstractMapper k hS h15 h31
  unfold MMC3Mapper.reset MMC3Mapper.resetMapping
  simp only
  rw [h]
  constructor
  · simp
  · rw [List.filter_append, List.filter_append, filter_isPRGROM_mapPRGRAMBank8K]
    cases m.hasCHRRAM
    · simp [filter_isPRGROM_mapCHRROMBank8K, Call.isPRGROM]
    · simp [filter_isPRGROM_mapCHRRAMBank8K, Call.isPRGROM]

/-- Witness of C3 as amended: with `prgROMSize = 0x10000` (eight units) the
physical units are 4, 5, 6, 7. -/
theorem reset_maps_last_32K_witness :
    (MMC3Mapper.reset
        { mirroring := Mirroring.VERTICAL, prgROMSize := 0x10000, prgRAMSize := 0x2000,
          prgRAMSizeBattery := 0, chrROMSize := 0x2000, chrRAMSize := 0,
          chrRAMSizeBattery := 0, hasCHRRAM := false, alternateMode := false,
          command := 0, irqCounter := 0, irqLatch := 0, irqReload := false,
          irqEnabled := false, irqDelay := 0 }).2.filter Call.isPRGROM
      = [Call.mapPRGROMBank 0 4, Call.mapPRGROMBank 1 5, Call.mapPRGROMBank 2 6,
         Call.mapPRGROMBank 3 7] :=
  (reset_maps_last_32K
    { mirroring := Mirroring.VERTICAL, prgROMSize := 0x10000, prgRAMSize := 0x2000,
      prgRAMSizeBattery := 0, chrROMSize := 0x2000, chrRAMSize := 0,
      chrRAMSizeBattery := 0, hasCHRRAM := false, alternateMode := false,
      command := 0, irqCounter := 0, irqLatch := 0, irqReload := false,
      irqEnabled := false, irqDelay := 0 } 16 (by decide) (by decide) (by decide)).2

/-- C3 as stated fails for a power of two above `2^31`.  With
`prgROMSize = 2^32` (`N = 524288` units) the mask `(prgROMSize - 1) >> 13` is
`-1`, and `reset()` assigns the source units 0, 1, 2, 3 to the units
`-4, -3, -2, -1`, not to `N - 4 = 524284` and the next three. -/
theorem reset_maps_last_32K_counterexample :
    (MMC3Mapper.reset
        { mirroring := Mirroring.VERTICAL, prgROMSize := 4294967296, prgRAMSize := 0x2000,
          prgRAMSizeBattery := 0, chrROMSize := 0x2000, chrRAMSize := 0,
          chrRAMSizeBattery := 0, hasCHRRAM := false, alternateMode := false,
          command := 0, irqCounter := 0, irqLatch := 0, irqReload := false,
          irqEnabled := false, irqDelay := 0 }).2.filter Call.isPRGROM
      = [Call.mapPRGROMBank 0 (-4), Call.mapPRGROMBank 1 (-3), Call.mapPRGROMBank 2 (-2),
         Call.mapPRGROMBank 3 (-1)]
    ∧ (4294967296 : Int) / 0x2000 - 4 = 524284 := by
  decide

/-- For a storage of `1 ≤ size ≤ 2^31` bytes, whatever is masked with
`(size - 1) >> exp` names a unit of the storage. -/
theorem unitInStorage_jsAnd (size : Int) (exp : Nat) (x : Int) (hexp : exp < 32)
    (h1 : 1 ≤ size) (h2 : size ≤ 2147483648) :
    unitInStorage size exp (jsAnd x (jsShr (size - 1) exp)) := by
  have hmod : exp % 32 = exp := Nat.mod_eq_of_lt hexp
  have hpos : (0 : Int) < 2 ^ exp := by positivity
  have hshr : jsShr (size - 1) exp = (size - 1) / 2 ^ exp := by
    unfold jsShr
    rw [toInt32_of_range _ (by omega) (by omega), hmod]
  have hq0 : 0 ≤ (size - 1) / 2 ^ exp := Int.ediv_nonneg (by omega) (by omega)
  have hqle : (size - 1) / 2 ^ exp ≤ size - 1 := Int.ediv_le_self _ (by omega)
  have hqmul : (size - 1) / 2 ^ exp * 2 ^ exp ≤ size - 1 := Int.ediv_mul_le _ (by omega)
  obtain ⟨ha, hb⟩ := jsAnd_mem_range x ((size - 1) / 2 ^ exp) hq0 (by omega)
  unfold unitInStorage
  rw [hshr]
  refine ⟨ha, hb, ?_⟩
  have hmul : jsAnd x ((size - 1) / 2 ^ exp) * 2 ^ exp ≤ (size - 1) / 2 ^ exp * 2 ^ exp :=
    Int.mul_le_mul_of_nonneg_right hb (by omega)
  omega

/-- C4, as amended.  For every physical size `S` with `1 ≤ S ≤ 2^31` (a power
of two or not), every `src`, every `dst` of either sign and every `count`, each
physical index forwarded by `mapPRGROMBank8K`, `mapPRGRAMBank8K`,
`mapCHRROMBank1K` and `mapCHRRAMBank1K` lies in `0 .. (S - 1) >> exp` and the
unit it names starts inside the storage; the methods are total, so no request
fails. -/
theorem forwarded_index_in_storage (m : AbstractMapper) (src dst count : Int) :
    (1 ≤ m.prgROMSize → m.prgROMSize ≤ 2147483648 →
      ∀ c ∈ m.mapPRGROMBank8K src dst count,
        ∃ s i, c = Call.mapPRGROMBank s i ∧ unitInStorage m.prgROMSize 13 i)
    ∧ (1 ≤ m.prgRAMSize → m.prgRAMSize ≤ 2147483648 →
      ∀ c ∈ m.mapPRGRAMBank8K src dst,
        ∃ s i, c = Call.mapPRGRAMBank s i ∧ unitInStorage m.prgRAMSize 13 i)
    ∧ (1 ≤ m.chrROMSize → m.chrROMSize ≤ 2147483648 →
      ∀ c ∈ m.mapCHRROMBank1K src dst count,
        ∃ s i, c = Call.mapPatternsBank s i ∧ unitInStorage m.chrROMSize 10 i)
    ∧ (1 ≤ m.chrRAMSize → m.chrRAMSize ≤ 2147483648 →
      ∀ c ∈ m.mapCHRRAMBank1K src dst count,
        ∃ s i, c = Call.mapPatternsBank s i ∧ unitInStorage m.chrRAMSize 10 i) := by
  refine ⟨?_, ?_, ?_, ?_⟩
  · intro h1 h31 c hc
    unfold AbstractMapper.mapPRGROMBank8K at hc
    rw [forCount_eq, List.mem_map] at hc
    obtain ⟨j, _, rfl⟩ := hc
    exact ⟨_, _, rfl, unitInStorage_jsAnd _ 13 _ (by norm_num) h1 h31⟩
  · intro h1 h31 c hc
    unfold AbstractMapper.mapPRGRAMBank8K at hc
    rw [List.mem_singleton] at hc
    subst hc
    exact ⟨_, _, rfl, unitInStorage_jsAnd _ 13 _ (by norm_num) h1 h31⟩
  · intro h1 h31 c hc
    unfold AbstractMapper.mapCHRROMBank1K at hc
    rw [forCount_eq, List.mem_map] at hc
    obtain ⟨j, _, rfl⟩ := hc
    exact ⟨_, _, rfl, unitInStorage_jsAnd _ 10 _ (by norm_num) h1 h31⟩
  · intro h1 h31 c hc
    unfold AbstractMapper.mapCHRRAMBank1K at hc
    rw [forCount_eq, List.mem_map] at hc
    obtain ⟨j, _, rfl⟩ := hc
    exact ⟨_, _, rfl, unitInStorage_jsAnd _ 10 _ (by norm_num) h1 h31⟩

/-- Witness of C4 as amended: a 24 KiB program ROM (not a power of two), a
request for 3 units from bank `-2`, forwarded to the units 2, 2, 0. -/
theorem forwarded_index_in_storage_witness :
    (∀ c ∈ AbstractMapper.mapPRGROMBank8K
          { mirroring := Mirroring.VERTICAL, prgROMSize := 0x6000, prgRAMSize := 0x2000,
            prgRAMSizeBattery := 0, chrROMSize := 0x2000, chrRAMSize := 0x2000,
            chrRAMSizeBattery := 0 } 0 (-2) 3,
        ∃ s i, c = Call.mapPRGROMBank s i ∧ unitInStorage 0x6000 13 i)
    ∧ AbstractMapper.mapPRGROMBank8K
          { mirroring := Mirroring.VERTICAL, prgROMSize := 0x6000, prgRAMSize := 0x2000,
            prgRAMSizeBattery := 0, chrROMSize := 0x2000, chrRAMSize := 0x2000,
            chrRAMSizeBattery := 0 } 0 (-2) 3
        = [Call.mapPRGROMBank 0 2, Call.mapPRGROMBank 1 2, Call.mapPRGROMBank 2 0] :=
  ⟨(forwarded_index_in_storage
      { mirroring := Mirroring.VERTICAL, prgROMSize := 0x6000, prgRAMSize := 0x2000,
        prgRAMSizeBattery := 0, chrROMSize := 0x2000, chrRAMSize := 0x2000,
        chrRAMSizeBattery := 0 } 0 (-2) 3).1 (by decide) (by decide), by decide⟩

/-- C4 as stated fails for a size above `2^31`.  With `prgROMSize = 2^32` the
mask `(prgROMSize - 1) >> 13` is `-1`, and the request for bank `-1` is
forwarded to the unit `-1`, which is below 0; the same happens with
`chrRAMSize = 2^32`. -/
theorem forwarded_index_in_storage_counterexample :
    AbstractMapper.mapPRGROMBank8K
        { mirroring := Mirroring.VERTICAL, prgROMSize := 4294967296, prgRAMSize := 0x2000,
          prgRAMSizeBattery := 0, chrROMSize := 0x2000, chrRAMSize := 4294967296,
          chrRAMSizeBattery := 0 } 0 (-1)
      = [Call.mapPRGROMBank 0 (-1)]
    ∧ AbstractMapper.mapCHRRAMBank1K
        { mirroring := Mirroring.VERTICAL, prgROMSize := 4294967296, prgRAMSize := 0x2000,
          prgRAMSizeBattery := 0, chrROMSize := 0x2000, chrRAMSize := 4294967296,
          chrRAMSizeBattery := 0 } 0 (-1)
      = [Call.mapPatternsBank 0 (-1)]
    ∧ jsShr (4294967296 - 1) 13 = -1
    ∧ ¬ unitInStorage 4294967296 13 (-1) := by
  refine ⟨by decide, by decide, by decide, ?_⟩
  intro h
  have := h.1
  omega

/-! ## The MMC3 scanline counter -/

/-- C5.  `updateIRQCounter()` sets `irqCounter` to `irqLatch` if `irqCounter` was
zero or the reload flag was set, and to `irqCounter - 1` otherwise; afterwards
the reload flag is false, and `irqLatch`, `irqEnabled`, `command` and
`alternateMode` (and `irqDelay` and the base mapper) are as before. -/
theorem updateIRQCounter_state (m : MMC3Mapper) :
    m.updateIRQCounter.1.irqCounter
        = (if m.irqCounter = 0 ∨ m.irqReload = true then m.irqLatch else m.irqCounter - 1)
    ∧ m.updateIRQCounter.1.irqReload = false
    ∧ m.updateIRQCounter.1.irqLatch = m.irqLatch
    ∧ m.updateIRQCounter.1.irqEnabled = m.irqEnabled
    ∧ m.updateIRQCounter.1.command = m.command
    ∧ m.updateIRQCounter.1.alternateMode = m.alternateMode
    ∧ m.updateIRQCounter.1.irqDelay = m.irqDelay
    ∧ m.updateIRQCounter.1.hasCHRRAM = m.hasCHRRAM
    ∧ m.updateIRQCounter.1.toAbstractMapper = m.toAbstractMapper := by
  unfold MMC3Mapper.updateIRQCounter
  by_cases h : m.irqCounter = 0 ∨ m.irqReload = true
  · simp [h]
  · simp [h]

/-- C6.  A counter update calls `cpu.activateInterrupt(IRQ_EXT)`, once, exactly
when `irqEnabled` holds, the counter is zero after the update, and
`alternateMode` is off or the counter was zero before the update or the reload
flag was set before it; otherwise the update calls nothing. -/
theorem updateIRQCounter_calls (m : MMC3Mapper) :
    m.updateIRQCounter.2
      = (if m.irqEnabled = true ∧ m.updateIRQCounter.1.irqCounter = 0
            ∧ (m.alternateMode = false ∨ m.irqCounter = 0 ∨ m.irqReload = true) then
          [Call.activateInterrupt Interrupt.IRQ_EXT]
        else []) := by
  unfold MMC3Mapper.updateIRQCounter
  by_cases h : m.irqCounter = 0 ∨ m.irqReload = true
  · simp [h]
  · simp [h]

/-- C9: evaluation of the code at the failing input.  In alternate mode with
`irqEnabled` set, `irqCounter = 1` and the reload flag clear, the update
decrements the counter to 0 and makes no call: the condition tests
`!irqCounterOld`, which is false for a counter that was decremented to zero.
The update that reloads the counter to 0 because the reload flag was set does
call `cpu.activateInterrupt(IRQ_EXT)`. -/
theorem alternate_decrement_to_zero_no_interrupt :
    (MMC3Mapper.updateIRQCounter
        { mirroring := Mirroring.VERTICAL, prgROMSize := 0x10000, prgRAMSize := 0x2000,
          prgRAMSizeBattery := 0, chrROMSize := 0x2000, chrRAMSize := 0,
          chrRAMSizeBattery := 0, hasCHRRAM := false, alternateMode := true,
          command := 0, irqCounter := 1, irqLatch := 4, irqReload := false,
          irqEnabled := true, irqDelay := 0 }).1.irqCounter = 0
    ∧ (MMC3Mapper.updateIRQCounter
        { mirroring := Mirroring.VERTICAL, prgROMSize := 0x10000, prgRAMSize := 0x2000,
          prgRAMSizeBattery := 0, chrROMSize := 0x2000, chrRAMSize := 0,
          chrRAMSizeBattery := 0, hasCHRRAM := false, alternateMode := true,
          command := 0, irqCounter := 1, irqLatch := 4, irqReload := false,
          irqEnabled := true, irqDelay := 0 }).2 = []
    ∧ (MMC3Mapper.updateIRQCounter
        { mirroring := Mirroring.VERTICAL, prgROMSize := 0x10000, prgRAMSize := 0x2000,
          prgRAMSizeBattery := 0, chrROMSize := 0x2000, chrRAMSize := 0,
          chrRAMSizeBattery := 0, hasCHRRAM := false, alternateMode := true,
          command := 0, irqCounter := 5, irqLatch := 0, irqReload := true,
          irqEnabled := true, irqDelay := 0 }).2
        = [Call.activateInterrupt Interrupt.IRQ_EXT] := by
  decide

/-! ## Bank select -/

theorem and_two_pow_eq (x n : Nat) : x &&& 2 ^ n = if x.testBit n then 2 ^ n else 0 := by
  apply Nat.eq_of_testBit_eq
  intro i
  rw [Nat.testBit_and, Nat.testBit_two_pow]
  by_cases h : n = i
  · subst h
    cases hx : x.testBit n <;> simp [Nat.testBit_two_pow_self]
  · cases hx : x.testBit n <;> simp [h, Nat.testBit_two_pow_of_ne h]

theorem toUint32_toInt32 (x : Int) : toUint32 (toInt32 x) = toUint32 x := by
  unfold toUint32 toInt32
  simp only
  split <;> omega

theorem toUint32_natCast (n : Nat) (h : n < 4294967296) : toUint32 (n : Int) = n := by
  unfold toUint32
  omega

/-- The two source slots of `switchPRGROMBanks0And2`: `(c & 0x40) >>> 5` is 2 when
bit 6 of `c` is set and 0 otherwise, and `(~c & 0x40) >>> 5` is the other one. -/
theorem prg_source_slots (c : Int) :
    jsUshr (jsAnd c 0x40) 5 = (if jsAnd c 0x40 ≠ 0 then 2 else 0)
    ∧ jsUshr (jsAnd (jsNot c) 0x40) 5 = 2 - (if jsAnd c 0x40 ≠ 0 then 2 else 0) := by
  have hu : toUint32 c < 4294967296 := toUint32_lt c
  have h64 : toUint32 0x40 = 2 ^ 6 := by decide
  have hnot : toUint32 (jsNot c) = 2 ^ 32 - (toUint32 c + 1) := by
    rw [jsNot_def, toUint32_toInt32, toUint32_natCast _ (by omega)]
    omega
  have hbit : (2 ^ 32 - (toUint32 c + 1)).testBit 6 = !(toUint32 c).testBit 6 := by
    rw [Nat.testBit_two_pow_sub_succ (by omega)]
    simp
  have hA : jsAnd c 0x40 = if (toUint32 c).testBit 6 then 64 else 0 := by
    rw [jsAnd_def, h64, and_two_pow_eq]
    cases (toUint32 c).testBit 6 <;> decide
  have hB : jsAnd (jsNot c) 0x40 = if (toUint32 c).testBit 6 then 0 else 64 := by
    rw [jsAnd_def, h64, hnot, and_two_pow_eq, hbit]
    cases (toUint32 c).testBit 6 <;> decide
  rw [hA, hB]
  cases (toUint32 c).testBit 6 <;> decide

/-- C10, as amended.  For an MMC3 state whose latched command `c` has
`(c & 7) = 6`, every value `v` and a `prgROMSize` of `2^k` with `14 ≤ k ≤ 31`
(a power of two of `N = prgROMSize / 0x2000 ≥ 2` units and at most `2^31`
bytes), a write to the bank-select-data slot makes exactly two calls: first
source slot `s` (2 if bit 6 of `c` is set, else 0) to the unit `v & (N - 1)`,
then source slot `2 - s` to the unit `N - 2`; the mapper is unchanged. -/
theorem write_bank_select_prg (m : MMC3Mapper) (address v : Int) (k : Nat)
    (hslot : jsAnd address 0xE001 = 0x8001) (hcmd : jsAnd m.command 7 = 6)
    (hS : m.prgROMSize = 2 ^ k) (h14 : 14 ≤ k) (h31 : k ≤ 31) :
    m.write address v =
      (m, [Call.mapPRGROMBank (if jsAnd m.command 0x40 ≠ 0 then 2 else 0)
              (jsAnd v (m.prgROMSize / 0x2000 - 1)),
           Call.mapPRGROMBank (2 - (if jsAnd m.command 0x40 ≠ 0 then 2 else 0))
              (m.prgROMSize / 0x2000 - 2)]) := by
  have hN : m.prgROMSize / 0x2000 = 2 ^ (k - 13) := by
    have h : (0x2000 : Int) = 2 ^ 13 := by norm_num
    rw [hS, h, two_pow_ediv k 13 (by omega)]
  have hmb : jsShr (m.prgROMSize - 1) 13 = 2 ^ (k - 13) - 1 := by
    rw [hS, jsShr_two_pow_sub_one k 13 (by omega) h31]
  have h2le : (2 : Int) ≤ 2 ^ (k - 13) := by
    have := two_pow_le_of_le 1 (k - 13) (by omega)
    norm_num at this
    exact this
  have hsecond : jsAnd (-2) ((2 : Int) ^ (k - 13) - 1) = 2 ^ (k - 13) - 2 := by
    rw [jsAnd_two_pow_sub_one _ (k - 13) (by omega), neg_emod_of_le 2 _ (by norm_num) h2le]
  obtain ⟨hA, hB⟩ := prg_source_slots m.command
  have hwrite : m.write address v = (m, m.writeBankSelect v) := by
    unfold MMC3Mapper.write
    simp only [hslot]
    norm_num
  have hselect : m.writeBankSelect v = m.switchPRGROMBanks0And2 v := by
    unfold MMC3Mapper.writeBankSelect
    simp only [hcmd]
    norm_num
  rw [hwrite, hselect]
  unfold MMC3Mapper.switchPRGROMBanks0And2 AbstractMapper.mapPRGROMBank8K
  simp only [forCount_one, hmb, hN, hA, hB, add_zero, hsecond, List.singleton_append]

/-- Witness of C10 as amended: command `0x46`, value `0x13`, a 64 KiB program
ROM: slot 2 gets unit `0x13 & 7 = 3`, slot 0 gets unit 6. -/
theorem write_bank_select_prg_witness :
    MMC3Mapper.write
        { mirroring := Mirroring.VERTICAL, prgROMSize := 0x10000, prgRAMSize := 0x2000,
          prgRAMSizeBattery := 0, chrROMSize := 0x2000, chrRAMSize := 0,
          chrRAMSizeBattery := 0, hasCHRRAM := false, alternateMode := false,
          command := 0x46, irqCounter := 0, irqLatch := 0, irqReload := false,
          irqEnabled := false, irqDelay := 0 } 0x8001 0x13
      = ({ mirroring := Mirroring.VERTICAL, prgROMSize := 0x10000, prgRAMSize := 0x2000,
           prgRAMSizeBattery := 0, chrROMSize := 0x2000, chrRAMSize := 0,
           chrRAMSizeBattery := 0, hasCHRRAM := false, alternateMode := false,
           command := 0x46, irqCounter := 0, irqLatch := 0, irqReload := false,
           irqEnabled := false, irqDelay := 0 },
         [Call.mapPRGROMBank 2 3, Call.mapPRGROMBank 0 6]) :=
  write_bank_select_prg
    { mirroring := Mirroring.VERTICAL, prgROMSize := 0x10000, prgRAMSize := 0x2000,
      prgRAMSizeBattery := 0, chrROMSize := 0x2000, chrRAMSize := 0,
      chrRAMSizeBattery := 0, hasCHRRAM := false, alternateMode := false,
      command := 0x46, irqCounter := 0, irqLatch := 0, irqReload := false,
      irqEnabled := false, irqDelay := 0 } 0x8001 0x13 16 (by decide) (by decide) (by decide)
    (by decide) (by decide)

/-- C10 as stated fails for a power of two above `2^31`.  With
`prgROMSize = 2^32` (`N = 524288` units), command 6 and value 0, the second
assignment goes to the unit `-2 & -1 = -2`, not to `N - 2 = 524286`. -/
theorem write_bank_select_prg_counterexample :
    (MMC3Mapper.write
        { mirroring := Mirroring.VERTICAL, prgROMSize := 4294967296, prgRAMSize := 0x2000,
          prgRAMSizeBattery := 0, chrROMSize := 0x2000, chrRAMSize := 0,
          chrRAMSizeBattery := 0, hasCHRRAM := false, alternateMode := false,
          command := 6, irqCounter := 0, irqLatch := 0, irqReload := false,
          irqEnabled := false, irqDelay := 0 } 0x8001 0).2
      = [Call.mapPRGROMBank 0 0, Call.mapPRGROMBank 2 (-2)]
    ∧ (4294967296 : Int) / 0x2000 - 2 = 524286 := by
  decide

/-! ## The edge filter -/

theorem ticks_nil (m : MMC3Mapper) (calls : List Call) : m.ticks calls [] = (m, calls) := rfl

theorem ticks_cons (m : MMC3Mapper) (calls : List Call) (bus : Int) (rest : List Int) :
    m.ticks calls (bus :: rest) = (m.tick bus).1.ticks (calls ++ (m.tick bus).2) rest := by
  unfold MMC3Mapper.ticks
  rw [List.foldl_cons]

theorem ticks_append (m : MMC3Mapper) (calls : List Call) (xs ys : List Int) :
    m.ticks calls (xs ++ ys) = (m.ticks calls xs).1.ticks (m.ticks calls xs).2 ys := by
  unfold MMC3Mapper.ticks
  rw [List.foldl_append]

theorem bit12_of_zero : jsAnd 0 0x1000 = 0 := by decide

/-- A tick that reaches `updateIRQCounter()` is that update followed by
`irqDelay = 7`. -/
theorem tick_of_tickUpdates (m : MMC3Mapper) (bus : Int) (h : m.tickUpdates bus = true) :
    m.tick bus = ({ m.updateIRQCounter.1 with irqDelay := 7 }, m.updateIRQCounter.2) := by
  unfold MMC3Mapper.tickUpdates at h
  simp only [Bool.and_eq_true, decide_eq_true_eq] at h
  unfold MMC3Mapper.tick
  rw [if_pos h.1, if_pos h.2]

/-- A tick that does not reach `updateIRQCounter()` calls nothing and changes
only `irqDelay`. -/
theorem tick_of_not_tickUpdates (m : MMC3Mapper) (bus : Int) (h : m.tickUpdates bus = false) :
    m.tick bus = ({ m with irqDelay := (m.tick bus).1.irqDelay }, []) := by
  unfold MMC3Mapper.tickUpdates at h
  unfold MMC3Mapper.tick
  by_cases hb : jsAnd bus 0x1000 ≠ 0
  · have hd : ¬ m.irqDelay = 0 := by
      intro hd
      simp [hb, hd] at h
    simp only [if_pos hb, if_neg hd]
  · by_cases hd : m.irqDelay ≠ 0
    · simp only [if_neg hb, if_pos hd]
    · simp only [if_neg hb, if_neg hd]

theorem tick_irqDelay (m : MMC3Mapper) (bus : Int) :
    (m.tick bus).1.irqDelay
      = if jsAnd bus 0x1000 ≠ 0 then 7 else if m.irqDelay ≠ 0 then m.irqDelay - 1 else m.irqDelay := by
  unfold MMC3Mapper.tick
  by_cases hb : jsAnd bus 0x1000 ≠ 0
  · simp only [if_pos hb]
  · by_cases hd : m.irqDelay ≠ 0
    · simp only [if_neg hb, if_pos hd]
    · simp only [if_neg hb, if_neg hd]

/-- The state of the edge filter after the first `n` ticks of a run: `irqDelay`
is `d` within `0 .. 7`, and bit 12 was low on each of the last `7 - d` ticks, or
on all of them when fewer were made. -/
theorem delay_window (m : MMC3Mapper) (hm : m.irqDelay = 0) (buses : List Int) (n : Nat) :
    0 ≤ (m.ticks [] (buses.take n)).1.irqDelay
    ∧ (m.ticks [] (buses.take n)).1.irqDelay ≤ 7
    ∧ ∀ j : Nat, (j : Int) < 7 - (m.ticks [] (buses.take n)).1.irqDelay → j < n →
        jsAnd (buses.getD (n - 1 - j) 0) 0x1000 = 0 := by
  induction n with
  | zero =>
    rw [List.take_zero, ticks_nil]
    simp only [hm]
    refine ⟨le_refl _, by norm_num, ?_⟩
    intro j _ hj
    omega
  | succ n ih =>
    obtain ⟨h0, h7, hlow⟩ := ih
    rw [List.take_succ, ticks_append]
    cases hb : buses[n]? with
    | none =>
      simp only [Option.toList]
      rw [ticks_nil]
      refine ⟨h0, h7, ?_⟩
      intro j hj hjn
      rcases j with _ | j
      · have hd : buses.getD n 0 = 0 := by
          rw [List.getD_eq_getElem?_getD, hb]; rfl
        have hidx : n + 1 - 1 - 0 = n := by omega
        rw [hidx, hd]
        exact bit12_of_zero
      · have hidx : n + 1 - 1 - (j + 1) = n - 1 - j := by omega
        rw [hidx]
        exact hlow j (by push_cast at hj; omega) (by omega)
    | some b =>
      have hd : buses.getD n 0 = b := by
        rw [List.getD_eq_getElem?_getD, hb]; rfl
      simp only [Option.toList]
      rw [ticks_cons, ticks_nil, tick_irqDelay]
      by_cases hbit : jsAnd b 0x1000 ≠ 0
      · rw [if_pos hbit]
        refine ⟨by norm_num, le_refl _, ?_⟩
        intro j hj _
        omega
      · rw [if_neg hbit]
        have hbit0 : jsAnd b 0x1000 = 0 := not_not.mp hbit
        by_cases hdz : (m.ticks [] (buses.take n)).1.irqDelay ≠ 0
        · rw [if_pos hdz]
          refine ⟨by omega, by omega, ?_⟩
          intro j hj hjn
          rcases j with _ | j
          · have hidx : n + 1 - 1 - 0 = n := by omega
            rw [hidx, hd]
            exact hbit0
          · have hidx : n + 1 - 1 - (j + 1) = n - 1 - j := by omega
            rw [hidx]
            exact hlow j (by push_cast at hj; omega) (by omega)
        · rw [if_neg hdz]
          refine ⟨h0, h7, ?_⟩
          intro j hj hjn
          rcases j with _ | j
          · have hidx : n + 1 - 1 - 0 = n := by omega
            rw [hidx, hd]
            exact hbit0
          · have hidx : n + 1 - 1 - (j + 1) = n - 1 - j := by omega
            rw [hidx]
            exact hlow j (by push_cast at hj; omega) (by omega)

/-- C8, as amended.  In a run of `tick()` calls made after `reset()`, the tick
with index `n` performs a counter update only if bit 12 of the address bus is
high on that tick and was low on each of the up to 7 ticks immediately before
it: on the 7 preceding ticks when `n ≥ 7`, and on every tick since `reset()`
when `n < 7`. -/
theorem tick_update_only_after_low_run (m : MMC3Mapper) (buses : List Int) (n : Nat)
    (hup : (m.reset.1.ticks [] (buses.take n)).1.tickUpdates (buses.getD n 0) = true) :
    jsAnd (buses.getD n 0) 0x1000 ≠ 0
    ∧ ∀ j : Nat, j < 7 → j < n → jsAnd (buses.getD (n - 1 - j) 0) 0x1000 = 0 := by
  obtain ⟨_, _, hlow⟩ := delay_window m.reset.1 rfl buses n
  unfold MMC3Mapper.tickUpdates at hup
  simp only [Bool.and_eq_true, decide_eq_true_eq] at hup
  refine ⟨hup.1, ?_⟩
  intro j hj hjn
  exact hlow j (by rw [hup.2]; omega) hjn

/-- Witness of C8 as amended: after `reset()`, seven ticks with bit 12 low and
then a tick with bit 12 high, which performs the update. -/
theorem tick_update_only_after_low_run_witness :
    jsAnd ([0, 0, 0, 0, 0, 0, 0, 0x1000].getD 7 0) 0x1000 ≠ 0
    ∧ ∀ j : Nat, j < 7 → j < 7 →
        jsAnd ([0, 0, 0, 0, 0, 0, 0, 0x1000].getD (7 - 1 - j) 0) 0x1000 = 0 :=
  tick_update_only_after_low_run
    { mirroring := Mirroring.VERTICAL, prgROMSize := 0x10000, prgRAMSize := 0x2000,
      prgRAMSizeBattery := 0, chrROMSize := 0x2000, chrRAMSize := 0,
      chrRAMSizeBattery := 0, hasCHRRAM := false, alternateMode := false,
      command := 0, irqCounter := 0, irqLatch := 0, irqReload := false,
      irqEnabled := false, irqDelay := 0 }
    [0, 0, 0, 0, 0, 0, 0, 0x1000] 7 (by decide)

/-- C8 as stated fails right after `reset()`, which sets `irqDelay` to 0.  The
first tick after `reset()` performs the update when bit 12 is high, with no
tick before it; and after two ticks with bit 12 low the third tick performs
the update when bit 12 is high, with two ticks before it, not seven. -/
theorem tick_update_only_after_low_run_counterexample :
    ((MMC3Mapper.reset
        { mirroring := Mirroring.VERTICAL, prgROMSize := 0x10000, prgRAMSize := 0x2000,
          prgRAMSizeBattery := 0, chrROMSize := 0x2000, chrRAMSize := 0,
          chrRAMSizeBattery := 0, hasCHRRAM := false, alternateMode := false,
          command := 0, irqCounter := 0, irqLatch := 0, irqReload := false,
          irqEnabled := false, irqDelay := 0 }).1.ticks [] []).1.tickUpdates 0x1000 = true
    ∧ ((MMC3Mapper.reset
        { mirroring := Mirroring.VERTICAL, prgROMSize := 0x10000, prgRAMSize := 0x2000,
          prgRAMSizeBattery := 0, chrROMSize := 0x2000, chrRAMSize := 0,
          chrRAMSizeBattery := 0, hasCHRRAM := false, alternateMode := false,
          command := 0, irqCounter := 0, irqLatch := 0, irqReload := false,
          irqEnabled := false, irqDelay := 0 }).1.ticks [] [0, 0]).1.tickUpdates 0x1000 = true := by
  decide

/-! ## The counter round trip -/

theorem ticks_lows (lows : List Int) :
    ∀ (m : MMC3Mapper) (calls : List Call), (∀ b ∈ lows, jsAnd b 0x1000 = 0) →
      0 ≤ m.irqDelay →
      m.ticks calls lows = ({ m with irqDelay := max (m.irqDelay - lows.length) 0 }, calls) := by
  induction lows with
  | nil =>
    intro m calls _ h0
    rw [ticks_nil]
    simp only [List.length_nil, Nat.cast_zero, sub_zero, max_eq_left h0]
  | cons b rest ih =>
    intro m calls hlow h0
    have hb : jsAnd b 0x1000 = 0 := hlow b (List.mem_cons_self _ _)
    have hrest : ∀ x ∈ rest, jsAnd x 0x1000 = 0 := fun x hx => hlow x (List.mem_cons_of_mem _ hx)
    have htick : m.tick b
        = ({ m with irqDelay := if m.irqDelay ≠ 0 then m.irqDelay - 1 else m.irqDelay }, []) := by
      unfold MMC3Mapper.tick
      have hnb : ¬ jsAnd b 0x1000 ≠ 0 := not_not.mpr hb
      by_cases hd : m.irqDelay ≠ 0
      · simp only [if_neg hnb, if_pos hd]
      · simp only [if_neg hnb, if_neg hd]
    rw [ticks_cons, htick]
    simp only [List.append_nil]
    rw [ih _ calls hrest (by simp only; split <;> omega)]
    simp only [List.length_cons, Nat.cast_add, Nat.cast_one]
    congr 2
    split <;> omega

/-- One qualifying edge, from a delay within `0 .. 7`: the seven low ticks bring
`irqDelay` to 0 and the high tick performs the counter update. -/
theorem ticks_edge (m : MMC3Mapper) (calls : List Call) (e : List Int)
    (he : isEdge e = true) (h0 : 0 ≤ m.irqDelay) (h7 : m.irqDelay ≤ 7) :
    m.ticks calls e
      = ({ ({ m with irqDelay := 0 } : MMC3Mapper).updateIRQCounter.1 with irqDelay := 7 },
          calls ++ ({ m with irqDelay := 0 } : MMC3Mapper).updateIRQCounter.2) := by
  unfold isEdge at he
  simp only [Bool.and_eq_true, beq_iff_eq, List.all_eq_true, bne_iff_ne, ne_eq] at he
  obtain ⟨⟨hlen, hlow⟩, hhigh⟩ := he
  have hsplit : e = e.take 7 ++ e.drop 7 := (List.take_append_drop 7 e).symm
  have hdrop : ∃ h, e.drop 7 = [h] := by
    have : (e.drop 7).length = 1 := by rw [List.length_drop, hlen]
    exact List.length_eq_one.mp this
  obtain ⟨h, hh⟩ := hdrop
  have hhb : ¬ jsAnd h 0x1000 = 0 := hhigh h (by rw [hh]; exact List.mem_singleton_self h)
  have htake : (e.take 7).length = 7 := by rw [List.length_take, hlen]; rfl
  rw [hsplit, ticks_append, ticks_lows _ m calls hlow h0, hh, htake, ticks_cons, ticks_nil]
  have hmax : max (m.irqDelay - ((7 : Nat) : Int)) 0 = 0 := by
    apply max_eq_right
    push_cast
    omega
  simp only [hmax]
  have hup : ({ m with irqDelay := 0 } : MMC3Mapper).tickUpdates h = true := by
    unfold MMC3Mapper.tickUpdates
    simp only [Bool.and_eq_true, decide_eq_true_eq]
    exact ⟨hhb, trivial⟩
  rw [tick_of_tickUpdates _ h hup]

theorem armed_edge (m : MMC3Mapper) (calls : List Call) (e : List Int) (latch c : Int)
    (he : isEdge e = true) (h : Armed m latch c) :
    Armed (m.ticks calls e).1 latch (if c = 0 then latch else c - 1)
    ∧ (m.ticks calls e).2
        = calls ++ (if (if c = 0 then latch else c - 1) = 0 then
            [Call.activateInterrupt Interrupt.IRQ_EXT] else []) := by
  obtain ⟨hc, hl, hen, halt, hrel, h0, h7⟩ := h
  rw [ticks_edge m calls e he h0 h7]
  unfold MMC3Mapper.updateIRQCounter Armed
  by_cases hz : c = 0
  · by_cases hlz : latch = 0
    · simp [hc, hl, hen, halt, hrel, hz, hlz]
    · simp [hc, hl, hen, halt, hrel, hz, hlz]
  · by_cases hcz : c - 1 = 0
    · simp [hc, hl, hen, halt, hrel, hz, hcz]
    · simp [hc, hl, hen, halt, hrel, hz, hcz]

theorem armed_run (latch : Int) (es : List (List Int)) :
    ∀ (m : MMC3Mapper) (calls : List Call) (c : Int), (∀ e ∈ es, isEdge e = true) →
      Armed m latch c → (es.length : Int) ≤ c →
      Armed (m.ticks calls es.flatten).1 latch (c - es.length)
      ∧ (m.ticks calls es.flatten).2
          = calls ++ (if es ≠ [] ∧ c = es.length then
              [Call.activateInterrupt Interrupt.IRQ_EXT] else []) := by
  induction es with
  | nil =>
    intro m calls c _ h _
    rw [List.flatten_nil, ticks_nil]
    simpa using h
  | cons e es ih =>
    intro m calls c hes h hlen
    have he : isEdge e = true := hes e (List.mem_cons_self _ _)
    have hrest : ∀ x ∈ es, isEdge x = true := fun x hx => hes x (List.mem_cons_of_mem _ hx)
    simp only [List.length_cons, Nat.cast_add, Nat.cast_one] at hlen
    have hcz : ¬ c = 0 := by omega
    obtain ⟨ha, hcalls⟩ := armed_edge m calls e latch c he h
    rw [if_neg hcz] at ha hcalls
    obtain ⟨hb, hcalls2⟩ := ih (m.ticks calls e).1 (m.ticks calls e).2 (c - 1) hrest ha (by omega)
    rw [List.flatten_cons, ticks_append]
    refine ⟨?_, ?_⟩
    · have hidx : c - ((e :: es).length : Int) = c - 1 - (es.length : Int) := by
        simp only [List.length_cons, Nat.cast_add, Nat.cast_one]; ring
      rw [hidx]
      exact hb
    · rw [hcalls2, hcalls]
      by_cases h1 : c - 1 = 0
      · have hnil : es = [] := by
          apply List.eq_nil_of_length_eq_zero
          omega
        subst hnil
        have hc1 : c = 1 := by omega
        simp [hc1]
      · by_cases hes0 : es = []
        · subst hes0
          have : ¬ c = 1 := by omega
          simp [h1, this]
        · have hiff : (c - 1 = (es.length : Int)) ↔ (c = ((es.length : Int) + 1)) := by
            constructor <;> intro <;> omega
          simp [h1, hes0, hiff]

/-- C7.  From a state with `irqCounter = 0`, `irqLatch = N ≥ 1`, interrupts
enabled, normal mode, no reload requested and `irqDelay = 0`, apply `N + 1`
qualifying edges (seven ticks with bit 12 low, then one with bit 12 high).
After the `k`-th edge, `1 ≤ k ≤ N + 1`, `irqCounter` is `N - (k - 1)`: `N` after
the first and 0 after the last.  The calls made up to and including the `k`-th
edge are none for `k ≤ N` and the single `cpu.activateInterrupt(IRQ_EXT)` for
`k = N + 1`, so the interrupt is raised exactly once, on the last edge. -/
theorem irq_counter_round_trip (m : MMC3Mapper) (N : Nat) (hN : 1 ≤ N)
    (hc : m.irqCounter = 0) (hl : m.irqLatch = N) (he : m.irqEnabled = true)
    (ha : m.alternateMode = false) (hr : m.irqReload = false) (hd : m.irqDelay = 0)
    (edges : List (List Int)) (hedges : ∀ e ∈ edges, isEdge e = true)
    (hlen : edges.length = N + 1) (k : Nat) (hk1 : 1 ≤ k) (hk : k ≤ N + 1) :
    (m.ticks [] (edges.take k).flatten).1.irqCounter = (N : Int) - ((k : Int) - 1)
    ∧ (m.ticks [] (edges.take k).flatten).2
        = if k = N + 1 then [Call.activateInterrupt Interrupt.IRQ_EXT] else [] := by
  have harm : Armed m N 0 := ⟨hc, hl, he, ha, hr, by omega, by omega⟩
  have hlenk : (edges.take k).length = k := by
    rw [List.length_take]; omega
  have hmem : ∀ e ∈ edges.take k, isEdge e = true :=
    fun e h => hedges e (List.mem_of_mem_take h)
  cases htk : edges.take k with
  | nil =>
    rw [htk] at hlenk
    simp only [List.length_nil] at hlenk
    omega
  | cons e rest =>
    rw [htk] at hlenk hmem
    simp only [List.length_cons] at hlenk
    have he1 : isEdge e = true := hmem e (List.mem_cons_self _ _)
    have hrest : ∀ x ∈ rest, isEdge x = true := fun x hx => hmem x (List.mem_cons_of_mem _ hx)
    obtain ⟨ha1, hcalls1⟩ := armed_edge m [] e N 0 he1 harm
    have hNz : ¬ ((N : Int) = 0) := by omega
    rw [if_pos rfl] at ha1 hcalls1
    rw [if_neg hNz] at hcalls1
    obtain ⟨ha2, hcalls2⟩ :=
      armed_run N rest (m.ticks [] e).1 (m.ticks [] e).2 N hrest ha1 (by omega)
    rw [List.flatten_cons, ticks_append]
    refine ⟨?_, ?_⟩
    · rw [ha2.1]
      omega
    · rw [hcalls2, hcalls1]
      by_cases hlast : k = N + 1
      · have hne : rest ≠ [] := by
          intro h0
          rw [h0] at hlenk
          simp only [List.length_nil] at hlenk
          omega
        have hNl : (N : Int) = (rest.length : Int) := by omega
        simp [hlast, hne, hNl]
      · have hNl : ¬ ((N : Int) = (rest.length : Int)) := by omega
        simp [hlast, hNl]

/-- Witness of C7 with `N = 4`: the counter is 4, 3, 2, 1, 0 after the edges 1
to 5, no call is made during the first four edges, and the interrupt is raised
on the fifth. -/
theorem irq_counter_round_trip_witness :
    ((MMC3Mapper.ticks
        { mirroring := Mirroring.VERTICAL, prgROMSize := 0x10000, prgRAMSize := 0x2000,
          prgRAMSizeBattery := 0, chrROMSize := 0x2000, chrRAMSize := 0,
          chrRAMSizeBattery := 0, hasCHRRAM := false, alternateMode := false,
          command := 0, irqCounter := 0, irqLatch := 4, irqReload := false,
          irqEnabled := true, irqDelay := 0 } []
        ((List.replicate 5 [0, 0, 0, 0, 0, 0, 0, 0x1000]).take 1).flatten).1.irqCounter = 4
      ∧ (MMC3Mapper.ticks
        { mirroring := Mirroring.VERTICAL, prgROMSize := 0x10000, prgRAMSize := 0x2000,
          prgRAMSizeBattery := 0, chrROMSize := 0x2000, chrRAMSize := 0,
          chrRAMSizeBattery := 0, hasCHRRAM := false, alternateMode := false,
          command := 0, irqCounter := 0, irqLatch := 4, irqReload := false,
          irqEnabled := true, irqDelay := 0 } []
        ((List.replicate 5 [0, 0, 0, 0, 0, 0, 0, 0x1000]).take 1).flatten).2 = [])
    ∧ ((MMC3Mapper.ticks
        { mirroring := Mirroring.VERTICAL, prgROMSize := 0x10000, prgRAMSize := 0x2000,
          prgRAMSizeBattery := 0, chrROMSize := 0x2000, chrRAMSize := 0,
          chrRAMSizeBattery := 0, hasCHRRAM := false, alternateMode := false,
          command := 0, irqCounter := 0, irqLatch := 4, irqReload := false,
          irqEnabled := true, irqDelay := 0 } []
        ((List.replicate 5 [0, 0, 0, 0, 0, 0, 0, 0x1000]).take 2).flatten).1.irqCounter = 3
      ∧ (MMC3Mapper.ticks
        { mirroring := Mirroring.VERTICAL, prgROMSize := 0x10000, prgRAMSize := 0x2000,
          prgRAMSizeBattery := 0, chrROMSize := 0x2000, chrRAMSize := 0,
          chrRAMSizeBattery := 0, hasCHRRAM := false, alternateMode := false,
          command := 0, irqCounter := 0, irqLatch := 4, irqReload := false,
          irqEnabled := true, irqDelay := 0 } []
        ((List.replicate 5 [0, 0, 0, 0, 0, 0, 0, 0x1000]).take 2).flatten).2 = [])
    ∧ ((MMC3Mapper.ticks
        { mirroring := Mirroring.VERTICAL, prgROMSize := 0x10000, prgRAMSize := 0x2000,
          prgRAMSizeBattery := 0, chrROMSize := 0x2000, chrRAMSize := 0,
          chrRAMSizeBattery := 0, hasCHRRAM := false, alternateMode := false,
          command := 0, irqCounter := 0, irqLatch := 4, irqReload := false,
          irqEnabled := true, irqDelay := 0 } []
        ((List.replicate 5 [0, 0, 0, 0, 0, 0, 0, 0x1000]).take 3).flatten).1.irqCounter = 2
      ∧ (MMC3Mapper.ticks
        { mirroring := Mirroring.VERTICAL, prgROMSize := 0x10000, prgRAMSize := 0x2000,
          prgRAMSizeBattery := 0, chrROMSize := 0x2000, chrRAMSize := 0,
          chrRAMSizeBattery := 0, hasCHRRAM := false, alternateMode := false,
          command := 0, irqCounter := 0, irqLatch := 4, irqReload := false,
          irqEnabled := true, irqDelay := 0 } []
        ((List.replicate 5 [0, 0, 0, 0, 0, 0, 0, 0x1000]).take 3).flatten).2 = [])
    ∧ ((MMC3Mapper.ticks
        { mirroring := Mirroring.VERTICAL, prgROMSize := 0x10000, prgRAMSize := 0x2000,
          prgRAMSizeBattery := 0, chrROMSize := 0x2000, chrRAMSize := 0,
          chrRAMSizeBattery := 0, hasCHRRAM := false, alternateMode := false,
          command := 0, irqCounter := 0, irqLatch := 4, irqReload := false,
          irqEnabled := true, irqDelay := 0 } []
        ((List.replicate 5 [0, 0, 0, 0, 0, 0, 0, 0x1000]).take 4).flatten).1.irqCounter = 1
      ∧ (MMC3Mapper.ticks
        { mirroring := Mirroring.VERTICAL, prgROMSize := 0x10000, prgRAMSize := 0x2000,
          prgRAMSizeBattery := 0, chrROMSize := 0x2000, chrRAMSize := 0,
          chrRAMSizeBattery := 0, hasCHRRAM := false, alternateMode := false,
          command := 0, irqCounter := 0, irqLatch := 4, irqReload := false,
          irqEnabled := true, irqDelay := 0 } []
        ((List.replicate 5 [0, 0, 0, 0, 0, 0, 0, 0x1000]).take 4).flatten).2 = [])
    ∧ ((MMC3Mapper.ticks
        { mirroring := Mirroring.VERTICAL, prgROMSize := 0x10000, prgRAMSize := 0x2000,
          prgRAMSizeBattery := 0, chrROMSize := 0x2000, chrRAMSize := 0,
          chrRAMSizeBattery := 0, hasCHRRAM := false, alternateMode := false,
          command := 0, irqCounter := 0, irqLatch := 4, irqReload := false,
          irqEnabled := true, irqDelay := 0 } []
        ((List.replicate 5 [0, 0, 0, 0, 0, 0, 0, 0x1000]).take 5).flatten).1.irqCounter = 0
      ∧ (MMC3Mapper.ticks
        { mirroring := Mirroring.VERTICAL, prgROMSize := 0x10000, prgRAMSize := 0x2000,
          prgRAMSizeBattery := 0, chrROMSize := 0x2000, chrRAMSize := 0,
          chrRAMSizeBattery := 0, hasCHRRAM := false, alternateMode := false,
          command := 0, irqCounter := 0, irqLatch := 4, irqReload := false,
          irqEnabled := true, irqDelay := 0 } []
        ((List.replicate 5 [0, 0, 0, 0, 0, 0, 0, 0x1000]).take 5).flatten).2 = [Call.activateInterrupt Interrupt.IRQ_EXT]) :=
  ⟨irq_counter_round_trip _ 4 (by decide) rfl rfl rfl rfl rfl rfl
      (List.replicate 5 [0, 0, 0, 0, 0, 0, 0, 0x1000]) (by decide) rfl 1 (by decide) (by decide),
    irq_counter_round_trip _ 4 (by decide) rfl rfl rfl rfl rfl rfl
      (List.replicate 5 [0, 0, 0, 0, 0, 0, 0, 0x1000]) (by decide) rfl 2 (by decide) (by decide),
    irq_counter_round_trip _ 4 (by decide) rfl rfl rfl rfl rfl rfl
      (List.replicate 5 [0, 0, 0, 0, 0, 0, 0, 0x1000]) (by decide) rfl 3 (by decide) (by decide),
    irq_counter_round_trip _ 4 (by decide) rfl rfl rfl rfl rfl rfl
      (List.replicate 5 [0, 0, 0, 0, 0, 0, 0, 0x1000]) (by decide) rfl 4 (by decide) (by decide),
    irq_counter_round_trip _ 4 (by decide) rfl rfl rfl rfl rfl rfl
      (List.replicate 5 [0, 0, 0, 0, 0, 0, 0, 0x1000]) (by decide) rfl 5 (by decide) (by decide)⟩

/-! ## Graphics bank select -/

theorem jsAnd_congr_left (a b mask : Int) (h : toUint32 a = toUint32 b) :
    jsAnd a mask = jsAnd b mask := by
  unfold jsAnd
  rw [h]

/-- Twice the zero-fill half and twice the sign-propagating half of `v` have the
same 32-bit pattern. -/
theorem toUint32_double_half (v i : Int) :
    toUint32 (jsUshr v 1 * 2 + i) = toUint32 (2 * jsShr v 1 + i) := by
  have h1 : (2 : Nat) ^ (1 % 32) = 2 := by norm_num
  have h2 : (2 : Int) ^ (1 % 32) = 2 := by norm_num
  unfold jsUshr jsShr
  rw [natDiv_eq, h1, h2]
  unfold toUint32 toInt32
  simp only
  split <;> omega

theorem jsAnd_two_pow (c : Int) (k : Nat) (hk : k < 31) :
    jsAnd c ((2 : Int) ^ k) = if (toUint32 c).testBit k then 2 ^ k else 0 := by
  have hlt : (2 : Int) ^ k < 2 ^ 31 := pow_lt_pow_right₀ (by norm_num) hk
  have h31v : (2 : Int) ^ 31 = 2147483648 := by norm_num
  have hpos : (0 : Int) < 2 ^ k := by positivity
  have hm : toUint32 ((2 : Int) ^ k) = 2 ^ k := by
    have := toUint32_of_range ((2 : Int) ^ k) (by omega) (by omega)
    exact_mod_cast this
  rw [jsAnd_def, hm, and_two_pow_eq]
  split
  · push_cast
    exact toInt32_of_range _ (by omega) (by omega)
  · decide

/-- The source index of `switchDoubleCHRROMBanks`: `(c & 0x80) >>> 6 | c & 0x01` is
`(bit7(c) << 1) | bit0(c)`. -/
theorem double_source_index (c : Int) :
    jsOr (jsUshr (jsAnd c 0x80) 6) (jsAnd c 0x01) = jsOr (jsShl (bitOf c 7) 1) (bitOf c 0) := by
  have h7 : jsAnd c 0x80 = if (toUint32 c).testBit 7 then 128 else 0 :=
    jsAnd_two_pow c 7 (by norm_num)
  have h0 : jsAnd c 0x01 = if (toUint32 c).testBit 0 then 1 else 0 :=
    jsAnd_two_pow c 0 (by norm_num)
  rw [h7, h0]
  unfold bitOf
  cases (toUint32 c).testBit 7 <;> cases (toUint32 c).testBit 0 <;> decide

/-- C11.  For an MMC3 mapper without CHR RAM whose latched command `c` has
`(c & 7)` equal to 0 or 1, a write of `v` to the bank-select-data slot makes
exactly the two calls `ppuMemory.mapPatternsBank(2 * s + i,
(2 * (v >> 1) + i) & ((chrROMSize - 1) >> 10))`, `i = 0, 1`, with
`s = (bit7(c) << 1) | bit0(c)`, and leaves the mapper as it is; two values with
the same `v >> 1` make the same calls, so bit 0 of `v` is ignored. -/
theorem write_bank_select_double_chr (m : MMC3Mapper) (address v : Int)
    (hslot : jsAnd address 0xE001 = 0x8001) (hram : m.hasCHRRAM = false)
    (hcmd : jsAnd m.command 7 = 0 ∨ jsAnd m.command 7 = 1) :
    m.write address v =
      (m, [Call.mapPatternsBank (2 * jsOr (jsShl (bitOf m.command 7) 1) (bitOf m.command 0) + 0)
              (jsAnd (2 * jsShr v 1 + 0) (jsShr (m.chrROMSize - 1) 10)),
           Call.mapPatternsBank (2 * jsOr (jsShl (bitOf m.command 7) 1) (bitOf m.command 0) + 1)
              (jsAnd (2 * jsShr v 1 + 1) (jsShr (m.chrROMSize - 1) 10))])
    ∧ ∀ w : Int, jsShr w 1 = jsShr v 1 → m.write address w = m.write address v := by
  have hwrite : ∀ x : Int, m.write address x = (m, m.writeBankSelect x) := by
    intro x
    unfold MMC3Mapper.write
    simp only [hslot]
    norm_num
  have hselect : ∀ x : Int, m.writeBankSelect x = m.switchDoubleCHRROMBanks x := by
    intro x
    unfold MMC3Mapper.writeBankSelect
    simp only [hcmd, hram]
    simp
  have hcalls : ∀ x : Int, m.switchDoubleCHRROMBanks x =
      [Call.mapPatternsBank (2 * jsOr (jsShl (bitOf m.command 7) 1) (bitOf m.command 0) + 0)
          (jsAnd (2 * jsShr x 1 + 0) (jsShr (m.chrROMSize - 1) 10)),
       Call.mapPatternsBank (2 * jsOr (jsShl (bitOf m.command 7) 1) (bitOf m.command 0) + 1)
          (jsAnd (2 * jsShr x 1 + 1) (jsShr (m.chrROMSize - 1) 10))] := by
    intro x
    unfold MMC3Mapper.switchDoubleCHRROMBanks AbstractMapper.mapCHRROMBank2K
      AbstractMapper.mapCHRROMBank1K
    simp only [forCount_two, double_source_index]
    rw [jsAnd_congr_left _ _ _ (toUint32_double_half x 0),
      jsAnd_congr_left _ _ _ (toUint32_double_half x 1), mul_comm _ (2 : Int)]
  refine ⟨?_, ?_⟩
  · rw [hwrite, hselect, hcalls]
  · intro w hw
    rw [hwrite, hselect, hcalls, hwrite, hselect, hcalls, hw]

/-- Witness of C11: command `0x81`, values `0x0B` and `0x0A`, a 16 KiB graphics
ROM: the source index is 3, and the units 6 and 7 get the physical units 10 and
11 for both values. -/
theorem write_bank_select_double_chr_witness :
    MMC3Mapper.write
        { mirroring := Mirroring.VERTICAL, prgROMSize := 0x10000, prgRAMSize := 0x2000,
          prgRAMSizeBattery := 0, chrROMSize := 0x4000, chrRAMSize := 0,
          chrRAMSizeBattery := 0, hasCHRRAM := false, alternateMode := false,
          command := 0x81, irqCounter := 0, irqLatch := 0, irqReload := false,
          irqEnabled := false, irqDelay := 0 } 0x8001 0x0B
      = ({ mirroring := Mirroring.VERTICAL, prgROMSize := 0x10000, prgRAMSize := 0x2000,
           prgRAMSizeBattery := 0, chrROMSize := 0x4000, chrRAMSize := 0,
           chrRAMSizeBattery := 0, hasCHRRAM := false, alternateMode := false,
           command := 0x81, irqCounter := 0, irqLatch := 0, irqReload := false,
           irqEnabled := false, irqDelay := 0 },
         [Call.mapPatternsBank 6 10, Call.mapPatternsBank 7 11]) :=
  (write_bank_select_double_chr
    { mirroring := Mirroring.VERTICAL, prgROMSize := 0x10000, prgRAMSize := 0x2000,
      prgRAMSizeBattery := 0, chrROMSize := 0x4000, chrRAMSize := 0,
      chrRAMSizeBattery := 0, hasCHRRAM := false, alternateMode := false,
      command := 0x81, irqCounter := 0, irqLatch := 0, irqReload := false,
      irqEnabled := false, irqDelay := 0 } 0x8001 0x0B (by decide) rfl (by decide)).1

/-- The high bit of the source index of `switchSingleCHRROMBanks`:
`(~c & 0x80) >>> 5` is `(1 - bit7(c)) << 2`. -/
theorem single_source_high_bit (c : Int) :
    jsUshr (jsAnd (jsNot c) 0x80) 5 = jsShl (1 - bitOf c 7) 2 := by
  have hu : toUint32 c < 4294967296 := toUint32_lt c
  have hnot : toUint32 (jsNot c) = 2 ^ 32 - (toUint32 c + 1) := by
    rw [jsNot_def, toUint32_toInt32, toUint32_natCast _ (by omega)]
    omega
  have hbit : (2 ^ 32 - (toUint32 c + 1)).testBit 7 = !(toUint32 c).testBit 7 := by
    rw [Nat.testBit_two_pow_sub_succ (by omega)]
    simp
  have h7 : jsAnd (jsNot c) 0x80 = if (toUint32 (jsNot c)).testBit 7 then 128 else 0 :=
    jsAnd_two_pow (jsNot c) 7 (by norm_num)
  rw [h7, hnot, hbit]
  unfold bitOf
  cases (toUint32 c).testBit 7 <;> decide

/-- C12.  For an MMC3 mapper without CHR RAM whose latched command `c` has
`(c & 7)` in 2..5, a write of `v` to the bank-select-data slot makes exactly
the one call `ppuMemory.mapPatternsBank(s, v & ((chrROMSize - 1) >> 10))` with
`s = ((1 - bit7(c)) << 2) | ((c - 2) & 0x03)`, and leaves the mapper as it is. -/
theorem write_bank_select_single_chr (m : MMC3Mapper) (address v : Int)
    (hslot : jsAnd address 0xE001 = 0x8001) (hram : m.hasCHRRAM = false)
    (hcmd : jsAnd m.command 7 = 2 ∨ jsAnd m.command 7 = 3 ∨ jsAnd m.command 7 = 4
      ∨ jsAnd m.command 7 = 5) :
    m.write address v =
      (m, [Call.mapPatternsBank
              (jsOr (jsShl (1 - bitOf m.command 7) 2) (jsAnd (m.command - 2) 0x03))
              (jsAnd v (jsShr (m.chrROMSize - 1) 10))]) := by
  have hwrite : m.write address v = (m, m.writeBankSelect v) := by
    unfold MMC3Mapper.write
    simp only [hslot]
    norm_num
  have hselect : m.writeBankSelect v = m.switchSingleCHRROMBanks v := by
    unfold MMC3Mapper.writeBankSelect
    rcases hcmd with h | h | h | h <;> simp [h, hram]
  rw [hwrite, hselect]
  unfold MMC3Mapper.switchSingleCHRROMBanks AbstractMapper.mapCHRROMBank1K
  simp only [forCount_one, single_source_high_bit, add_zero]

/-- Witness of C12: command `0x04`, value `0x1F`, an 16 KiB graphics ROM: the
source unit `(1 << 2) | 2 = 6` gets the physical unit `0x1F & 15 = 15`. -/
theorem write_bank_select_single_chr_witness :
    MMC3Mapper.write
        { mirroring := Mirroring.VERTICAL, prgROMSize := 0x10000, prgRAMSize := 0x2000,
          prgRAMSizeBattery := 0, chrROMSize := 0x4000, chrRAMSize := 0,
          chrRAMSizeBattery := 0, hasCHRRAM := false, alternateMode := false,
          command := 0x04, irqCounter := 0, irqLatch := 0, irqReload := false,
          irqEnabled := false, irqDelay := 0 } 0x8001 0x1F
      = ({ mirroring := Mirroring.VERTICAL, prgROMSize := 0x10000, prgRAMSize := 0x2000,
           prgRAMSizeBattery := 0, chrROMSize := 0x4000, chrRAMSize := 0,
           chrRAMSizeBattery := 0, hasCHRRAM := false, alternateMode := false,
           command := 0x04, irqCounter := 0, irqLatch := 0, irqReload := false,
           irqEnabled := false, irqDelay := 0 },
         [Call.mapPatternsBank 6 15]) :=
  write_bank_select_single_chr
    { mirroring := Mirroring.VERTICAL, prgROMSize := 0x10000, prgRAMSize := 0x2000,
      prgRAMSizeBattery := 0, chrROMSize := 0x4000, chrRAMSize := 0,
      chrRAMSizeBattery := 0, hasCHRRAM := false, alternateMode := false,
      command := 0x04, irqCounter := 0, irqLatch := 0, irqReload := false,
      irqEnabled := false, irqDelay := 0 } 0x8001 0x1F (by decide) rfl (by decide)

/-! ## Register writes -/

theorem jsAnd_idem (a mask : Int) : jsAnd (jsAnd a mask) mask = jsAnd a mask := by
  have hlt : toUint32 a &&& toUint32 mask < 4294967296 :=
    lt_of_le_of_lt Nat.and_le_left (toUint32_lt a)
  have hu : toUint32 (jsAnd a mask) = toUint32 a &&& toUint32 mask := by
    rw [jsAnd_def, toUint32_toInt32, toUint32_natCast _ hlt]
  rw [jsAnd_def (jsAnd a mask) mask, hu, Nat.and_assoc, Nat.and_self, ← jsAnd_def]

theorem jsAnd_le_left_of_nonneg (a mask : Int) (h0 : 0 ≤ a) (h1 : a < 2147483648) :
    0 ≤ jsAnd a mask ∧ jsAnd a mask ≤ a := by
  have ha : ((toUint32 a : Nat) : Int) = a := toUint32_of_range a h0 (by omega)
  have hle : toUint32 a &&& toUint32 mask ≤ toUint32 a := Nat.and_le_left
  have hle2 : (((toUint32 a &&& toUint32 mask : Nat)) : Int) ≤ a :=
    calc (((toUint32 a &&& toUint32 mask : Nat)) : Int)
        ≤ ((toUint32 a : Nat) : Int) := by exact_mod_cast hle
      _ = a := ha
  have h0n : (0 : Int) ≤ ((toUint32 a &&& toUint32 mask : Nat) : Int) := Int.ofNat_nonneg _
  rw [jsAnd_def, toInt32_of_range _ (by omega) (by omega)]
  exact ⟨h0n, hle2⟩

theorem write_of_no_slot (m : MMC3Mapper) (a v : Int)
    (h : jsAnd a 0xE001 ≠ 0x8000 ∧ jsAnd a 0xE001 ≠ 0x8001 ∧ jsAnd a 0xE001 ≠ 0xA000
      ∧ jsAnd a 0xE001 ≠ 0xA001 ∧ jsAnd a 0xE001 ≠ 0xC000 ∧ jsAnd a 0xE001 ≠ 0xC001
      ∧ jsAnd a 0xE001 ≠ 0xE000 ∧ jsAnd a 0xE001 ≠ 0xE001) :
    m.write a v = (m, []) := by
  obtain ⟨h1, h2, h3, h4, h5, h6, h7, h8⟩ := h
  unfold MMC3Mapper.write
  simp only [if_neg h1, if_neg h2, if_neg h3, if_neg h4, if_neg h5, if_neg h6, if_neg h7,
    if_neg h8]

/-- C13.  `write(a, v)` is `write(a & 0xE001, v)`.  When `a & 0xE001` is none of
the eight register slots, and so for every address `0 ≤ a < 0x8000`, `write(a, v)`
returns the mapper as it was and makes no call; `write` is a total function, so
no write fails. -/
theorem write_decodes_masked_address (m : MMC3Mapper) (a v : Int) :
    m.write (jsAnd a 0xE001) v = m.write a v
    ∧ (jsAnd a 0xE001 ≠ 0x8000 ∧ jsAnd a 0xE001 ≠ 0x8001 ∧ jsAnd a 0xE001 ≠ 0xA000
        ∧ jsAnd a 0xE001 ≠ 0xA001 ∧ jsAnd a 0xE001 ≠ 0xC000 ∧ jsAnd a 0xE001 ≠ 0xC001
        ∧ jsAnd a 0xE001 ≠ 0xE000 ∧ jsAnd a 0xE001 ≠ 0xE001 →
      m.write a v = (m, []))
    ∧ (0 ≤ a → a < 0x8000 → m.write a v = (m, [])) := by
  refine ⟨?_, write_of_no_slot m a v, ?_⟩
  · unfold MMC3Mapper.write
    rw [jsAnd_idem]
  · intro h0 h1
    obtain ⟨_, hle⟩ := jsAnd_le_left_of_nonneg a 0xE001 h0 (by omega)
    apply write_of_no_slot
    refine ⟨?_, ?_, ?_, ?_, ?_, ?_, ?_, ?_⟩ <;> omega

/-- Witness of C13: the address `0x4017`, below the register space, with
`0x4017 & 0xE001 = 0x4001`. -/
theorem write_decodes_masked_address_witness :
    MMC3Mapper.write
        { mirroring := Mirroring.VERTICAL, prgROMSize := 0x10000, prgRAMSize := 0x2000,
          prgRAMSizeBattery := 0, chrROMSize := 0x4000, chrRAMSize := 0,
          chrRAMSizeBattery := 0, hasCHRRAM := false, alternateMode := false,
          command := 0x04, irqCounter := 3, irqLatch := 9, irqReload := false,
          irqEnabled := true, irqDelay := 2 } 0x4017 0xFF
      = ({ mirroring := Mirroring.VERTICAL, prgROMSize := 0x10000, prgRAMSize := 0x2000,
           prgRAMSizeBattery := 0, chrROMSize := 0x4000, chrRAMSize := 0,
           chrRAMSizeBattery := 0, hasCHRRAM := false, alternateMode := false,
           command := 0x04, irqCounter := 3, irqLatch := 9, irqReload := false,
           irqEnabled := true, irqDelay := 2 }, [])
    ∧ jsAnd 0x4017 0xE001 = 0x4001 :=
  ⟨(write_decodes_masked_address
      { mirroring := Mirroring.VERTICAL, prgROMSize := 0x10000, prgRAMSize := 0x2000,
        prgRAMSizeBattery := 0, chrROMSize := 0x4000, chrRAMSize := 0,
        chrRAMSizeBattery := 0, hasCHRRAM := false, alternateMode := false,
        command := 0x04, irqCounter := 3, irqLatch := 9, irqReload := false,
        irqEnabled := true, irqDelay := 2 } 0x4017 0xFF).2.2 (by decide) (by decide),
    by decide⟩

/-- C14.  For an MMC3 mapper whose cartridge mirroring is `FOUR_SCREEN`, a write
to the mirroring slot makes no call and leaves the mapper as it is.  For any
other cartridge mirroring the write makes exactly one call,
`setNamesAttrsMirroring(HORIZONTAL)` when bit 0 of `v` is set and
`setNamesAttrsMirroring(VERTICAL)` when it is clear. -/
theorem write_mirroring (m : MMC3Mapper) (address v : Int)
    (hslot : jsAnd address 0xE001 = 0xA000) :
    (m.mirroring = Mirroring.FOUR_SCREEN → m.write address v = (m, []))
    ∧ (m.mirroring ≠ Mirroring.FOUR_SCREEN → jsAnd v 1 ≠ 0 →
        m.write address v = (m, [Call.setNamesAttrsMirroring Mirroring.HORIZONTAL]))
    ∧ (m.mirroring ≠ Mirroring.FOUR_SCREEN → jsAnd v 1 = 0 →
        m.write address v = (m, [Call.setNamesAttrsMirroring Mirroring.VERTICAL])) := by
  have hwrite : m.write address v = (m, m.writeMirroring v) := by
    unfold MMC3Mapper.write
    simp only [hslot]
    norm_num
  rw [hwrite]
  unfold MMC3Mapper.writeMirroring MMC3Mapper.switchMirroring
    AbstractMapper.setHorizontalMirroring AbstractMapper.setVerticalMirroring
  refine ⟨?_, ?_, ?_⟩
  · intro h
    simp [h]
  · intro h hv
    simp [h, hv]
  · intro h hv
    simp [h, hv]

/-- Witness of C14: four-screen cartridge, value 1: no call; horizontal
cartridge, value 1: one call that sets horizontal mirroring. -/
theorem write_mirroring_witness :
    MMC3Mapper.write
        { mirroring := Mirroring.FOUR_SCREEN, prgROMSize := 0x10000, prgRAMSize := 0x2000,
          prgRAMSizeBattery := 0, chrROMSize := 0x4000, chrRAMSize := 0,
          chrRAMSizeBattery := 0, hasCHRRAM := false, alternateMode := false,
          command := 0, irqCounter := 0, irqLatch := 0, irqReload := false,
          irqEnabled := false, irqDelay := 0 } 0xA000 1
      = ({ mirroring := Mirroring.FOUR_SCREEN, prgROMSize := 0x10000, prgRAMSize := 0x2000,
           prgRAMSizeBattery := 0, chrROMSize := 0x4000, chrRAMSize := 0,
           chrRAMSizeBattery := 0, hasCHRRAM := false, alternateMode := false,
           command := 0, irqCounter := 0, irqLatch := 0, irqReload := false,
           irqEnabled := false, irqDelay := 0 }, [])
    ∧ MMC3Mapper.write
        { mirroring := Mirroring.VERTICAL, prgROMSize := 0x10000, prgRAMSize := 0x2000,
          prgRAMSizeBattery := 0, chrROMSize := 0x4000, chrRAMSize := 0,
          chrRAMSizeBattery := 0, hasCHRRAM := false, alternateMode := false,
          command := 0, irqCounter := 0, irqLatch := 0, irqReload := false,
          irqEnabled := false, irqDelay := 0 } 0xA000 1
      = ({ mirroring := Mirroring.VERTICAL, prgROMSize := 0x10000, prgRAMSize := 0x2000,
           prgRAMSizeBattery := 0, chrROMSize := 0x4000, chrRAMSize := 0,
           chrRAMSizeBattery := 0, hasCHRRAM := false, alternateMode := false,
           command := 0, irqCounter := 0, irqLatch := 0, irqReload := false,
           irqEnabled := false, irqDelay := 0 },
         [Call.setNamesAttrsMirroring Mirroring.HORIZONTAL]) :=
  ⟨(write_mirroring
      { mirroring := Mirroring.FOUR_SCREEN, prgROMSize := 0x10000, prgRAMSize := 0x2000,
        prgRAMSizeBattery := 0, chrROMSize := 0x4000, chrRAMSize := 0,
        chrRAMSizeBattery := 0, hasCHRRAM := false, alternateMode := false,
        command := 0, irqCounter := 0, irqLatch := 0, irqReload := false,
        irqEnabled := false, irqDelay := 0 } 0xA000 1 (by decide)).1 rfl,
    (write_mirroring
      { mirroring := Mirroring.VERTICAL, prgROMSize := 0x10000, prgRAMSize := 0x2000,
        prgRAMSizeBattery := 0, chrROMSize := 0x4000, chrRAMSize := 0,
        chrRAMSizeBattery := 0, hasCHRRAM := false, alternateMode := false,
        command := 0, irqCounter := 0, irqLatch := 0, irqReload := false,
        irqEnabled := false, irqDelay := 0 } 0xA000 1 (by decide)).2.1 (by decide) (by decide)⟩

/-- C15.  A write with `a & 0xE001 = 0xE000` sets `irqEnabled` to false and calls
`cpu.clearInterrupt(IRQ_EXT)` once; a write with `a & 0xE001 = 0xE001` sets
`irqEnabled` to true and makes no call.  Nothing else of the mapper changes, and
the value written plays no part. -/
theorem write_irq_enable (m : MMC3Mapper) (a v : Int) :
    (jsAnd a 0xE001 = 0xE000 →
      m.write a v = ({ m with irqEnabled := false }, [Call.clearInterrupt Interrupt.IRQ_EXT]))
    ∧ (jsAnd a 0xE001 = 0xE001 → m.write a v = ({ m with irqEnabled := true }, []))
    ∧ (jsAnd a 0xE001 = 0xE000 ∨ jsAnd a 0xE001 = 0xE001 →
      (m.write a v).1.irqCounter = m.irqCounter ∧ (m.write a v).1.irqLatch = m.irqLatch
        ∧ (m.write a v).1.irqReload = m.irqReload ∧ (m.write a v).1.irqDelay = m.irqDelay
        ∧ (m.write a v).1.command = m.command ∧ ∀ w : Int, m.write a w = m.write a v) := by
  have h0 : jsAnd a 0xE001 = 0xE000 →
      ∀ x : Int, m.write a x
        = ({ m with irqEnabled := false }, [Call.clearInterrupt Interrupt.IRQ_EXT]) := by
    intro h x
    unfold MMC3Mapper.write MMC3Mapper.writeIRQEnable
    simp only [h]
    norm_num
  have h1 : jsAnd a 0xE001 = 0xE001 →
      ∀ x : Int, m.write a x = ({ m with irqEnabled := true }, []) := by
    intro h x
    unfold MMC3Mapper.write MMC3Mapper.writeIRQEnable
    simp only [h]
    norm_num
  refine ⟨fun h => h0 h v, fun h => h1 h v, ?_⟩
  intro h
  rcases h with h | h
  · rw [h0 h v]
    exact ⟨rfl, rfl, rfl, rfl, rfl, fun w => h0 h w⟩
  · rw [h1 h v]
    exact ⟨rfl, rfl, rfl, rfl, rfl, fun w => h1 h w⟩

/-- Witness of C15: a write to `0xE000` of a mapper with interrupts enabled. -/
theorem write_irq_enable_witness :
    MMC3Mapper.write
        { mirroring := Mirroring.VERTICAL, prgROMSize := 0x10000, prgRAMSize := 0x2000,
          prgRAMSizeBattery := 0, chrROMSize := 0x4000, chrRAMSize := 0,
          chrRAMSizeBattery := 0, hasCHRRAM := false, alternateMode := false,
          command := 6, irqCounter := 3, irqLatch := 9, irqReload := false,
          irqEnabled := true, irqDelay := 2 } 0xE000 0x55
      = ({ mirroring := Mirroring.VERTICAL, prgROMSize := 0x10000, prgRAMSize := 0x2000,
           prgRAMSizeBattery := 0, chrROMSize := 0x4000, chrRAMSize := 0,
           chrRAMSizeBattery := 0, hasCHRRAM := false, alternateMode := false,
           command := 6, irqCounter := 3, irqLatch := 9, irqReload := false,
           irqEnabled := false, irqDelay := 2 }, [Call.clearInterrupt Interrupt.IRQ_EXT]) :=
  (write_irq_enable
    { mirroring := Mirroring.VERTICAL, prgROMSize := 0x10000, prgRAMSize := 0x2000,
      prgRAMSizeBattery := 0, chrROMSize := 0x4000, chrRAMSize := 0,
      chrRAMSizeBattery := 0, hasCHRRAM := false, alternateMode := false,
      command := 6, irqCounter := 3, irqLatch := 9, irqReload := false,
      irqEnabled := true, irqDelay := 2 } 0xE000 0x55).1 (by decide)

/-! ## Forced reload -/

theorem writes_nil (m : MMC3Mapper) (calls : List Call) : m.writes calls [] = (m, calls) := rfl

theorem writes_cons (m : MMC3Mapper) (calls : List Call) (w : Int × Int)
    (rest : List (Int × Int)) :
    m.writes calls (w :: rest)
      = (m.write w.1 w.2).1.writes (calls ++ (m.write w.1 w.2).2) rest := by
  unfold MMC3Mapper.writes
  rw [List.foldl_cons]

theorem write_irq_latch (m : MMC3Mapper) (a v : Int) (h : jsAnd a 0xE001 = 0xC000) :
    m.write a v = ({ m with irqLatch := v }, []) := by
  unfold MMC3Mapper.write
  simp only [h]
  norm_num

/-- A run of writes to the latch slot makes no call, keeps `irqCounter` and
leaves the last value written in `irqLatch`. -/
theorem writes_irq_latch (ws : List (Int × Int)) :
    ∀ (m : MMC3Mapper) (calls : List Call), (∀ w ∈ ws, jsAnd w.1 0xE001 = 0xC000) →
      (m.writes calls ws).2 = calls
      ∧ (m.writes calls ws).1.irqCounter = m.irqCounter
      ∧ (m.writes calls ws).1.irqLatch = ((ws.getLast?).map Prod.snd).getD m.irqLatch := by
  induction ws with
  | nil =>
    intro m calls _
    rw [writes_nil]
    exact ⟨rfl, rfl, rfl⟩
  | cons w rest ih =>
    intro m calls h
    have hw : jsAnd w.1 0xE001 = 0xC000 := h w (List.mem_cons_self _ _)
    have hrest : ∀ x ∈ rest, jsAnd x.1 0xE001 = 0xC000 :=
      fun x hx => h x (List.mem_cons_of_mem _ hx)
    rw [writes_cons, write_irq_latch m w.1 w.2 hw]
    obtain ⟨h1, h2, h3⟩ := ih { m with irqLatch := w.2 } (calls ++ []) hrest
    refine ⟨?_, ?_, ?_⟩
    · rw [h1, List.append_nil]
    · rw [h2]
    · rw [h3]
      cases rest with
      | nil => rfl
      | cons x xs =>
        rw [List.getLast?_cons_cons]
        cases hl : (x :: xs).getLast? with
        | none => simp at hl
        | some y => rfl

theorem updateIRQCounter_irqCounter (m : MMC3Mapper) :
    m.updateIRQCounter.1.irqCounter
      = (if m.irqCounter = 0 ∨ m.irqReload = true then m.irqLatch else m.irqCounter - 1) := by
  unfold MMC3Mapper.updateIRQCounter
  by_cases h : m.irqCounter = 0 ∨ m.irqReload = true
  · simp [h]
  · simp [h]

/-- C19.  In either mode, a write to the force-reload slot
(`address & 0xE001 = 0xC001`) sets `irqCounter` to 0 and makes no call.  After any
writes to the latch slot, which make no call either, the next counter update
sets `irqCounter` to the latch value current at that time: the last value
written to the latch slot, or the earlier latch value when there was no such
write. -/
theorem write_irq_reload_then_update (m : MMC3Mapper) (a v : Int)
    (ha : jsAnd a 0xE001 = 0xC001) (ws : List (Int × Int))
    (hws : ∀ w ∈ ws, jsAnd w.1 0xE001 = 0xC000) :
    (m.write a v).1.irqCounter = 0
    ∧ (m.write a v).2 = []
    ∧ ((m.write a v).1.writes [] ws).2 = []
    ∧ ((m.write a v).1.writes [] ws).1.updateIRQCounter.1.irqCounter
        = ((m.write a v).1.writes [] ws).1.irqLatch
    ∧ ((m.write a v).1.writes [] ws).1.irqLatch = ((ws.getLast?).map Prod.snd).getD m.irqLatch := by
  have hwrite : m.write a v = (m.writeIRQReload, []) := by
    unfold MMC3Mapper.write
    simp only [ha]
    norm_num
  have hcounter : m.writeIRQReload.irqCounter = 0 := by
    unfold MMC3Mapper.writeIRQReload
    rfl
  have hlatch : m.writeIRQReload.irqLatch = m.irqLatch := by
    unfold MMC3Mapper.writeIRQReload
    cases m.alternateMode <;> rfl
  obtain ⟨h1, h2, h3⟩ := writes_irq_latch ws m.writeIRQReload [] hws
  rw [hwrite]
  refine ⟨hcounter, rfl, h1, ?_, ?_⟩
  · have hzero : (m.writeIRQReload.writes [] ws).1.irqCounter = 0 := by
      rw [h2, hcounter]
    rw [updateIRQCounter_irqCounter, if_pos (Or.inl hzero)]
  · rw [h3, hlatch]

/-- Witness of C19: alternate mode, counter 5, latch 9; a write to `0xC001`, a
write of 3 to the latch slot `0xC000`, then the update: the counter is 3. -/
theorem write_irq_reload_then_update_witness :
    ((MMC3Mapper.write
        { mirroring := Mirroring.VERTICAL, prgROMSize := 0x10000, prgRAMSize := 0x2000,
          prgRAMSizeBattery := 0, chrROMSize := 0x4000, chrRAMSize := 0,
          chrRAMSizeBattery := 0, hasCHRRAM := false, alternateMode := true,
          command := 0, irqCounter := 5, irqLatch := 9, irqReload := false,
          irqEnabled := true, irqDelay := 0 } 0xC001 0).1.writes []
        [(0xC000, 3)]).1.updateIRQCounter.1.irqCounter = 3 :=
  (write_irq_reload_then_update
    { mirroring := Mirroring.VERTICAL, prgROMSize := 0x10000, prgRAMSize := 0x2000,
      prgRAMSizeBattery := 0, chrROMSize := 0x4000, chrRAMSize := 0,
      chrRAMSizeBattery := 0, hasCHRRAM := false, alternateMode := true,
      command := 0, irqCounter := 5, irqLatch := 9, irqReload := false,
      irqEnabled := true, irqDelay := 0 } 0xC001 0 (by decide) [(0xC000, 3)]
    (by decide)).2.2.2.1

/-! ## The edge filter after a high tick -/

theorem lt_length_of_bit12 (buses : List Int) (n : Nat)
    (h : jsAnd (buses.getD n 0) 0x1000 ≠ 0) : n < buses.length := by
  by_contra hn
  rw [List.getD_eq_default _ _ (by omega)] at h
  exact h bit12_of_zero

/-- The state of the edge filter after the first `n` ticks of a run, once one of
them had bit 12 high or when the run starts with `irqDelay` within `0 .. 7`:
`irqDelay` is `d` within `0 .. 7`, bit 12 was low on each of the last `7 - d`
ticks (on all of them when fewer were made), and `d ≤ 7 - t` whenever bit 12 was
low on each of the last `t ≤ 7` ticks. -/
theorem delay_window_after_high (m : MMC3Mapper) (buses : List Int) (n : Nat) :
    n ≤ buses.length →
    ((∃ h, h < n ∧ jsAnd (buses.getD h 0) 0x1000 ≠ 0) ∨ (0 ≤ m.irqDelay ∧ m.irqDelay ≤ 7)) →
    0 ≤ (m.ticks [] (buses.take n)).1.irqDelay
    ∧ (m.ticks [] (buses.take n)).1.irqDelay ≤ 7
    ∧ (∀ j : Nat, (j : Int) < 7 - (m.ticks [] (buses.take n)).1.irqDelay → j < n →
        jsAnd (buses.getD (n - 1 - j) 0) 0x1000 = 0)
    ∧ (∀ t : Nat, t ≤ 7 → t ≤ n →
        (∀ j : Nat, j < t → jsAnd (buses.getD (n - 1 - j) 0) 0x1000 = 0) →
        (m.ticks [] (buses.take n)).1.irqDelay ≤ 7 - (t : Int)) := by
  induction n with
  | zero =>
    intro _ hex
    rcases hex with ⟨h, hh, _⟩ | ⟨h0, h7⟩
    · omega
    · rw [List.take_zero, ticks_nil]
      refine ⟨h0, h7, ?_, ?_⟩
      · intro j _ hj
        omega
      · intro t _ ht _
        have : t = 0 := by omega
        subst this
        simpa using h7
  | succ n ih =>
    intro hn hex
    have hlt : n < buses.length := by omega
    have hb : buses[n]? = some buses[n] := List.getElem?_eq_getElem hlt
    have hd : buses.getD n 0 = buses[n] := by
      rw [List.getD_eq_getElem?_getD, hb]; rfl
    have hidx0 : n + 1 - 1 - 0 = n := by omega
    rw [List.take_succ, ticks_append, hb]
    simp only [Option.toList]
    rw [ticks_cons, ticks_nil, tick_irqDelay]
    by_cases hbit : jsAnd buses[n] 0x1000 ≠ 0
    · rw [if_pos hbit]
      refine ⟨by norm_num, le_refl _, ?_, ?_⟩
      · intro j hj _
        omega
      · intro t _ _ hlow
        rcases t with _ | t
        · simp
        · have := hlow 0 (by omega)
          rw [hidx0, hd] at this
          exact absurd this hbit
    · rw [if_neg hbit]
      have hbit0 : jsAnd buses[n] 0x1000 = 0 := not_not.mp hbit
      have hex2 : (∃ h, h < n ∧ jsAnd (buses.getD h 0) 0x1000 ≠ 0)
          ∨ (0 ≤ m.irqDelay ∧ m.irqDelay ≤ 7) := by
        rcases hex with ⟨h, hh, hhigh⟩ | hr
        · refine Or.inl ⟨h, ?_, hhigh⟩
          rcases Nat.lt_succ_iff_lt_or_eq.mp hh with h1 | h1
          · exact h1
          · rw [h1, hd] at hhigh
            exact absurd hbit0 hhigh
        · exact Or.inr hr
      obtain ⟨h0, h7, hA, hB⟩ := ih (by omega) hex2
      have hshift : ∀ j : Nat, n + 1 - 1 - (j + 1) = n - 1 - j := by intro j; omega
      by_cases hdz : (m.ticks [] (buses.take n)).1.irqDelay ≠ 0
      · rw [if_pos hdz]
        refine ⟨by omega, by omega, ?_, ?_⟩
        · intro j hj hjn
          rcases j with _ | j
          · rw [hidx0, hd]
            exact hbit0
          · rw [hshift]
            exact hA j (by push_cast at hj; omega) (by omega)
        · intro t ht7 htn hlow
          rcases t with _ | t
          · push_cast
            omega
          · have hprev := hB t (by omega) (by omega)
              (fun j hj => by
                have := hlow (j + 1) (by omega)
                rw [hshift] at this
                exact this)
            push_cast
            omega
      · rw [if_neg hdz]
        have hz : (m.ticks [] (buses.take n)).1.irqDelay = 0 := not_not.mp hdz
        refine ⟨h0, h7, ?_, ?_⟩
        · intro j hj hjn
          rcases j with _ | j
          · rw [hidx0, hd]
            exact hbit0
          · rw [hshift]
            exact hA j (by push_cast at hj; omega) (by omega)
        · intro t ht7 _ _
          rw [hz]
          have : (t : Int) ≤ 7 := by exact_mod_cast ht7
          omega

/-- From a state with `irqDelay` within `0 .. 7`, a tick with bit 12 high that
follows 7 ticks with bit 12 low performs the update. -/
theorem tick_after_seven_low (m : MMC3Mapper) (buses : List Int) (n : Nat)
    (h0 : 0 ≤ m.irqDelay) (h7 : m.irqDelay ≤ 7)
    (hn : jsAnd (buses.getD n 0) 0x1000 ≠ 0) (hn7 : 7 ≤ n)
    (hlow : ∀ j : Nat, j < 7 → jsAnd (buses.getD (n - 1 - j) 0) 0x1000 = 0) :
    (m.ticks [] (buses.take n)).1.tickUpdates (buses.getD n 0) = true := by
  obtain ⟨hd0, _, _, hB⟩ :=
    delay_window_after_high m buses n (le_of_lt (lt_length_of_bit12 buses n hn))
      (Or.inr ⟨h0, h7⟩)
  have hle := hB 7 (le_refl _) hn7 hlow
  have hz : (m.ticks [] (buses.take n)).1.irqDelay = 0 := by
    push_cast at hle
    omega
  unfold MMC3Mapper.tickUpdates
  simp only [Bool.and_eq_true, decide_eq_true_eq]
  exact ⟨hn, hz⟩

/-- C20.  In a run of `tick()` calls from any state, let tick `h` have bit 12 high
and let `n > h`.  Tick `n` performs a counter update only if bit 12 is high on it
and was low on the 7 ticks before it.  If bit 12 is high on tick `n` and at most 6
ticks lie between `h` and `n`, tick `n` performs no update, makes no call and
leaves `irqDelay = 7`.  If bit 12 is high on tick `n` and was low on the 7 ticks
before it, tick `n` performs the update, once: it is `updateIRQCounter()`
followed by `irqDelay = 7`.  (From a state with `irqDelay` within `0 .. 7`, as
every state after `reset()` is, the last statement needs no earlier high tick:
`tick_after_seven_low`.) -/
theorem tick_filter_after_high (m : MMC3Mapper) (buses : List Int) (n h : Nat)
    (hh : h < n) (hhigh : jsAnd (buses.getD h 0) 0x1000 ≠ 0) :
    ((m.ticks [] (buses.take n)).1.tickUpdates (buses.getD n 0) = true →
      jsAnd (buses.getD n 0) 0x1000 ≠ 0 ∧ 7 ≤ n
        ∧ ∀ j : Nat, j < 7 → jsAnd (buses.getD (n - 1 - j) 0) 0x1000 = 0)
    ∧ (jsAnd (buses.getD n 0) 0x1000 ≠ 0 → n - h - 1 ≤ 6 →
      (m.ticks [] (buses.take n)).1.tickUpdates (buses.getD n 0) = false
        ∧ ((m.ticks [] (buses.take n)).1.tick (buses.getD n 0)).1.irqDelay = 7
        ∧ ((m.ticks [] (buses.take n)).1.tick (buses.getD n 0)).2 = []
        ∧ ((m.ticks [] (buses.take n)).1.tick (buses.getD n 0)).1.irqCounter
            = (m.ticks [] (buses.take n)).1.irqCounter)
    ∧ (jsAnd (buses.getD n 0) 0x1000 ≠ 0 → 7 ≤ n →
      (∀ j : Nat, j < 7 → jsAnd (buses.getD (n - 1 - j) 0) 0x1000 = 0) →
      (m.ticks [] (buses.take n)).1.tickUpdates (buses.getD n 0) = true
        ∧ (m.ticks [] (buses.take n)).1.tick (buses.getD n 0)
            = ({ (m.ticks [] (buses.take n)).1.updateIRQCounter.1 with irqDelay := 7 },
                (m.ticks [] (buses.take n)).1.updateIRQCounter.2)) := by
  have hwin : jsAnd (buses.getD n 0) 0x1000 ≠ 0 → _ := fun hn =>
    delay_window_after_high m buses n (le_of_lt (lt_length_of_bit12 buses n hn))
      (Or.inl ⟨h, hh, hhigh⟩)
  have hnear : jsAnd (buses.getD n 0) 0x1000 ≠ 0 → n - h - 1 ≤ 6 →
      (m.ticks [] (buses.take n)).1.irqDelay ≠ 0 := by
    intro hn hgap hz
    obtain ⟨_, _, hA, _⟩ := hwin hn
    have hlow := hA (n - h - 1) (by rw [hz]; omega) (by omega)
    have hidx : n - 1 - (n - h - 1) = h := by omega
    rw [hidx] at hlow
    exact hhigh hlow
  refine ⟨?_, ?_, ?_⟩
  · intro hup
    have hup2 := hup
    unfold MMC3Mapper.tickUpdates at hup2
    simp only [Bool.and_eq_true, decide_eq_true_eq] at hup2
    obtain ⟨hn, hz⟩ := hup2
    obtain ⟨_, _, hA, _⟩ := hwin hn
    have h7 : 7 ≤ n := by
      by_contra hlt
      exact hnear hn (by omega) hz
    exact ⟨hn, h7, fun j hj => hA j (by rw [hz]; omega) (by omega)⟩
  · intro hn hgap
    have hd := hnear hn hgap
    have hno : (m.ticks [] (buses.take n)).1.tickUpdates (buses.getD n 0) = false := by
      unfold MMC3Mapper.tickUpdates
      simp [hd]
    have htick := tick_of_not_tickUpdates _ _ hno
    refine ⟨hno, ?_, ?_, ?_⟩
    · rw [tick_irqDelay, if_pos hn]
    · rw [htick]
    · rw [htick]
  · intro hn h7 hlow
    obtain ⟨h0, _, _, hB⟩ := hwin hn
    have hle := hB 7 (le_refl _) h7 hlow
    have hz : (m.ticks [] (buses.take n)).1.irqDelay = 0 := by
      push_cast at hle
      omega
    have hup : (m.ticks [] (buses.take n)).1.tickUpdates (buses.getD n 0) = true := by
      unfold MMC3Mapper.tickUpdates
      simp only [Bool.and_eq_true, decide_eq_true_eq]
      exact ⟨hn, hz⟩
    exact ⟨hup, tick_of_tickUpdates _ _ hup⟩

/-- Witness of C20: from a state with `irqDelay = 100`, a high tick, seven low
ticks and a high tick: the last tick (index 8) performs the update; and a high
tick two low ticks after a high tick (index 3) performs none and leaves
`irqDelay = 7`. -/
theorem tick_filter_after_high_witness :
    ((MMC3Mapper.ticks
        { mirroring := Mirroring.VERTICAL, prgROMSize := 0x10000, prgRAMSize := 0x2000,
          prgRAMSizeBattery := 0, chrROMSize := 0x4000, chrRAMSize := 0,
          chrRAMSizeBattery := 0, hasCHRRAM := false, alternateMode := false,
          command := 0, irqCounter := 5, irqLatch := 9, irqReload := false,
          irqEnabled := true, irqDelay := 100 } []
        ([0x1000, 0, 0, 0, 0, 0, 0, 0, 0x1000].take 8)).1.tickUpdates
        ([0x1000, 0, 0, 0, 0, 0, 0, 0, 0x1000].getD 8 0)) = true
    ∧ ((MMC3Mapper.ticks
        { mirroring := Mirroring.VERTICAL, prgROMSize := 0x10000, prgRAMSize := 0x2000,
          prgRAMSizeBattery := 0, chrROMSize := 0x4000, chrRAMSize := 0,
          chrRAMSizeBattery := 0, hasCHRRAM := false, alternateMode := false,
          command := 0, irqCounter := 5, irqLatch := 9, irqReload := false,
          irqEnabled := true, irqDelay := 100 } []
        ([0x1000, 0, 0, 0x1000].take 3)).1.tickUpdates
        ([0x1000, 0, 0, 0x1000].getD 3 0)) = false :=
  ⟨((tick_filter_after_high
      { mirroring := Mirroring.VERTICAL, prgROMSize := 0x10000, prgRAMSize := 0x2000,
        prgRAMSizeBattery := 0, chrROMSize := 0x4000, chrRAMSize := 0,
        chrRAMSizeBattery := 0, hasCHRRAM := false, alternateMode := false,
        command := 0, irqCounter := 5, irqLatch := 9, irqReload := false,
        irqEnabled := true, irqDelay := 100 }
      [0x1000, 0, 0, 0, 0, 0, 0, 0, 0x1000] 8 0 (by decide) (by decide)).2.2
        (by decide) (by decide) (by decide)).1,
    ((tick_filter_after_high
      { mirroring := Mirroring.VERTICAL, prgROMSize := 0x10000, prgRAMSize := 0x2000,
        prgRAMSizeBattery := 0, chrROMSize := 0x4000, chrRAMSize := 0,
        chrRAMSizeBattery := 0, hasCHRRAM := false, alternateMode := false,
        command := 0, irqCounter := 5, irqLatch := 9, irqReload := false,
        irqEnabled := true, irqDelay := 100 }
      [0x1000, 0, 0, 0x1000] 3 0 (by decide) (by decide)).2.1
        (by decide) (by decide)).1⟩

/-! ## RAM buffers -/

theorem zeroArray_length (array : List UInt8) (start : Int) :
    (zeroArray array start).length = array.length := by
  unfold zeroArray
  rw [List.length_append, List.length_take, List.length_replicate]
  omega

theorem zeroArray_getElem?_lt (array : List UInt8) (start : Int) (i : Nat)
    (h : (i : Int) < start) : (zeroArray array start)[i]? = array[i]? := by
  have hi : i < start.toNat := by omega
  unfold zeroArray
  by_cases hlen : i < array.length
  · rw [List.getElem?_append_left (by rw [List.length_take]; omega), List.getElem?_take_of_lt hi]
  · have h1 : array[i]? = none := List.getElem?_eq_none (by omega)
    rw [h1]
    apply List.getElem?_eq_none
    rw [List.length_append, List.length_take, List.length_replicate]
    omega

theorem zeroArray_getElem?_ge (array : List UInt8) (start : Int) (i : Nat)
    (h0 : 0 ≤ start) (h : start ≤ (i : Int)) (hlen : i < array.length) :
    (zeroArray array start)[i]? = some 0 := by
  have hi : start.toNat ≤ i := by omega
  unfold zeroArray
  rw [List.getElem?_append_right (by rw [List.length_take]; omega), List.getElem?_replicate]
  rw [if_pos (by rw [List.length_take]; omega)]

/-- The copy that `setNVRAM` makes, for a battery size within the buffer: the
first `min(len(data), b)` bytes of the buffer become those of `data` and the
others stay. -/
theorem copyArray_prefix (data ram : List UInt8) (b : Int) (h0 : 0 ≤ b)
    (hb : b ≤ (ram.length : Int)) :
    (copyArray data ram 0 0 b).length = ram.length
    ∧ (∀ i : Nat, i < data.length → (i : Int) < b → (copyArray data ram 0 0 b)[i]? = data[i]?)
    ∧ (∀ i : Nat, (data.length ≤ i ∨ b ≤ (i : Int)) → (copyArray data ram 0 0 b)[i]? = ram[i]?) := by
  have hn : min (min b.toNat (data.length - 0)) (ram.length - 0)
      = min b.toNat data.length := by
    omega
  have hcopy : copyArray data ram 0 0 b
      = data.take (min b.toNat data.length) ++ ram.drop (min b.toNat data.length) := by
    unfold copyArray
    simp only [Int.toNat_zero, List.take_zero, List.drop_zero, List.nil_append, Nat.zero_add, hn]
  have htl : (data.take (min b.toNat data.length)).length = min b.toNat data.length := by
    rw [List.length_take]
    omega
  rw [hcopy]
  refine ⟨?_, ?_, ?_⟩
  · rw [List.length_append, htl, List.length_drop]
    omega
  · intro i hi hib
    have hlt : i < min b.toNat data.length := by omega
    rw [List.getElem?_append_left (by rw [htl]; exact hlt), List.getElem?_take_of_lt hlt]
  · intro i hi
    have hge : min b.toNat data.length ≤ i := by omega
    rw [List.getElem?_append_right (by rw [htl]; exact hge), htl, List.getElem?_drop]
    congr 1
    omega

theorem subarray_prefix (ram : List UInt8) (b : Int) (h0 : 0 ≤ b) (hb : b ≤ (ram.length : Int)) :
    subarray ram 0 b = ram.take b.toNat ∧ ((ram.take b.toNat).length : Int) = b := by
  have hc0 : clampIndex ram.length 0 = 0 := by
    unfold clampIndex
    simp
  have hcb : clampIndex ram.length b = b.toNat := by
    unfold clampIndex
    rw [if_neg (by omega)]
    omega
  constructor
  · unfold subarray
    rw [hc0, hcb, List.drop_zero, Nat.sub_zero]
  · rw [List.length_take]
    omega

theorem ramReset_fields (m : AbstractMapper) :
    m.resetPRGRAM.resetCHRRAM.prgRAM
        = m.prgRAM.map (fun ram => zeroArray ram m.prgRAMSizeBattery)
    ∧ m.resetPRGRAM.resetCHRRAM.chrRAM
        = m.chrRAM.map (fun ram => zeroArray ram m.chrRAMSizeBattery)
    ∧ m.resetPRGRAM.resetCHRRAM.prgRAMSizeBattery = m.prgRAMSizeBattery
    ∧ m.resetPRGRAM.resetCHRRAM.chrRAMSizeBattery = m.chrRAMSizeBattery := by
  obtain ⟨mir, s1, s2, bp, s3, s4, bc, pram, cram⟩ := m
  unfold AbstractMapper.resetPRGRAM AbstractMapper.resetCHRRAM
  cases pram <;> cases cram <;> simp

theorem bufferSize_map_zeroArray (buffer : Option (List UInt8)) (b : Int) :
    bufferSize (buffer.map (fun ram => zeroArray ram b)) = bufferSize buffer := by
  cases buffer with
  | none => rfl
  | some ram =>
    unfold bufferSize
    simp only [Option.map_some', zeroArray_length]

/-- With battery sizes within their buffers `setNVRAM` returns: it writes the
program RAM when `prgRAMSizeBattery` is not 0, otherwise the graphics RAM when
`chrRAMSizeBattery` is not 0, and nothing else. -/
theorem setNVRAM_ok (m : AbstractMapper) (data : List UInt8)
    (hp0 : 0 ≤ m.prgRAMSizeBattery) (hp : m.prgRAMSizeBattery ≤ bufferSize m.prgRAM)
    (hc0 : 0 ≤ m.chrRAMSizeBattery) (hc : m.chrRAMSizeBattery ≤ bufferSize m.chrRAM) :
    ∃ m2, m.setNVRAM data = Except.ok m2
      ∧ m2.prgRAMSizeBattery = m.prgRAMSizeBattery
      ∧ m2.chrRAMSizeBattery = m.chrRAMSizeBattery
      ∧ m2.prgRAM = (if m.prgRAMSizeBattery ≠ 0 then
          m.prgRAM.map (fun ram => copyArray data ram 0 0 m.prgRAMSizeBattery) else m.prgRAM)
      ∧ m2.chrRAM = (if m.prgRAMSizeBattery = 0 ∧ m.chrRAMSizeBattery ≠ 0 then
          m.chrRAM.map (fun ram => copyArray data ram 0 0 m.chrRAMSizeBattery) else m.chrRAM) := by
  obtain ⟨mir, s1, s2, bp, s3, s4, bc, pram, cram⟩ := m
  simp only at hp hc hp0 hc0
  unfold AbstractMapper.setNVRAM
  simp only
  by_cases hbp : bp ≠ 0
  · cases pram with
    | none =>
      unfold bufferSize at hp
      simp only at hp
      omega
    | some ram => exact ⟨_, by rw [if_pos hbp], rfl, rfl, by simp [hbp], by simp [hbp]⟩
  · have hbp0 : bp = 0 := not_not.mp hbp
    by_cases hbc : bc ≠ 0
    · cases cram with
      | none =>
        unfold bufferSize at hc
        simp only at hc
        omega
      | some ram =>
        exact ⟨_, by rw [if_neg hbp, if_pos hbc], rfl, rfl, by simp [hbp0], by simp [hbp0, hbc]⟩
    · exact ⟨_, by rw [if_neg hbp, if_neg hbc], rfl, rfl, by simp [hbp0],
        by simp [hbp0, not_not.mp hbc]⟩

/-- The buffer after `powerUp()`, `setNVRAM(data)`, `powerUp()`, when `setNVRAM`
wrote it. -/
theorem ram_round_trip (ram data : List UInt8) (b : Int) (h0 : 0 ≤ b)
    (hb : b ≤ (ram.length : Int)) :
    (zeroArray (copyArray data (zeroArray ram b) 0 0 b) b).length = ram.length
    ∧ (∀ i : Nat, i < data.length → (i : Int) < b →
        (zeroArray (copyArray data (zeroArray ram b) 0 0 b) b)[i]? = data[i]?)
    ∧ (∀ i : Nat, b ≤ (i : Int) → i < ram.length →
        (zeroArray (copyArray data (zeroArray ram b) 0 0 b) b)[i]? = some 0) := by
  have hz : (zeroArray ram b).length = ram.length := zeroArray_length ram b
  obtain ⟨hl, hpre, _⟩ := copyArray_prefix data (zeroArray ram b) b h0 (by rw [hz]; exact hb)
  refine ⟨?_, ?_, ?_⟩
  · rw [zeroArray_length, hl, hz]
  · intro i hi hib
    rw [zeroArray_getElem?_lt _ _ _ hib, hpre i hi hib]
  · intro i hib hil
    exact zeroArray_getElem?_ge _ _ _ h0 hib (by rw [hl, hz]; exact hil)

/-- The buffer after two `powerUp()` calls, when `setNVRAM` did not write it. -/
theorem ram_zero_twice (ram : List UInt8) (b : Int) (h0 : 0 ≤ b) :
    (zeroArray (zeroArray ram b) b).length = ram.length
    ∧ (∀ i : Nat, b ≤ (i : Int) → i < ram.length →
        (zeroArray (zeroArray ram b) b)[i]? = some 0) := by
  refine ⟨?_, ?_⟩
  · rw [zeroArray_length, zeroArray_length]
  · intro i hib hil
    exact zeroArray_getElem?_ge _ _ _ h0 hib (by rw [zeroArray_length]; exact hil)

/-- C16, as amended.  `powerUp()` calls `reset()` once, on the mapper whose RAM
buffers it has cleared: in a buffer whose battery size `b` is within the buffer,
the bytes below `b` are as before and every byte from `b` on is 0.  With battery
sizes within their buffers and a `reset()` that leaves the buffers and battery
sizes alone, `powerUp(); setNVRAM(data); powerUp()` returns, leaves every byte
from `b` on equal to 0 in each buffer, leaves the first `min(len(data), b)` bytes
of the program RAM equal to `data`, and does so for the graphics RAM when
`prgRAMSizeBattery` is 0. -/
theorem powerUp_keeps_battery_backed (m : AbstractMapper) :
    (∀ (α : Type) (reset : AbstractMapper → α),
        m.powerUp reset = reset m.resetPRGRAM.resetCHRRAM)
    ∧ (∀ ram, m.prgRAM = some ram → 0 ≤ m.prgRAMSizeBattery →
        m.prgRAMSizeBattery ≤ (ram.length : Int) →
        ∃ ram1, m.resetPRGRAM.resetCHRRAM.prgRAM = some ram1 ∧ ram1.length = ram.length
          ∧ (∀ i : Nat, (i : Int) < m.prgRAMSizeBattery → ram1[i]? = ram[i]?)
          ∧ (∀ i : Nat, m.prgRAMSizeBattery ≤ (i : Int) → i < ram.length → ram1[i]? = some 0))
    ∧ (∀ ram, m.chrRAM = some ram → 0 ≤ m.chrRAMSizeBattery →
        m.chrRAMSizeBattery ≤ (ram.length : Int) →
        ∃ ram1, m.resetPRGRAM.resetCHRRAM.chrRAM = some ram1 ∧ ram1.length = ram.length
          ∧ (∀ i : Nat, (i : Int) < m.chrRAMSizeBattery → ram1[i]? = ram[i]?)
          ∧ (∀ i : Nat, m.chrRAMSizeBattery ≤ (i : Int) → i < ram.length → ram1[i]? = some 0))
    ∧ (∀ (reset : AbstractMapper → AbstractMapper × List Call) (data : List UInt8),
        KeepsRAM reset →
        0 ≤ m.prgRAMSizeBattery → m.prgRAMSizeBattery ≤ bufferSize m.prgRAM →
        0 ≤ m.chrRAMSizeBattery → m.chrRAMSizeBattery ≤ bufferSize m.chrRAM →
        ∃ m2, (m.powerUp reset).1.setNVRAM data = Except.ok m2
          ∧ (∀ ram, m.prgRAM = some ram →
              ∃ ram3, (m2.powerUp reset).1.prgRAM = some ram3 ∧ ram3.length = ram.length
                ∧ (∀ i : Nat, i < data.length → (i : Int) < m.prgRAMSizeBattery →
                    ram3[i]? = data[i]?)
                ∧ (∀ i : Nat, m.prgRAMSizeBattery ≤ (i : Int) → i < ram.length →
                    ram3[i]? = some 0))
          ∧ (∀ ram, m.chrRAM = some ram →
              ∃ ram3, (m2.powerUp reset).1.chrRAM = some ram3 ∧ ram3.length = ram.length
                ∧ (m.prgRAMSizeBattery = 0 →
                    ∀ i : Nat, i < data.length → (i : Int) < m.chrRAMSizeBattery →
                    ram3[i]? = data[i]?)
                ∧ (∀ i : Nat, m.chrRAMSizeBattery ≤ (i : Int) → i < ram.length →
                    ram3[i]? = some 0))) := by
  obtain ⟨f1, f2, f3, f4⟩ := ramReset_fields m
  refine ⟨fun _ _ => rfl, ?_, ?_, ?_⟩
  · intro ram hram h0 hb
    refine ⟨zeroArray ram m.prgRAMSizeBattery, by rw [f1, hram]; rfl, zeroArray_length _ _,
      fun i hi => zeroArray_getElem?_lt _ _ _ hi,
      fun i hi hl => zeroArray_getElem?_ge _ _ _ h0 hi hl⟩
  · intro ram hram h0 hb
    refine ⟨zeroArray ram m.chrRAMSizeBattery, by rw [f2, hram]; rfl, zeroArray_length _ _,
      fun i hi => zeroArray_getElem?_lt _ _ _ hi,
      fun i hi hl => zeroArray_getElem?_ge _ _ _ h0 hi hl⟩
  · intro reset data hk hp0 hp hc0 hc
    obtain ⟨k1, k2, k3, k4⟩ := hk m.resetPRGRAM.resetCHRRAM
    have hm1 : m.powerUp reset = reset m.resetPRGRAM.resetCHRRAM := rfl
    have g1 : (m.powerUp reset).1.prgRAM
        = m.prgRAM.map (fun ram => zeroArray ram m.prgRAMSizeBattery) := by rw [hm1, k1, f1]
    have g2 : (m.powerUp reset).1.chrRAM
        = m.chrRAM.map (fun ram => zeroArray ram m.chrRAMSizeBattery) := by rw [hm1, k2, f2]
    have g3 : (m.powerUp reset).1.prgRAMSizeBattery = m.prgRAMSizeBattery := by rw [hm1, k3, f3]
    have g4 : (m.powerUp reset).1.chrRAMSizeBattery = m.chrRAMSizeBattery := by rw [hm1, k4, f4]
    obtain ⟨m2, hset, e3, e4, e1, e2⟩ := setNVRAM_ok (m.powerUp reset).1 data
      (by rw [g3]; exact hp0) (by rw [g3, g1, bufferSize_map_zeroArray]; exact hp)
      (by rw [g4]; exact hc0) (by rw [g4, g2, bufferSize_map_zeroArray]; exact hc)
    rw [g3, g1] at e1
    rw [g3, g4, g2] at e2
    rw [g3] at e3
    rw [g4] at e4
    obtain ⟨q1, q2, q3, q4⟩ := ramReset_fields m2
    obtain ⟨r1, r2, _, _⟩ := hk m2.resetPRGRAM.resetCHRRAM
    have hm3 : m2.powerUp reset = reset m2.resetPRGRAM.resetCHRRAM := rfl
    refine ⟨m2, hset, ?_, ?_⟩
    · intro ram hram
      rw [hram] at hp e1
      unfold bufferSize at hp
      simp only at hp
      rw [hm3, r1, q1, e1, e3]
      by_cases hb : m.prgRAMSizeBattery ≠ 0
      · obtain ⟨t1, t2, t3⟩ := ram_round_trip ram data m.prgRAMSizeBattery hp0 hp
        exact ⟨_, by rw [if_pos hb]; rfl, t1, t2, t3⟩
      · obtain ⟨t1, t3⟩ := ram_zero_twice ram m.prgRAMSizeBattery hp0
        refine ⟨_, by rw [if_neg hb]; rfl, t1, ?_, t3⟩
        intro i _ hib
        have := not_not.mp hb
        omega
    · intro ram hram
      rw [hram] at hc e2
      unfold bufferSize at hc
      simp only at hc
      rw [hm3, r2, q2, e2, e4]
      by_cases hb : m.prgRAMSizeBattery = 0 ∧ m.chrRAMSizeBattery ≠ 0
      · obtain ⟨t1, t2, t3⟩ := ram_round_trip ram data m.chrRAMSizeBattery hc0 hc
        exact ⟨_, by rw [if_pos hb]; rfl, t1, fun _ => t2, t3⟩
      · obtain ⟨t1, t3⟩ := ram_zero_twice ram m.chrRAMSizeBattery hc0
        refine ⟨_, by rw [if_neg hb]; rfl, t1, ?_, t3⟩
        intro hz i _ hib
        have : m.chrRAMSizeBattery = 0 := by
          by_contra hne
          exact hb ⟨hz, hne⟩
        omega

theorem keepsRAM_reset : KeepsRAM AbstractMapper.reset :=
  fun _ => ⟨rfl, rfl, rfl, rfl⟩

/-- Witness of C16 as amended: a 4-byte program RAM `1, 2, 3, 4` with battery
size 2, the base `reset()`, `data = 9`: after `powerUp(); setNVRAM(data);
powerUp()` byte 0 is 9 and byte 2 is 0. -/
theorem powerUp_keeps_battery_backed_witness :
    ∃ m2 ram3,
      (AbstractMapper.powerUp
          { mirroring := Mirroring.VERTICAL, prgROMSize := 0x8000, prgRAMSize := 4,
            prgRAMSizeBattery := 2, chrROMSize := 0x2000, chrRAMSize := 0,
            chrRAMSizeBattery := 0, prgRAM := some [1, 2, 3, 4], chrRAM := none }
          AbstractMapper.reset).1.setNVRAM [9] = Except.ok m2
      ∧ (m2.powerUp AbstractMapper.reset).1.prgRAM = some ram3
      ∧ ram3[0]? = [(9 : UInt8)][0]? ∧ ram3[2]? = some 0 := by
  obtain ⟨m2, h1, h2, _⟩ :=
    (powerUp_keeps_battery_backed
      { mirroring := Mirroring.VERTICAL, prgROMSize := 0x8000, prgRAMSize := 4,
        prgRAMSizeBattery := 2, chrROMSize := 0x2000, chrRAMSize := 0,
        chrRAMSizeBattery := 0, prgRAM := some [1, 2, 3, 4], chrRAM := none }).2.2.2
      AbstractMapper.reset [9] keepsRAM_reset (by decide) (by decide) (by decide) (by decide)
  obtain ⟨ram3, e, _, p, z⟩ := h2 [1, 2, 3, 4] rfl
  exact ⟨m2, ram3, h1, e, p 0 (by decide) (by decide), z 2 (by decide) (by decide)⟩

/-- C16 as stated fails for the graphics RAM when both battery sizes are not 0:
`setNVRAM` then writes the program RAM only.  With program RAM `1, 2`, graphics
RAM `3, 4`, both battery sizes 1 and `data = 9`, the graphics RAM after
`powerUp(); setNVRAM(data); powerUp()` is `3, 0`: its first byte is not 9. -/
theorem powerUp_keeps_battery_backed_counterexample :
    (AbstractMapper.powerUp
        { mirroring := Mirroring.VERTICAL, prgROMSize := 0x8000, prgRAMSize := 2,
          prgRAMSizeBattery := 1, chrROMSize := 0x2000, chrRAMSize := 2,
          chrRAMSizeBattery := 1, prgRAM := some [1, 2], chrRAM := some [3, 4] }
        AbstractMapper.reset).1.setNVRAM [9]
      = Except.ok
          { mirroring := Mirroring.VERTICAL, prgROMSize := 0x8000, prgRAMSize := 2,
            prgRAMSizeBattery := 1, chrROMSize := 0x2000, chrRAMSize := 2,
            chrRAMSizeBattery := 1, prgRAM := some [9, 0], chrRAM := some [3, 0] }
    ∧ (AbstractMapper.powerUp
        { mirroring := Mirroring.VERTICAL, prgROMSize := 0x8000, prgRAMSize := 2,
          prgRAMSizeBattery := 1, chrROMSize := 0x2000, chrRAMSize := 2,
          chrRAMSizeBattery := 1, prgRAM := some [9, 0], chrRAM := some [3, 0] }
        AbstractMapper.reset).1.chrRAM = some [3, 0] := by
  decide

/-! ## Non-volatile RAM -/

/-- `getNVRAM()` with battery sizes within their buffers. -/
theorem getNVRAM_ok (m : AbstractMapper)
    (hp0 : 0 ≤ m.prgRAMSizeBattery) (hp : m.prgRAMSizeBattery ≤ bufferSize m.prgRAM)
    (hc0 : 0 ≤ m.chrRAMSizeBattery) (hc : m.chrRAMSizeBattery ≤ bufferSize m.chrRAM) :
    (m.prgRAMSizeBattery = 0 → m.chrRAMSizeBattery = 0 → m.getNVRAM = Except.ok none)
    ∧ (m.prgRAMSizeBattery ≠ 0 → ∃ ram, m.prgRAM = some ram
        ∧ m.getNVRAM = Except.ok (some (ram.take m.prgRAMSizeBattery.toNat))
        ∧ ((ram.take m.prgRAMSizeBattery.toNat).length : Int) = m.prgRAMSizeBattery)
    ∧ (m.prgRAMSizeBattery = 0 → m.chrRAMSizeBattery ≠ 0 → ∃ ram, m.chrRAM = some ram
        ∧ m.getNVRAM = Except.ok (some (ram.take m.chrRAMSizeBattery.toNat))
        ∧ ((ram.take m.chrRAMSizeBattery.toNat).length : Int) = m.chrRAMSizeBattery) := by
  obtain ⟨mir, s1, s2, bp, s3, s4, bc, pram, cram⟩ := m
  simp only at hp hc hp0 hc0
  unfold AbstractMapper.getNVRAM
  simp only
  refine ⟨?_, ?_, ?_⟩
  · intro h1 h2
    rw [if_neg (not_not.mpr h1), if_neg (not_not.mpr h2)]
  · intro h1
    cases pram with
    | none =>
      unfold bufferSize at hp
      simp only at hp
      omega
    | some ram =>
      unfold bufferSize at hp
      simp only at hp
      obtain ⟨e1, e2⟩ := subarray_prefix ram bp hp0 hp
      exact ⟨ram, rfl, by rw [if_pos h1]; simp only [e1], e2⟩
  · intro h1 h2
    cases cram with
    | none =>
      unfold bufferSize at hc
      simp only at hc
      omega
    | some ram =>
      unfold bufferSize at hc
      simp only at hc
      obtain ⟨e1, e2⟩ := subarray_prefix ram bc hc0 hc
      exact ⟨ram, rfl, by rw [if_neg (not_not.mpr h1), if_pos h2]; simp only [e1], e2⟩

theorem getElem?_take_of_lt_toNat (ram : List UInt8) (b : Int) (i : Nat) (h : (i : Int) < b) :
    (ram.take b.toNat)[i]? = ram[i]? :=
  List.getElem?_take_of_lt (by omega)

/-- C17.  Let `b` be the battery size in force (`prgRAMSizeBattery` if it is not
0, otherwise `chrRAMSizeBattery`), not 0 and within its RAM buffer.  For every
byte array `data`, `setNVRAM(data)` returns; afterwards `getNVRAM()` returns the
first `b` bytes of that buffer, `getNVRAM()[i] = data[i]` for every
`i < min(len(data), b)`, every other byte of the buffer is as before, and the
buffer has its length. -/
theorem setNVRAM_getNVRAM (m : AbstractMapper) (data : List UInt8) :
    (m.prgRAMSizeBattery ≠ 0 → 0 ≤ m.prgRAMSizeBattery →
        m.prgRAMSizeBattery ≤ bufferSize m.prgRAM →
        ∃ m2 ram ram2 view, m.setNVRAM data = Except.ok m2
          ∧ m.prgRAM = some ram ∧ m2.prgRAM = some ram2
          ∧ m2.getNVRAM = Except.ok (some view)
          ∧ view = ram2.take m.prgRAMSizeBattery.toNat
          ∧ ram2.length = ram.length
          ∧ (∀ i : Nat, i < data.length → (i : Int) < m.prgRAMSizeBattery →
              view[i]? = data[i]?)
          ∧ (∀ i : Nat, (data.length ≤ i ∨ m.prgRAMSizeBattery ≤ (i : Int)) →
              ram2[i]? = ram[i]?))
    ∧ (m.prgRAMSizeBattery = 0 → m.chrRAMSizeBattery ≠ 0 → 0 ≤ m.chrRAMSizeBattery →
        m.chrRAMSizeBattery ≤ bufferSize m.chrRAM →
        ∃ m2 ram ram2 view, m.setNVRAM data = Except.ok m2
          ∧ m.chrRAM = some ram ∧ m2.chrRAM = some ram2
          ∧ m2.getNVRAM = Except.ok (some view)
          ∧ view = ram2.take m.chrRAMSizeBattery.toNat
          ∧ ram2.length = ram.length
          ∧ (∀ i : Nat, i < data.length → (i : Int) < m.chrRAMSizeBattery →
              view[i]? = data[i]?)
          ∧ (∀ i : Nat, (data.length ≤ i ∨ m.chrRAMSizeBattery ≤ (i : Int)) →
              ram2[i]? = ram[i]?)) := by
  obtain ⟨mir, s1, s2, bp, s3, s4, bc, pram, cram⟩ := m
  simp only
  refine ⟨?_, ?_⟩
  · intro hb h0 hfit
    cases pram with
    | none =>
      unfold bufferSize at hfit
      simp only at hfit
      omega
    | some ram =>
      unfold bufferSize at hfit
      simp only at hfit
      obtain ⟨c1, c2, c3⟩ := copyArray_prefix data ram bp h0 hfit
      obtain ⟨v1, _⟩ := subarray_prefix (copyArray data ram 0 0 bp) bp h0 (by rw [c1]; exact hfit)
      refine ⟨⟨mir, s1, s2, bp, s3, s4, bc, some (copyArray data ram 0 0 bp), cram⟩, ram,
        copyArray data ram 0 0 bp, _, ?_, rfl, rfl, ?_, rfl, c1, ?_, c3⟩
      · unfold AbstractMapper.setNVRAM
        simp only [if_pos hb]
      · unfold AbstractMapper.getNVRAM
        simp only [if_pos hb, v1]
      · intro i hi hib
        rw [getElem?_take_of_lt_toNat _ _ _ hib]
        exact c2 i hi hib
  · intro hb0 hb h0 hfit
    cases cram with
    | none =>
      unfold bufferSize at hfit
      simp only at hfit
      omega
    | some ram =>
      unfold bufferSize at hfit
      simp only at hfit
      have hnb : ¬ bp ≠ 0 := not_not.mpr hb0
      obtain ⟨c1, c2, c3⟩ := copyArray_prefix data ram bc h0 hfit
      obtain ⟨v1, _⟩ := subarray_prefix (copyArray data ram 0 0 bc) bc h0 (by rw [c1]; exact hfit)
      refine ⟨⟨mir, s1, s2, bp, s3, s4, bc, pram, some (copyArray data ram 0 0 bc)⟩, ram,
        copyArray data ram 0 0 bc, _, ?_, rfl, rfl, ?_, rfl, c1, ?_, c3⟩
      · unfold AbstractMapper.setNVRAM
        simp only [if_neg hnb, if_pos hb]
      · unfold AbstractMapper.getNVRAM
        simp only [if_neg hnb, if_pos hb, v1]
      · intro i hi hib
        rw [getElem?_take_of_lt_toNat _ _ _ hib]
        exact c2 i hi hib

/-- Witness of C17: a 4-byte program RAM `1, 2, 3, 4` with battery size 3 and
`data = 9, 8`: afterwards `getNVRAM()` starts with `9, 8` and byte 2 of the
buffer is still 3. -/
theorem setNVRAM_getNVRAM_witness :
    ∃ m2 ram2 view,
      AbstractMapper.setNVRAM
          { mirroring := Mirroring.VERTICAL, prgROMSize := 0x8000, prgRAMSize := 4,
            prgRAMSizeBattery := 3, chrROMSize := 0x2000, chrRAMSize := 0,
            chrRAMSizeBattery := 0, prgRAM := some [1, 2, 3, 4], chrRAM := none } [9, 8]
        = Except.ok m2
      ∧ m2.prgRAM = some ram2 ∧ m2.getNVRAM = Except.ok (some view)
      ∧ view[0]? = some 9 ∧ view[1]? = some 8 ∧ ram2[2]? = some 3 := by
  obtain ⟨m2, ram, ram2, view, h1, h2, h3, h4, _, _, h7, h8⟩ :=
    (setNVRAM_getNVRAM
      { mirroring := Mirroring.VERTICAL, prgROMSize := 0x8000, prgRAMSize := 4,
        prgRAMSizeBattery := 3, chrROMSize := 0x2000, chrRAMSize := 0,
        chrRAMSizeBattery := 0, prgRAM := some [1, 2, 3, 4], chrRAM := none } [9, 8]).1
      (by decide) (by decide) (by decide)
  have hram : ram = [1, 2, 3, 4] := (Option.some.inj h2).symm
  subst hram
  exact ⟨m2, ram2, view, h1, h3, h4, h7 0 (by decide) (by decide),
    h7 1 (by decide) (by decide), h8 2 (Or.inl (by decide))⟩

/-- C18.  For a cartridge whose battery sizes are within the RAM sizes, the
constructor returns a mapper, and `getNVRAM()` on it returns `null` exactly when
both battery sizes are 0; otherwise it returns the first bytes of `prgRAM`, as
many as `prgRAMSizeBattery`, when that is not 0, and the first bytes of `chrRAM`,
as many as `chrRAMSizeBattery`, when `prgRAMSizeBattery` is 0.  `getNVRAM` is a
function of the mapper that returns the view only: it changes nothing. -/
theorem getNVRAM_of_cartridge (cartridge : Cartridge)
    (hp0 : 0 ≤ cartridge.prgRAMSizeBattery)
    (hp : cartridge.prgRAMSizeBattery ≤ cartridge.prgRAMSize)
    (hc0 : 0 ≤ cartridge.chrRAMSizeBattery)
    (hc : cartridge.chrRAMSizeBattery ≤ cartridge.chrRAMSize) :
    ∃ m result, AbstractMapper.new cartridge = Except.ok m
      ∧ m.getNVRAM = Except.ok result
      ∧ (result = none ↔ cartridge.prgRAMSizeBattery = 0 ∧ cartridge.chrRAMSizeBattery = 0)
      ∧ (cartridge.prgRAMSizeBattery ≠ 0 → ∃ ram, m.prgRAM = some ram
          ∧ (ram.length : Int) = cartridge.prgRAMSize
          ∧ result = some (ram.take cartridge.prgRAMSizeBattery.toNat)
          ∧ ((ram.take cartridge.prgRAMSizeBattery.toNat).length : Int)
              = cartridge.prgRAMSizeBattery)
      ∧ (cartridge.prgRAMSizeBattery = 0 → cartridge.chrRAMSizeBattery ≠ 0 →
          ∃ ram, m.chrRAM = some ram
          ∧ (ram.length : Int) = cartridge.chrRAMSize
          ∧ result = some (ram.take cartridge.chrRAMSizeBattery.toNat)
          ∧ ((ram.take cartridge.chrRAMSizeBattery.toNat).length : Int)
              = cartridge.chrRAMSizeBattery) := by
  obtain ⟨mir, s1, s2, bp, s3, s4, bc⟩ := cartridge
  simp only at hp0 hp hc0 hc
  simp only
  have hnew : AbstractMapper.new ⟨mir, s1, s2, bp, s3, s4, bc⟩
      = Except.ok
          ⟨mir, s1, s2, bp, s3, s4, bc,
            if s2 ≠ 0 then some (List.replicate s2.toNat 0) else none,
            if s4 ≠ 0 then some (List.replicate s4.toNat 0) else none⟩ := by
    unfold AbstractMapper.new AbstractMapper.init AbstractMapper.initPRGRAM
      AbstractMapper.initCHRRAM newUint8Array
    have h2 : ¬ s2 < 0 := by omega
    have h4 : ¬ s4 < 0 := by omega
    by_cases z2 : s2 ≠ 0 <;> by_cases z4 : s4 ≠ 0 <;> simp [z2, z4, h2, h4]
  have hpfit : bp ≤ bufferSize (if s2 ≠ 0 then some (List.replicate s2.toNat 0) else none) := by
    unfold bufferSize
    split
    · rename_i ram heq
      split at heq
      · cases heq
        rw [List.length_replicate]
        omega
      · cases heq
    · rename_i heq
      split at heq
      · cases heq
      · omega
  have hcfit : bc ≤ bufferSize (if s4 ≠ 0 then some (List.replicate s4.toNat 0) else none) := by
    unfold bufferSize
    split
    · rename_i ram heq
      split at heq
      · cases heq
        rw [List.length_replicate]
        omega
      · cases heq
    · rename_i heq
      split at heq
      · cases heq
      · omega
  obtain ⟨g1, g2, g3⟩ := getNVRAM_ok
    ⟨mir, s1, s2, bp, s3, s4, bc,
      if s2 ≠ 0 then some (List.replicate s2.toNat 0) else none,
      if s4 ≠ 0 then some (List.replicate s4.toNat 0) else none⟩ hp0 hpfit hc0 hcfit
  simp only at g1 g2 g3
  by_cases zp : bp ≠ 0
  · obtain ⟨ram, r1, r2, r3⟩ := g2 zp
    have hs2 : s2 ≠ 0 := by omega
    have hlen : (ram.length : Int) = s2 := by
      rw [if_pos hs2] at r1
      cases r1
      rw [List.length_replicate]
      omega
    refine ⟨_, _, hnew, r2, ?_, ?_, ?_⟩
    · constructor
      · intro h
        cases h
      · intro h
        exact absurd h.1 zp
    · intro _
      exact ⟨ram, r1, hlen, rfl, r3⟩
    · intro h
      exact absurd h zp
  · have zp0 : bp = 0 := not_not.mp zp
    by_cases zc : bc ≠ 0
    · obtain ⟨ram, r1, r2, r3⟩ := g3 zp0 zc
      have hs4 : s4 ≠ 0 := by omega
      have hlen : (ram.length : Int) = s4 := by
        rw [if_pos hs4] at r1
        cases r1
        rw [List.length_replicate]
        omega
      refine ⟨_, _, hnew, r2, ?_, ?_, ?_⟩
      · constructor
        · intro h
          cases h
        · intro h
          exact absurd h.2 zc
      · intro h
        exact absurd zp0 h
      · intro _ _
        exact ⟨ram, r1, hlen, rfl, r3⟩
    · have zc0 : bc = 0 := not_not.mp zc
      refine ⟨_, _, hnew, g1 zp0 zc0, ?_, ?_, ?_⟩
      · exact ⟨fun _ => ⟨zp0, zc0⟩, fun _ => rfl⟩
      · intro h
        exact absurd zp0 h
      · intro _ h
        exact absurd zc0 h

/-- Witness of C18: 8 KiB of program RAM of which the first 4 bytes are battery
backed, and 8 KiB of graphics RAM with battery size 2: `getNVRAM()` returns the
4 bytes of the program RAM. -/
theorem getNVRAM_of_cartridge_witness :
    ∃ m result,
      AbstractMapper.new
          { mirroring := Mirroring.VERTICAL, prgROMSize := 0x8000, prgRAMSize := 0x2000,
            prgRAMSizeBattery := 4, chrROMSize := 0, chrRAMSize := 0x2000,
            chrRAMSizeBattery := 2 } = Except.ok m
      ∧ m.getNVRAM = Except.ok result
      ∧ ∃ ram, m.prgRAM = some ram ∧ (ram.length : Int) = 0x2000
          ∧ result = some (ram.take 4) ∧ ((ram.take 4).length : Int) = 4 := by
  obtain ⟨m, result, h1, h2, _, h4, _⟩ :=
    getNVRAM_of_cartridge
      { mirroring := Mirroring.VERTICAL, prgROMSize := 0x8000, prgRAMSize := 0x2000,
        prgRAMSizeBattery := 4, chrROMSize := 0, chrRAMSize := 0x2000,
        chrRAMSizeBattery := 2 } (by decide) (by decide) (by decide) (by decide)
  obtain ⟨ram, r1, r2, r3, r4⟩ := h4 (by decide)
  exact ⟨m, result, h1, h2, ram, r1, r2, r3, r4⟩

/-! ## The graphics source slots of the six bank commands -/

theorem jsAnd_seven_one (a : Int) : jsAnd (jsAnd a 7) 1 = jsAnd a 1 := by
  have hlt : toUint32 a &&& toUint32 7 < 4294967296 :=
    lt_of_le_of_lt Nat.and_le_left (toUint32_lt a)
  have hu : toUint32 (jsAnd a 7) = toUint32 a &&& toUint32 7 := by
    rw [jsAnd_def, toUint32_toInt32, toUint32_natCast _ hlt]
  have h71 : toUint32 7 &&& toUint32 1 = toUint32 1 := by decide
  rw [jsAnd_def (jsAnd a 7) 1, hu, Nat.and_assoc, h71, ← jsAnd_def]

theorem jsAnd_pred_pred_three (a : Int) : jsAnd (a - 2) 0x03 = (jsAnd a 7 - 2) % 4 := by
  have h3 : jsAnd (a - 2) 0x03 = (a - 2) % 4 := jsAnd_two_pow_sub_one (a - 2) 2 (by norm_num)
  have h7 : jsAnd a 7 = a % 8 := jsAnd_two_pow_sub_one a 3 (by norm_num)
  rw [h3, h7]
  omega

theorem jsAnd_high_bit_cases (a : Int) : jsAnd a 0x80 = 0 ∨ jsAnd a 0x80 = 128 := by
  have h7 : jsAnd a 0x80 = if (toUint32 a).testBit 7 then 128 else 0 :=
    jsAnd_two_pow a 7 (by norm_num)
  rw [h7]
  cases (toUint32 a).testBit 7
  · exact Or.inl rfl
  · exact Or.inr rfl

theorem jsAnd_not_high_bit (a : Int) :
    jsUshr (jsAnd (jsNot a) 0x80) 5 = if jsAnd a 0x80 = 0 then 4 else 0 := by
  have h7 : jsAnd a 0x80 = if (toUint32 a).testBit 7 then 128 else 0 :=
    jsAnd_two_pow a 7 (by norm_num)
  rw [single_source_high_bit, h7]
  unfold bitOf
  cases (toUint32 a).testBit 7 <;> decide

theorem write_bank_select_slot (m : MMC3Mapper) (address v : Int)
    (hslot : jsAnd address 0xE001 = 0x8001) : m.write address v = (m, m.writeBankSelect v) := by
  unfold MMC3Mapper.write
  simp only [hslot]
  norm_num

/-- The two source units that a write assigns under a command with sub-function
0 or 1. -/
theorem selectedSlots_double (m : MMC3Mapper) (address c v : Int)
    (hslot : jsAnd address 0xE001 = 0x8001) (hram : m.hasCHRRAM = false)
    (hk : jsAnd c 7 = 0 ∨ jsAnd c 7 = 1) :
    selectedSlots m address c v
      = [jsOr (jsUshr (jsAnd c 0x80) 6) (jsAnd (jsAnd c 7) 1) * 2 + 0,
         jsOr (jsUshr (jsAnd c 0x80) 6) (jsAnd (jsAnd c 7) 1) * 2 + 1] := by
  have hselect : ({ m with command := c } : MMC3Mapper).writeBankSelect v
      = ({ m with command := c } : MMC3Mapper).switchDoubleCHRROMBanks v := by
    unfold MMC3Mapper.writeBankSelect
    simp only [hk, hram]
    simp
  unfold selectedSlots
  rw [write_bank_select_slot _ address v hslot, hselect]
  unfold MMC3Mapper.switchDoubleCHRROMBanks AbstractMapper.mapCHRROMBank2K
    AbstractMapper.mapCHRROMBank1K
  simp only [forCount_two, sourceSlots, jsAnd_seven_one, zero_add]

/-- The source unit that a write assigns under a command with sub-function 2, 3,
4 or 5. -/
theorem selectedSlots_single (m : MMC3Mapper) (address c v : Int)
    (hslot : jsAnd address 0xE001 = 0x8001) (hram : m.hasCHRRAM = false)
    (hk : jsAnd c 7 = 2 ∨ jsAnd c 7 = 3 ∨ jsAnd c 7 = 4 ∨ jsAnd c 7 = 5) :
    selectedSlots m address c v
      = [jsOr (if jsAnd c 0x80 = 0 then 4 else 0) ((jsAnd c 7 - 2) % 4) + 0] := by
  have hselect : ({ m with command := c } : MMC3Mapper).writeBankSelect v
      = ({ m with command := c } : MMC3Mapper).switchSingleCHRROMBanks v := by
    unfold MMC3Mapper.writeBankSelect
    rcases hk with h | h | h | h <;> simp [h, hram]
  unfold selectedSlots
  rw [write_bank_select_slot _ address v hslot, hselect]
  unfold MMC3Mapper.switchSingleCHRROMBanks AbstractMapper.mapCHRROMBank1K
  simp only [forCount_one, sourceSlots, jsAnd_not_high_bit, jsAnd_pred_pred_three]

/-- C21.  For a cartridge without CHR RAM, let six commands agree with `c` on
bit 7 and have the sub-functions 0 to 5.  When bit 7 of `c` is clear, a
bank-select-data write assigns the source units 0, 1 under sub-function 0, the
units 2, 3 under sub-function 1, and the units 4, 5, 6, 7 under the sub-functions
2, 3, 4, 5; when bit 7 is set it assigns 4, 5 and 6, 7 under the sub-functions 0
and 1, and 0, 1, 2, 3 under the sub-functions 2 to 5.  In both cases the six
sets are pairwise disjoint and their union is exactly the units 0 to 7. -/
theorem chr_source_slots_partition (m : MMC3Mapper) (address c : Int) (cmd v : Nat → Int)
    (hslot : jsAnd address 0xE001 = 0x8001) (hram : m.hasCHRRAM = false)
    (hcmd : ∀ k : Nat, k < 6 →
      jsAnd (cmd k) 0x80 = jsAnd c 0x80 ∧ jsAnd (cmd k) 7 = (k : Int)) :
    (jsAnd c 0x80 = 0 →
      selectedSlots m address (cmd 0) (v 0) = [0, 1]
      ∧ selectedSlots m address (cmd 1) (v 1) = [2, 3]
      ∧ selectedSlots m address (cmd 2) (v 2) = [4]
      ∧ selectedSlots m address (cmd 3) (v 3) = [5]
      ∧ selectedSlots m address (cmd 4) (v 4) = [6]
      ∧ selectedSlots m address (cmd 5) (v 5) = [7])
    ∧ (jsAnd c 0x80 ≠ 0 →
      selectedSlots m address (cmd 0) (v 0) = [4, 5]
      ∧ selectedSlots m address (cmd 1) (v 1) = [6, 7]
      ∧ selectedSlots m address (cmd 2) (v 2) = [0]
      ∧ selectedSlots m address (cmd 3) (v 3) = [1]
      ∧ selectedSlots m address (cmd 4) (v 4) = [2]
      ∧ selectedSlots m address (cmd 5) (v 5) = [3])
    ∧ (selectedSlots m address (cmd 0) (v 0) ++ selectedSlots m address (cmd 1) (v 1)
        ++ selectedSlots m address (cmd 2) (v 2) ++ selectedSlots m address (cmd 3) (v 3)
        ++ selectedSlots m address (cmd 4) (v 4) ++ selectedSlots m address (cmd 5) (v 5)).Nodup
    ∧ (∀ s : Int, s ∈ selectedSlots m address (cmd 0) (v 0)
          ++ selectedSlots m address (cmd 1) (v 1) ++ selectedSlots m address (cmd 2) (v 2)
          ++ selectedSlots m address (cmd 3) (v 3) ++ selectedSlots m address (cmd 4) (v 4)
          ++ selectedSlots m address (cmd 5) (v 5)
        ↔ 0 ≤ s ∧ s ≤ 7) := by
  obtain ⟨a0, k0⟩ := hcmd 0 (by norm_num)
  obtain ⟨a1, k1⟩ := hcmd 1 (by norm_num)
  obtain ⟨a2, k2⟩ := hcmd 2 (by norm_num)
  obtain ⟨a3, k3⟩ := hcmd 3 (by norm_num)
  obtain ⟨a4, k4⟩ := hcmd 4 (by norm_num)
  obtain ⟨a5, k5⟩ := hcmd 5 (by norm_num)
  have s0 := selectedSlots_double m address (cmd 0) (v 0) hslot hram (Or.inl k0)
  have s1 := selectedSlots_double m address (cmd 1) (v 1) hslot hram (Or.inr k1)
  have s2 := selectedSlots_single m address (cmd 2) (v 2) hslot hram (Or.inl k2)
  have s3 := selectedSlots_single m address (cmd 3) (v 3) hslot hram (Or.inr (Or.inl k3))
  have s4 := selectedSlots_single m address (cmd 4) (v 4) hslot hram
    (Or.inr (Or.inr (Or.inl k4)))
  have s5 := selectedSlots_single m address (cmd 5) (v 5) hslot hram
    (Or.inr (Or.inr (Or.inr k5)))
  rw [a0, k0] at s0
  rw [a1, k1] at s1
  rw [a2, k2] at s2
  rw [a3, k3] at s3
  rw [a4, k4] at s4
  rw [a5, k5] at s5
  have hclear : jsAnd c 0x80 = 0 →
      selectedSlots m address (cmd 0) (v 0) = [0, 1]
      ∧ selectedSlots m address (cmd 1) (v 1) = [2, 3]
      ∧ selectedSlots m address (cmd 2) (v 2) = [4]
      ∧ selectedSlots m address (cmd 3) (v 3) = [5]
      ∧ selectedSlots m address (cmd 4) (v 4) = [6]
      ∧ selectedSlots m address (cmd 5) (v 5) = [7] := by
    intro hz
    rw [hz] at s0 s1 s2 s3 s4 s5
    rw [s0, s1, s2, s3, s4, s5]
    decide
  have hset : jsAnd c 0x80 ≠ 0 →
      selectedSlots m address (cmd 0) (v 0) = [4, 5]
      ∧ selectedSlots m address (cmd 1) (v 1) = [6, 7]
      ∧ selectedSlots m address (cmd 2) (v 2) = [0]
      ∧ selectedSlots m address (cmd 3) (v 3) = [1]
      ∧ selectedSlots m address (cmd 4) (v 4) = [2]
      ∧ selectedSlots m address (cmd 5) (v 5) = [3] := by
    intro hnz
    have h128 : jsAnd c 0x80 = 128 := by
      rcases jsAnd_high_bit_cases c with h | h
      · exact absurd h hnz
      · exact h
    rw [h128] at s0 s1 s2 s3 s4 s5
    rw [s0, s1, s2, s3, s4, s5]
    decide
  refine ⟨hclear, hset, ?_, ?_⟩
  · by_cases hz : jsAnd c 0x80 = 0
    · obtain ⟨e0, e1, e2, e3, e4, e5⟩ := hclear hz
      rw [e0, e1, e2, e3, e4, e5]
      decide
    · obtain ⟨e0, e1, e2, e3, e4, e5⟩ := hset hz
      rw [e0, e1, e2, e3, e4, e5]
      decide
  · intro s
    by_cases hz : jsAnd c 0x80 = 0
    · obtain ⟨e0, e1, e2, e3, e4, e5⟩ := hclear hz
      rw [e0, e1, e2, e3, e4, e5]
      simp only [List.cons_append, List.nil_append, List.mem_cons, List.mem_nil_iff, or_false]
      omega
    · obtain ⟨e0, e1, e2, e3, e4, e5⟩ := hset hz
      rw [e0, e1, e2, e3, e4, e5]
      simp only [List.cons_append, List.nil_append, List.mem_cons, List.mem_nil_iff, or_false]
      omega

/-- Witness of C21: the commands `0x80` to `0x85` (bit 7 set), a 16 KiB graphics
ROM: the sub-functions 0 and 1 assign the units 4, 5 and 6, 7, the sub-functions 2
to 5 the units 0, 1, 2, 3. -/
theorem chr_source_slots_partition_witness :
    selectedSlots
        { mirroring := Mirroring.VERTICAL, prgROMSize := 0x10000, prgRAMSize := 0x2000,
          prgRAMSizeBattery := 0, chrROMSize := 0x4000, chrRAMSize := 0,
          chrRAMSizeBattery := 0, hasCHRRAM := false, alternateMode := false,
          command := 0, irqCounter := 0, irqLatch := 0, irqReload := false,
          irqEnabled := false, irqDelay := 0 } 0x8001 0x80 0 = [4, 5]
    ∧ selectedSlots
        { mirroring := Mirroring.VERTICAL, prgROMSize := 0x10000, prgRAMSize := 0x2000,
          prgRAMSizeBattery := 0, chrROMSize := 0x4000, chrRAMSize := 0,
          chrRAMSizeBattery := 0, hasCHRRAM := false, alternateMode := false,
          command := 0, irqCounter := 0, irqLatch := 0, irqReload := false,
          irqEnabled := false, irqDelay := 0 } 0x8001 0x81 0 = [6, 7]
    ∧ selectedSlots
        { mirroring := Mirroring.VERTICAL, prgROMSize := 0x10000, prgRAMSize := 0x2000,
          prgRAMSizeBattery := 0, chrROMSize := 0x4000, chrRAMSize := 0,
          chrRAMSizeBattery := 0, hasCHRRAM := false, alternateMode := false,
          command := 0, irqCounter := 0, irqLatch := 0, irqReload := false,
          irqEnabled := false, irqDelay := 0 } 0x8001 0x82 0 = [0]
    ∧ selectedSlots
        { mirroring := Mirroring.VERTICAL, prgROMSize := 0x10000, prgRAMSize := 0x2000,
          prgRAMSizeBattery := 0, chrROMSize := 0x4000, chrRAMSize := 0,
          chrRAMSizeBattery := 0, hasCHRRAM := false, alternateMode := false,
          command := 0, irqCounter := 0, irqLatch := 0, irqReload := false,
          irqEnabled := false, irqDelay := 0 } 0x8001 0x83 0 = [1]
    ∧ selectedSlots
        { mirroring := Mirroring.VERTICAL, prgROMSize := 0x10000, prgRAMSize := 0x2000,
          prgRAMSizeBattery := 0, chrROMSize := 0x4000, chrRAMSize := 0,
          chrRAMSizeBattery := 0, hasCHRRAM := false, alternateMode := false,
          command := 0, irqCounter := 0, irqLatch := 0, irqReload := false,
          irqEnabled := false, irqDelay := 0 } 0x8001 0x84 0 = [2]
    ∧ selectedSlots
        { mirroring := Mirroring.VERTICAL, prgROMSize := 0x10000, prgRAMSize := 0x2000,
          prgRAMSizeBattery := 0, chrROMSize := 0x4000, chrRAMSize := 0,
          chrRAMSizeBattery := 0, hasCHRRAM := false, alternateMode := false,
          command := 0, irqCounter := 0, irqLatch := 0, irqReload := false,
          irqEnabled := false, irqDelay := 0 } 0x8001 0x85 0 = [3] :=
  (chr_source_slots_partition
    { mirroring := Mirroring.VERTICAL, prgROMSize := 0x10000, prgRAMSize := 0x2000,
      prgRAMSizeBattery := 0, chrROMSize := 0x4000, chrRAMSize := 0,
      chrRAMSizeBattery := 0, hasCHRRAM := false, alternateMode := false,
      command := 0, irqCounter := 0, irqLatch := 0, irqReload := false,
      irqEnabled := false, irqDelay := 0 } 0x8001 0x80 (fun k => [0x80, 0x81, 0x82, 0x83, 0x84, 0x85].getD k 0) (fun _ => 0)
    (by decide) rfl (by decide)).2.1 (by decide)

/-! ## The interrupt registers along a run -/

theorem run_nil (m : MMC3Mapper) (calls : List Call) : m.run calls [] = (m, calls) := rfl

theorem run_cons (m : MMC3Mapper) (calls : List Call) (input : Input) (rest : List Input) :
    m.run calls (input :: rest) = (m.step input).1.run (calls ++ (m.step input).2) rest := by
  unfold MMC3Mapper.run
  rw [List.foldl_cons]

theorem irqInvariant_reset (m : MMC3Mapper) : IrqInvariant m.reset.1 := by
  unfold IrqInvariant MMC3Mapper.reset MMC3Mapper.resetRegisters
  simp

theorem irqInvariant_updateIRQCounter (m : MMC3Mapper) (h : IrqInvariant m) :
    IrqInvariant m.updateIRQCounter.1 := by
  obtain ⟨d0, d7, c0, c255, l0, l255, hr⟩ := h
  unfold IrqInvariant MMC3Mapper.updateIRQCounter
  by_cases hc : m.irqCounter = 0 ∨ m.irqReload = true
  · simp only [if_pos hc]
    exact ⟨d0, d7, l0, l255, l0, l255, fun hf => by cases hf⟩
  · simp only [if_neg hc]
    have hne : m.irqCounter ≠ 0 := fun h0 => hc (Or.inl h0)
    exact ⟨d0, d7, by omega, by omega, l0, l255, fun hf => by cases hf⟩

theorem irqInvariant_tick (m : MMC3Mapper) (bus : Int) (h : IrqInvariant m) :
    IrqInvariant (m.tick bus).1 := by
  unfold MMC3Mapper.tick
  by_cases hb : jsAnd bus 0x1000 ≠ 0
  · simp only [if_pos hb]
    by_cases hd : m.irqDelay = 0
    · simp only [if_pos hd]
      obtain ⟨_, _, c0, c255, l0, l255, hr⟩ := irqInvariant_updateIRQCounter m h
      exact ⟨by norm_num, le_refl _, c0, c255, l0, l255, hr⟩
    · simp only [if_neg hd]
      obtain ⟨_, _, c0, c255, l0, l255, hr⟩ := h
      exact ⟨by norm_num, le_refl _, c0, c255, l0, l255, hr⟩
  · simp only [if_neg hb]
    obtain ⟨d0, d7, c0, c255, l0, l255, hr⟩ := h
    by_cases hd : m.irqDelay ≠ 0
    · simp only [if_pos hd]
      exact ⟨by show 0 ≤ m.irqDelay - 1; omega, by show m.irqDelay - 1 ≤ 7; omega,
        c0, c255, l0, l255, hr⟩
    · simp only [if_neg hd]
      exact ⟨d0, d7, c0, c255, l0, l255, hr⟩

theorem irqInvariant_write (m : MMC3Mapper) (address value : Int) (h : IrqInvariant m)
    (h0 : 0 ≤ value) (h255 : value ≤ 255) : IrqInvariant (m.write address value).1 := by
  obtain ⟨d0, d7, c0, c255, l0, l255, hr⟩ := h
  unfold MMC3Mapper.write
  simp only
  split
  · exact ⟨d0, d7, c0, c255, l0, l255, hr⟩
  split
  · exact ⟨d0, d7, c0, c255, l0, l255, hr⟩
  split
  · exact ⟨d0, d7, c0, c255, l0, l255, hr⟩
  split
  · exact ⟨d0, d7, c0, c255, l0, l255, hr⟩
  split
  · exact ⟨d0, d7, c0, c255, h0, h255, hr⟩
  split
  · unfold MMC3Mapper.writeIRQReload
    cases m.alternateMode
    · exact ⟨d0, d7, le_refl _, by norm_num, l0, l255, fun _ => rfl⟩
    · exact ⟨d0, d7, le_refl _, by norm_num, l0, l255, fun _ => rfl⟩
  split
  · exact ⟨d0, d7, c0, c255, l0, l255, hr⟩
  split
  · exact ⟨d0, d7, c0, c255, l0, l255, hr⟩
  · exact ⟨d0, d7, c0, c255, l0, l255, hr⟩

theorem irqInvariant_run (inputs : List Input) :
    ∀ (m : MMC3Mapper) (calls : List Call), IrqInvariant m →
      (∀ input ∈ inputs, input.writesByte = true) → IrqInvariant (m.run calls inputs).1 := by
  induction inputs with
  | nil =>
    intro m calls h _
    rw [run_nil]
    exact h
  | cons input rest ih =>
    intro m calls h hin
    rw [run_cons]
    apply ih
    · have hv := hin input (List.mem_cons_self _ _)
      cases input with
      | write address value =>
        unfold Input.writesByte at hv
        simp only [Bool.and_eq_true, decide_eq_true_eq] at hv
        exact irqInvariant_write m address value h hv.1 hv.2
      | tick addressBus => exact irqInvariant_tick m addressBus h
    · exact fun x hx => hin x (List.mem_cons_of_mem _ hx)

/-- C22.  In every state reached from `reset()` by a run of `write(address,
value)` calls with `0 ≤ value ≤ 255` and `tick()` calls with any address-bus
values, in normal or alternate mode: `0 ≤ irqDelay ≤ 7`, `0 ≤ irqCounter ≤ 255`,
and `irqCounter = 0` whenever the reload flag is set. -/
theorem irq_registers_in_range (m : MMC3Mapper) (inputs : List Input)
    (hin : ∀ input ∈ inputs, input.writesByte = true) :
    0 ≤ (m.reset.1.run [] inputs).1.irqDelay
    ∧ (m.reset.1.run [] inputs).1.irqDelay ≤ 7
    ∧ 0 ≤ (m.reset.1.run [] inputs).1.irqCounter
    ∧ (m.reset.1.run [] inputs).1.irqCounter ≤ 255
    ∧ ((m.reset.1.run [] inputs).1.irqReload = true →
        (m.reset.1.run [] inputs).1.irqCounter = 0) := by
  obtain ⟨d0, d7, c0, c255, _, _, hr⟩ :=
    irqInvariant_run inputs m.reset.1 [] (irqInvariant_reset m) hin
  exact ⟨d0, d7, c0, c255, hr⟩

/-- Witness of C22: alternate mode, from a state with registers out of range;
after `reset()` the latch is set to 255, an update reloads the counter, the
force-reload slot is written, and a low tick follows: `irqDelay = 6`,
`irqCounter = 0` and the reload flag is set. -/
theorem irq_registers_in_range_witness :
    (0 ≤ ((MMC3Mapper.reset
        { mirroring := Mirroring.VERTICAL, prgROMSize := 0x10000, prgRAMSize := 0x2000,
          prgRAMSizeBattery := 0, chrROMSize := 0x2000, chrRAMSize := 0,
          chrRAMSizeBattery := 0, hasCHRRAM := false, alternateMode := true,
          command := 9, irqCounter := 300, irqLatch := 0, irqReload := false,
          irqEnabled := false, irqDelay := 50 }).1.run []
        [Input.write 0xC000 255, Input.tick 0x1000, Input.write 0xC001 0, Input.tick 0]).1.irqDelay
      ∧ ((MMC3Mapper.reset
        { mirroring := Mirroring.VERTICAL, prgROMSize := 0x10000, prgRAMSize := 0x2000,
          prgRAMSizeBattery := 0, chrROMSize := 0x2000, chrRAMSize := 0,
          chrRAMSizeBattery := 0, hasCHRRAM := false, alternateMode := true,
          command := 9, irqCounter := 300, irqLatch := 0, irqReload := false,
          irqEnabled := false, irqDelay := 50 }).1.run []
        [Input.write 0xC000 255, Input.tick 0x1000, Input.write 0xC001 0, Input.tick 0]).1.irqDelay ≤ 7
      ∧ 0 ≤ ((MMC3Mapper.reset
        { mirroring := Mirroring.VERTICAL, prgROMSize := 0x10000, prgRAMSize := 0x2000,
          prgRAMSizeBattery := 0, chrROMSize := 0x2000, chrRAMSize := 0,
          chrRAMSizeBattery := 0, hasCHRRAM := false, alternateMode := true,
          command := 9, irqCounter := 300, irqLatch := 0, irqReload := false,
          irqEnabled := false, irqDelay := 50 }).1.run []
        [Input.write 0xC000 255, Input.tick 0x1000, Input.write 0xC001 0, Input.tick 0]).1.irqCounter
      ∧ ((MMC3Mapper.reset
        { mirroring := Mirroring.VERTICAL, prgROMSize := 0x10000, prgRAMSize := 0x2000,
          prgRAMSizeBattery := 0, chrROMSize := 0x2000, chrRAMSize := 0,
          chrRAMSizeBattery := 0, hasCHRRAM := false, alternateMode := true,
          command := 9, irqCounter := 300, irqLatch := 0, irqReload := false,
          irqEnabled := false, irqDelay := 50 }).1.run []
        [Input.write 0xC000 255, Input.tick 0x1000, Input.write 0xC001 0, Input.tick 0]).1.irqCounter ≤ 255
      ∧ (((MMC3Mapper.reset
        { mirroring := Mirroring.VERTICAL, prgROMSize := 0x10000, prgRAMSize := 0x2000,
          prgRAMSizeBattery := 0, chrROMSize := 0x2000, chrRAMSize := 0,
          chrRAMSizeBattery := 0, hasCHRRAM := false, alternateMode := true,
          command := 9, irqCounter := 300, irqLatch := 0, irqReload := false,
          irqEnabled := false, irqDelay := 50 }).1.run []
        [Input.write 0xC000 255, Input.tick 0x1000, Input.write 0xC001 0, Input.tick 0]).1.irqReload = true →
          ((MMC3Mapper.reset
        { mirroring := Mirroring.VERTICAL, prgROMSize := 0x10000, prgRAMSize := 0x2000,
          prgRAMSizeBattery := 0, chrROMSize := 0x2000, chrRAMSize := 0,
          chrRAMSizeBattery := 0, hasCHRRAM := false, alternateMode := true,
          command := 9, irqCounter := 300, irqLatch := 0, irqReload := false,
          irqEnabled := false, irqDelay := 50 }).1.run []
        [Input.write 0xC000 255, Input.tick 0x1000, Input.write 0xC001 0, Input.tick 0]).1.irqCounter = 0))
    ∧ ((MMC3Mapper.reset
        { mirroring := Mirroring.VERTICAL, prgROMSize := 0x10000, prgRAMSize := 0x2000,
          prgRAMSizeBattery := 0, chrROMSize := 0x2000, chrRAMSize := 0,
          chrRAMSizeBattery := 0, hasCHRRAM := false, alternateMode := true,
          command := 9, irqCounter := 300, irqLatch := 0, irqReload := false,
          irqEnabled := false, irqDelay := 50 }).1.run []
        [Input.write 0xC000 255, Input.tick 0x1000, Input.write 0xC001 0, Input.tick 0]).1.irqDelay = 6
    ∧ ((MMC3Mapper.reset
        { mirroring := Mirroring.VERTICAL, prgROMSize := 0x10000, prgRAMSize := 0x2000,
          prgRAMSizeBattery := 0, chrROMSize := 0x2000, chrRAMSize := 0,
          chrRAMSizeBattery := 0, hasCHRRAM := false, alternateMode := true,
          command := 9, irqCounter := 300, irqLatch := 0, irqReload := false,
          irqEnabled := false, irqDelay := 50 }).1.run []
        [Input.write 0xC000 255, Input.tick 0x1000, Input.write 0xC001 0, Input.tick 0]).1.irqReload = true :=
  ⟨irq_registers_in_range
      { mirroring := Mirroring.VERTICAL, prgROMSize := 0x10000, prgRAMSize := 0x2000,
          prgRAMSizeBattery := 0, chrROMSize := 0x2000, chrRAMSize := 0,
          chrRAMSizeBattery := 0, hasCHRRAM := false, alternateMode := true,
          command := 9, irqCounter := 300, irqLatch := 0, irqReload := false,
          irqEnabled := false, irqDelay := 50 }
      [Input.write 0xC000 255, Input.tick 0x1000, Input.write 0xC001 0, Input.tick 0]
      (by decide),
    by decide, by decide⟩

end Cfxnes
